import Mathlib

/-!
# v8go bridge (`v8go.cc` / `v8go.h`): a shallow embedding

The C++ bridge between the host and the embedded script engine is modelled as
state-passing functions over an explicit heap of `m_ctx`, `m_value` and
`m_template` records.  Pointers are natural numbers, `0` is `nullptr`.
Calls into the engine (`v8::...`) and into the host (`goContext`,
`goFunctionCallback`) are parameters: records of functions whose results are
not constrained.  A function returns `none` where the C++ code aborts
(`ToLocalChecked` on an empty handle, dereferencing an empty `Local`).
`new` hands out an address that is not live, which may be one released by
`delete` before; which one is the choice of the allocator and part of the
state.  Engine calls that can run script, among them the string conversions of
the exception translator, transform the state.
-/

namespace V8go

/-! ## Basic types -/

/-- A raw pointer (`IsolatePtr`, `ContextPtr`, `ValuePtr`, `TemplatePtr`); `0` is `nullptr`. -/
abbrev Ptr := Nat

/-- The identity of an engine value behind a `Local<Value>`. -/
abbrev LocalValue := Nat

/-- The identity of an engine context behind a `Local<Context>`. -/
abbrev LocalContext := Nat

/-- The identity of a compiled script behind a `Local<Script>`. -/
abbrev Script := Nat

/-- The terminator of C strings. -/
def NUL : Char := Char.ofNat 0

/-- What a `const char*` denotes when read as a C string: the characters before the first NUL. -/
def cstr (cs : List Char) : List Char := cs.takeWhile (fun c => c != NUL)

/-- A `const char*` handed to the host: `none` is `nullptr`, `some cs` a buffer
holding `cs` followed by the terminating NUL. -/
abbrev CharPtr := Option (List Char)

/-- C `int`: the value of an integer after conversion to a 32-bit signed `int`. -/
def toInt (x : Int) : Int := (x + 2 ^ 31) % 2 ^ 32 - 2 ^ 31

/-- Engine type `String::Utf8Value` seen through its two observers: `operator*`
(`str`, `none` when the conversion to a string failed) and `length()`. -/
structure Utf8Value where
  str : Option (List Char)
deriving DecidableEq, Repr

/-- The `length()` of a `String::Utf8Value`: the number of UTF-8 bytes, `0` when the conversion failed. -/
def Utf8Value.length (value : Utf8Value) : Nat :=
  match value.str with
  | none => 0
  | some cs => (cs.map Char.utf8Size).sum

/-- Record `RtnError` of v8go.h. -/
structure RtnError where
  msg : CharPtr
  location : CharPtr
  stack : CharPtr
deriving DecidableEq, Repr

/-- Record `RtnValue` of v8go.h. -/
structure RtnValue where
  value : Ptr
  error : RtnError
deriving DecidableEq, Repr

/-- Record `m_ctx`: `ptr` is the `Persistent<Context>`, `none` when empty. -/
structure m_ctx where
  iso : Ptr
  vals : List Ptr
  ptr : Option LocalContext
deriving DecidableEq, Repr

/-- Record `m_value`: `ptr` is the `Persistent<Value>`, `none` when empty. -/
structure m_value where
  iso : Ptr
  ctx : Ptr
  ptr : Option LocalValue
deriving DecidableEq, Repr

/-- An engine template: an object template, or a function template with the
callback `FunctionTemplateCallback` and its data value (an `Integer`). -/
inductive Template where
  | object
  | function (data : Int)
deriving DecidableEq, Repr

/-- Record `m_template`: `ptr` is the `Persistent<Template>`, `none` when empty. -/
structure m_template where
  iso : Ptr
  ptr : Option Template
deriving DecidableEq, Repr

/-- The structured message object of a caught exception (`Local<Message>`), by
the observers `ExceptionError` uses. -/
structure Message where
  /-- `String::Utf8Value origin(iso, msg->GetScriptOrigin().ResourceName())` -/
  ResourceName : Utf8Value
  /-- `GetLineNumber(ctx)`, a `Maybe<int>` -/
  LineNumber : Option Int
  /-- `GetStartColumn(ctx)`, a `Maybe<int>` -/
  StartColumn : Option Int
deriving DecidableEq, Repr

/-- What the bridge does that is visible from outside, in program order. -/
inductive Event where
  /-- construction of a `Locker` on the isolate -/
  | lock (iso : Ptr)
  /-- destruction of a `Locker` on the isolate -/
  | unlock (iso : Ptr)
  /-- call of `Script::Compile` -/
  | compile (ctx : LocalContext)
  /-- call of `Script::Run` -/
  | run (script : Script) (ctx : LocalContext)
  /-- `ctx->ptr.Reset()` without argument on an `m_ctx` -/
  | resetContext (ctx : Ptr)
  /-- `val->ptr.Reset()` without argument on an `m_value` -/
  | resetValue (val : Ptr)
  /-- `delete val` -/
  | deleteValue (val : Ptr)
  /-- `delete ctx` -/
  | deleteContext (ctx : Ptr)
  /-- `SetEmbedderData(slot, Integer)` on an engine context -/
  | setEmbedderData (ctx : LocalContext) (slot : Nat) (v : Int)
  /-- call of the host function `goContext` -/
  | goContext (ctxref : Int)
  /-- call of the host function `goFunctionCallback` -/
  | goFunctionCallback (ctxref cbref : Int) (args : List Ptr) (args_count : Nat)
  /-- `iso->Dispose()`: the engine isolate is gone, and with it what every
  persistent reference into it referred to -/
  | dispose (iso : Ptr)
deriving DecidableEq, Repr

/-- The memory of the bridge together with the engine state it reads back. -/
structure State where
  /-- contents of the `m_ctx` records, by address -/
  ctxs : Ptr → m_ctx
  /-- contents of the `m_value` records, by address -/
  values : Ptr → m_value
  /-- contents of the `m_template` records, by address -/
  templates : Ptr → m_template
  /-- allocated by `new` and not yet passed to `delete` -/
  live : Ptr → Bool
  /-- highest address `new` has handed out so far -/
  next : Nat
  /-- what the allocator will do at the coming calls of `new`, one entry per
  call: an entry that is a released address is handed out again, any other
  entry (and an empty list) makes `new` hand out an address never used before -/
  recycle : List Ptr
  /-- embedder data slots of the engine contexts -/
  embedder : LocalContext → Nat → Option Int
  /-- the global object template each engine context was created with -/
  global : LocalContext → Option Template
  /-- counter of the engine contexts made by `Context::New` -/
  nextContext : Nat
  /-- data slots of the isolates (`iso->SetData`, `iso->GetData`) -/
  isoData : Ptr → Nat → Ptr
  /-- the events so far, oldest first -/
  trace : List Event

/-- Functional update of a map at one key. -/
def update {β : Type} (f : Nat → β) (k : Nat) (v : β) : Nat → β :=
  fun q => if q = k then v else f q

/-- Append one event to the trace. -/
def State.emit (s : State) (e : Event) : State :=
  { s with trace := s.trace ++ [e] }

/-- C++ `new`: a non-null address that is not live, marked live. The allocator
hands out either an address it handed out before and that was passed to
`delete` since (the head of `recycle`, when that is such an address), or an
address never used before. -/
def State.new (s : State) : Ptr × State :=
  match s.recycle with
  | p :: rest =>
    if p ≠ 0 ∧ p ≤ s.next ∧ s.live p = false then
      (p, { s with recycle := rest, live := update s.live p true })
    else
      (s.next + 1,
        { s with recycle := rest, next := s.next + 1, live := update s.live (s.next + 1) true })
  | [] => (s.next + 1, { s with next := s.next + 1, live := update s.live (s.next + 1) true })

/-- C++ `delete`: the address is no longer live, and `new` may hand it out
again. What the record held is left as it was. -/
def State.delete (s : State) (p : Ptr) : State :=
  { s with live := update s.live p false }

/-- The allocator settles what it will do at the coming calls of `new`. This
is a step of the environment, not of the bridge. -/
def State.plan (s : State) (ps : List Ptr) : State :=
  { s with recycle := ps }

/-! ## Strings -/

/-- `std::string(const char*)`: the characters up to the first NUL. -/
def std_string (p : List Char) : List Char := cstr p

/-- `CopyString(std::string str)`: a fresh buffer with a copy of `str` and a terminating NUL. -/
def CopyString (str : List Char) : CharPtr := some str

/-- `CopyString(String::Utf8Value& value)`: `nullptr` when the length is zero,
otherwise `CopyString(*value)`, which converts `*value` to a `std::string`. -/
def CopyString_Utf8Value (value : Utf8Value) : CharPtr :=
  if value.length = 0 then none
  else
    match value.str with
    | none => none
    | some p => CopyString (std_string p)

/-- A `std::ostringstream`: the characters written, and the `badbit`. -/
structure ostringstream where
  buf : List Char
  bad : Bool
deriving DecidableEq, Repr

/-- `sb << p` for a `const char* p`: appends the C string; a null `p` sets the
`badbit`, after which every insertion is ignored. -/
def ostringstream.put_cstr (sb : ostringstream) (p : Option (List Char)) : ostringstream :=
  if sb.bad then sb
  else
    match p with
    | none => { sb with bad := true }
    | some cs => { sb with buf := sb.buf ++ cstr cs }

/-- Signed decimal text of an integer. -/
def decimal (n : Int) : List Char := (Int.repr n).data

/-- `sb << n` for an `int n`: appends its signed decimal text. -/
def ostringstream.put_int (sb : ostringstream) (n : Int) : ostringstream :=
  if sb.bad then sb else { sb with buf := sb.buf ++ decimal n }

/-- `sb.str()`. -/
def ostringstream.str (sb : ostringstream) : List Char := sb.buf

/-- The fixed message of a terminated execution. -/
def terminatedMessage : String :=
  "ExecutionTerminated: script execution has been terminated"

/-! ## Exception translation -/

/-- The exception trap `TryCatch`, by the observers `ExceptionError` uses.
Two of them run script code, and with it callbacks into the host: the
conversion of the thrown value to a string calls its `toString`, and
`StackTrace` reads its `stack` property and converts that. What they return
is in `Exception` and `StackTrace`; what they do to memory meanwhile is in
`Exception_run` and `StackTrace_run`. The resource name of a script origin is
a string or undefined, so its conversion runs no script. -/
structure TryCatch where
  HasTerminated : Bool
  /-- `String::Utf8Value exception(iso, try_catch.Exception())` -/
  Exception : Utf8Value
  /-- `try_catch.Message()`, `none` when the handle is empty -/
  Message : Option Message
  /-- `try_catch.StackTrace(ctx)` as a `String::Utf8Value`, `none` when the `MaybeLocal` is empty -/
  StackTrace : Option Utf8Value
  /-- memory after `String::Utf8Value exception(iso, try_catch.Exception())` has run -/
  Exception_run : State → State := id
  /-- memory after `try_catch.StackTrace(ctx)` and the conversion of its result have run -/
  StackTrace_run : State → State := id

/-- What the conversions made by `ExceptionError` do to memory: nothing when
execution was terminated (it returns before them), else the conversion of the
exception followed by that of the stack trace. -/
def TryCatch.conversions (try_catch : TryCatch) (s : State) : State :=
  if try_catch.HasTerminated then s
  else try_catch.StackTrace_run (try_catch.Exception_run s)

/-- `RtnError ExceptionError(TryCatch& try_catch, Isolate* iso, Local<Context> ctx)`. -/
def ExceptionError (try_catch : TryCatch) (iso : Ptr) (s : State) : RtnError × State :=
  let s := s.emit (.lock iso)
  let rtn : RtnError := { msg := none, location := none, stack := none }
  if try_catch.HasTerminated then
    ({ rtn with msg := CopyString terminatedMessage.data }, s.emit (.unlock iso))
  else
    let s := try_catch.Exception_run s
    let rtn := { rtn with msg := CopyString_Utf8Value try_catch.Exception }
    let rtn :=
      match try_catch.Message with
      | none => rtn
      | some msg =>
        let origin := msg.ResourceName
        let sb : ostringstream := { buf := [], bad := false }
        let sb := sb.put_cstr origin.str
        let sb :=
          match msg.LineNumber with
          | some line => (sb.put_cstr (some [':'])).put_int line
          | none => sb
        let sb :=
          match msg.StartColumn with
          | some start => (sb.put_cstr (some [':'])).put_int (toInt (start + 1))
          | none => sb
        { rtn with location := CopyString sb.str }
    let s := try_catch.StackTrace_run s
    let rtn :=
      match try_catch.StackTrace with
      | none => rtn
      | some stack => { rtn with stack := CopyString_Utf8Value stack }
    (rtn, s.emit (.unlock iso))

/-! ## The engine and the host, as parameters -/

/-- The calls into the engine whose results the bridge uses.  A `MaybeLocal` is
an `Option`.  `Script_Run` executes script code, which may call back into the
bridge, so it also transforms the state. -/
structure Engine where
  /-- `String::NewFromUtf8(iso, s, NewStringType::kNormal)` -/
  String_NewFromUtf8 : String → Option LocalValue
  /-- `Script::Compile(local_ctx, src, &script_origin)` and the trap afterwards -/
  Script_Compile : LocalContext → LocalValue → LocalValue → Option Script × TryCatch
  /-- `script->Run(local_ctx)`, the trap afterwards, and the state afterwards -/
  Script_Run : Script → LocalContext → State → (Option LocalValue × TryCatch) × State
  /-- `Function::New(local_ctx, FunctionTemplateCallback, data)` with an `Integer` data value -/
  Function_New : LocalContext → Int → Option LocalValue
  /-- `promise->Then(local_ctx, func)` -/
  Promise_Then : LocalContext → LocalValue → LocalValue → Option LocalValue
  /-- `promise->Then(local_ctx, onFulfilledFunc, onRejectedFunc)` -/
  Promise_Then2 : LocalContext → LocalValue → LocalValue → LocalValue → Option LocalValue
  /-- `promise->Catch(local_ctx, func)` -/
  Promise_Catch : LocalContext → LocalValue → LocalValue → Option LocalValue

/-- The two host functions the trampoline calls.  `goFunctionCallback` runs host
logic, which may call bridge operations, so it also transforms the state. -/
structure Host where
  /-- `ContextPtr goContext(int ctxref)` -/
  goContext : Int → Ptr
  /-- `ValuePtr goFunctionCallback(int ctxref, int cbref, const ValuePtr* args, int args_count)` -/
  goFunctionCallback : Int → Int → List Ptr → Nat → State → Ptr × State

/-! ## Handle registry -/

/-- The idiom `m_value* val = new m_value; val->iso = iso; val->ctx = ctx;
val->ptr = Persistent<Value, ...>(iso, v);` that precedes every `tracked_value`. -/
def new_m_value (iso ctx : Ptr) (v : Option LocalValue) (s : State) : Ptr × State :=
  let (val, s) := s.new
  (val, { s with values := update s.values val { iso := iso, ctx := ctx, ptr := v } })

/-- `ValuePtr tracked_value(m_ctx* ctx, m_value* val)`. -/
def tracked_value (ctx : Ptr) (val : Ptr) (s : State) : Ptr × State :=
  let val_ptr := val
  let c := s.ctxs ctx
  (val_ptr, { s with ctxs := update s.ctxs ctx { c with vals := c.vals ++ [val_ptr] } })

/-- `void ValueFree(ValuePtr ptr)`. -/
def ValueFree (ptr : Ptr) (s : State) : State :=
  if ptr = 0 then s
  else
    let val := ptr
    let v := s.values val
    let s := { s with values := update s.values val { v with ptr := none } }
    let s := s.emit (.resetValue val)
    (s.delete val).emit (.deleteValue val)

/-! ## Contexts -/

/-- `Context::New(iso, nullptr, global_template)`: a fresh engine context with
the given global template and no embedder data. -/
def Context_New (global_template : Option Template) (s : State) : LocalContext × State :=
  let c := s.nextContext + 1
  (c, { s with nextContext := c,
               embedder := update s.embedder c (fun _ => none),
               global := update s.global c global_template })

/-- `local_ctx->SetEmbedderData(slot, Integer::New(iso, v))`. -/
def SetEmbedderData (local_ctx : LocalContext) (slot : Nat) (v : Int) (s : State) : State :=
  let s := { s with embedder := update s.embedder local_ctx (update (s.embedder local_ctx) slot (some v)) }
  s.emit (.setEmbedderData local_ctx slot v)

/-- `ContextPtr NewContext(IsolatePtr iso_ptr, TemplatePtr global_template_ptr, int ref)`. -/
def NewContext (iso_ptr : Ptr) (global_template_ptr : Ptr) (ref : Int) (s : State) : Ptr × State :=
  let iso := iso_ptr
  let s := s.emit (.lock iso)
  let global_template : Option Template :=
    if global_template_ptr ≠ 0 then (s.templates global_template_ptr).ptr
    else some Template.object
  let (local_ctx, s) := Context_New global_template s
  let s := SetEmbedderData local_ctx 1 ref s
  let (ctx, s) := s.new
  let s := { s with ctxs := update s.ctxs ctx { iso := iso, vals := [], ptr := some local_ctx } }
  (ctx, s.emit (.unlock iso))

/-- `void ContextFree(ContextPtr ptr)`. -/
def ContextFree (ptr : Ptr) (s : State) : State :=
  if ptr = 0 then s
  else
    let ctx := ptr
    let c := s.ctxs ctx
    let s := { s with ctxs := update s.ctxs ctx { c with ptr := none } }
    let s := s.emit (.resetContext ctx)
    let s := (s.ctxs ctx).vals.foldl (fun s val_ptr => ValueFree val_ptr s) s
    (s.delete ctx).emit (.deleteContext ctx)

/-- What the macro `LOCAL_CONTEXT(ctx_ptr)` brings into scope. -/
structure ContextScope where
  ctx : Ptr
  iso : Ptr
  local_ctx : LocalContext
deriving DecidableEq, Repr

/-- The macro `LOCAL_CONTEXT(ctx_ptr)`; entering an empty `Local<Context>` aborts. -/
def LOCAL_CONTEXT (ctx_ptr : Ptr) (s : State) : Option (ContextScope × State) :=
  let ctx := ctx_ptr
  let iso := (s.ctxs ctx).iso
  let s := s.emit (.lock iso)
  match (s.ctxs ctx).ptr with
  | none => none
  | some local_ctx => some ({ ctx := ctx, iso := iso, local_ctx := local_ctx }, s)

/-- `RtnValue RunScript(ContextPtr ctx_ptr, const char* source, const char* origin)`. -/
def RunScript (eng : Engine) (ctx_ptr : Ptr) (source origin : String) (s : State) :
    Option (RtnValue × State) :=
  match LOCAL_CONTEXT ctx_ptr s with
  | none => none
  | some (sc, s) =>
    match eng.String_NewFromUtf8 source with
    | none => none
    | some src =>
      match eng.String_NewFromUtf8 origin with
      | none => none
      | some ogn =>
        let rtn : RtnValue := { value := 0, error := { msg := none, location := none, stack := none } }
        let s := s.emit (.compile sc.local_ctx)
        match eng.Script_Compile sc.local_ctx src ogn with
        | (none, try_catch) =>
          let (e, s) := ExceptionError try_catch sc.iso s
          some ({ rtn with error := e }, s.emit (.unlock sc.iso))
        | (some script, _) =>
          let s := s.emit (.run script sc.local_ctx)
          match eng.Script_Run script sc.local_ctx s with
          | ((none, try_catch), s) =>
            let (e, s) := ExceptionError try_catch sc.iso s
            some ({ rtn with error := e }, s.emit (.unlock sc.iso))
          | ((some result, _), s) =>
            let (val, s) := new_m_value sc.iso sc.ctx (some result) s
            let (v, s) := tracked_value sc.ctx val s
            some ({ rtn with value := v }, s.emit (.unlock sc.iso))

/-! ## Function templates and the callback trampoline -/

/-- `TemplatePtr NewFunctionTemplate(IsolatePtr iso_ptr, int callback_ref)`:
`cbData` is `Integer::New(iso, callback_ref)`. -/
def NewFunctionTemplate (iso_ptr : Ptr) (callback_ref : Int) (s : State) : Ptr × State :=
  let iso := iso_ptr
  let s := s.emit (.lock iso)
  let cbData := callback_ref
  let (ot, s) := s.new
  let s := { s with templates := update s.templates ot
                       { iso := iso, ptr := some (Template.function cbData) } }
  (ot, s.emit (.unlock iso))

/-- The `FunctionCallbackInfo<Value>` the engine hands to a callback, with the
engine state the callback reads. -/
structure FunctionCallbackInfo where
  /-- `info.GetIsolate()` -/
  isolate : Ptr
  /-- `iso->GetCurrentContext()` during the call -/
  currentContext : LocalContext
  /-- `info.Data().As<Integer>()->Value()` -/
  data : Int
  /-- `info[0] .. info[info.Length() - 1]` -/
  args : List LocalValue
deriving DecidableEq, Repr

/-- What a callback leaves in `info.GetReturnValue()`. -/
inductive ReturnValue where
  /-- `Set(v)` with the `Local<Value>` read from a persistent handle -/
  | set (v : Option LocalValue)
  /-- `SetUndefined()` -/
  | undefined
deriving DecidableEq, Repr

/-- The argument loop of `FunctionTemplateCallback`:
`for (i = 0; i < args_count; i++) { new m_value ...; args[i] = tracked_value(ctx, val); }`. -/
def wrap_args (iso ctx : Ptr) : List LocalValue → State → List Ptr × State
  | [], s => ([], s)
  | a :: rest, s =>
    let (val, s) := new_m_value iso ctx (some a) s
    let (p, s) := tracked_value ctx val s
    let (ps, s) := wrap_args iso ctx rest s
    (p :: ps, s)

/-- `static void FunctionTemplateCallback(const FunctionCallbackInfo<Value>& info)`;
reading an embedder slot that holds no `Integer` aborts. -/
def FunctionTemplateCallback (host : Host) (info : FunctionCallbackInfo) (s : State) :
    Option (ReturnValue × State) :=
  let iso := info.isolate
  let s := s.emit (.lock iso)
  let local_ctx := info.currentContext
  match s.embedder local_ctx 1 with
  | none => none
  | some d =>
    let ctx_ref := toInt d
    let s := s.emit (.goContext ctx_ref)
    let ctx := host.goContext ctx_ref
    let callback_ref := toInt info.data
    let args_count := info.args.length
    let (args, s) := wrap_args iso ctx info.args s
    let s := s.emit (.goFunctionCallback ctx_ref callback_ref args args_count)
    let (val_ptr, s) := host.goFunctionCallback ctx_ref callback_ref args args_count s
    if val_ptr ≠ 0 then
      some (ReturnValue.set (s.values val_ptr).ptr, s.emit (.unlock iso))
    else
      some (ReturnValue.undefined, s.emit (.unlock iso))

/-- Engine contract of `FunctionTemplate::New(iso, callback, data)`: a call of a
function made from the template runs `callback` with `info.Data()` being `data`. -/
def call_template_function (host : Host) (tmpl : Option Template) (iso : Ptr)
    (current : LocalContext) (args : List LocalValue) (s : State) : Option (ReturnValue × State) :=
  match tmpl with
  | some (Template.function data) =>
    FunctionTemplateCallback host
      { isolate := iso, currentContext := current, data := data, args := args } s
  | _ => none

/-! ## Values and promises -/

/-- What the macro `LOCAL_VALUE(ptr)` brings into scope. -/
structure ValueScope where
  iso : Ptr
  ctx : Ptr
  local_ctx : LocalContext
  value : Option LocalValue
deriving DecidableEq, Repr

/-- The macro `LOCAL_VALUE(ptr)`; entering an empty `Local<Context>` aborts. -/
def LOCAL_VALUE (ptr : Ptr) (s : State) : Option (ValueScope × State) :=
  let val := s.values ptr
  let iso := val.iso
  let s := s.emit (.lock iso)
  let ctx := if val.ctx ≠ 0 then val.ctx else s.isoData iso 0
  match (s.ctxs ctx).ptr with
  | none => none
  | some local_ctx =>
    some ({ iso := iso, ctx := ctx, local_ctx := local_ctx, value := val.ptr }, s)

/-- `ValuePtr PromiseThen(ValuePtr ptr, int callback_ref)`. -/
def PromiseThen (eng : Engine) (ptr : Ptr) (callback_ref : Int) (s : State) :
    Option (Ptr × State) :=
  match LOCAL_VALUE ptr s with
  | none => none
  | some (sc, s) =>
    match sc.value with
    | none => none
    | some promise =>
      let cbData := callback_ref
      match eng.Function_New sc.local_ctx cbData with
      | none => none
      | some func =>
        match eng.Promise_Then sc.local_ctx promise func with
        | none => none
        | some _result =>
          let (promise_val, s) := new_m_value sc.iso sc.ctx (some promise) s
          let (r, s) := tracked_value sc.ctx promise_val s
          some (r, s.emit (.unlock sc.iso))

/-- `ValuePtr PromiseThen2(ValuePtr ptr, int on_fulfilled_ref, int on_rejected_ref)`. -/
def PromiseThen2 (eng : Engine) (ptr : Ptr) (on_fulfilled_ref on_rejected_ref : Int) (s : State) :
    Option (Ptr × State) :=
  match LOCAL_VALUE ptr s with
  | none => none
  | some (sc, s) =>
    match sc.value with
    | none => none
    | some promise =>
      let onFulfilledData := on_fulfilled_ref
      match eng.Function_New sc.local_ctx onFulfilledData with
      | none => none
      | some onFulfilledFunc =>
        let onRejectedData := on_rejected_ref
        match eng.Function_New sc.local_ctx onRejectedData with
        | none => none
        | some onRejectedFunc =>
          match eng.Promise_Then2 sc.local_ctx promise onFulfilledFunc onRejectedFunc with
          | none => none
          | some _result =>
            let (promise_val, s) := new_m_value sc.iso sc.ctx (some promise) s
            let (r, s) := tracked_value sc.ctx promise_val s
            some (r, s.emit (.unlock sc.iso))

/-- `ValuePtr PromiseCatch(ValuePtr ptr, int callback_ref)`. -/
def PromiseCatch (eng : Engine) (ptr : Ptr) (callback_ref : Int) (s : State) :
    Option (Ptr × State) :=
  match LOCAL_VALUE ptr s with
  | none => none
  | some (sc, s) =>
    match sc.value with
    | none => none
    | some promise =>
      let cbData := callback_ref
      match eng.Function_New sc.local_ctx cbData with
      | none => none
      | some func =>
        match eng.Promise_Catch sc.local_ctx promise func with
        | none => none
        | some _result =>
          let (promise_val, s) := new_m_value sc.iso sc.ctx (some promise) s
          let (r, s) := tracked_value sc.ctx promise_val s
          some (r, s.emit (.unlock sc.iso))

/-! ## Concrete inputs -/

/-- A memory in which nothing has been allocated. -/
def State.empty : State :=
  { ctxs := fun _ => { iso := 0, vals := [], ptr := none },
    values := fun _ => { iso := 0, ctx := 0, ptr := none },
    templates := fun _ => { iso := 0, ptr := none },
    live := fun _ => false,
    next := 0,
    recycle := [],
    embedder := fun _ _ => none,
    global := fun _ => none,
    nextContext := 0,
    isoData := fun _ _ => 0,
    trace := [] }

/-- A trap after a terminated execution that still holds an exception, a message and a stack. -/
def trapTerminated : TryCatch :=
  { HasTerminated := true,
    Exception := { str := some "Error: boom".data },
    Message := some { ResourceName := { str := some "main.js".data },
                      LineNumber := some 3, StartColumn := some 4 },
    StackTrace := some { str := some "Error: boom at main.js:3:5".data } }

/-- The trap after running `throw ''`: the string form of the exception is empty. -/
def trapThrowEmpty : TryCatch :=
  { HasTerminated := false,
    Exception := { str := some [] },
    Message := some { ResourceName := { str := some "main.js".data },
                      LineNumber := some 1, StartColumn := some 0 },
    StackTrace := none }

/-- A trap for an exception thrown at line 3, engine column 4 of `main.js`. -/
def trapColumn4 : TryCatch :=
  { HasTerminated := false,
    Exception := { str := some "ReferenceError: x is not defined".data },
    Message := some { ResourceName := { str := some "main.js".data },
                      LineNumber := some 3, StartColumn := some 4 },
    StackTrace := some { str := some "ReferenceError: x is not defined at main.js:3:5".data } }

/-- A trap that holds an exception but no message object. -/
def trapNoMessage : TryCatch :=
  { HasTerminated := false,
    Exception := { str := some "oops".data },
    Message := none,
    StackTrace := none }

/-- A trap that holds nothing. -/
def trapClear : TryCatch :=
  { HasTerminated := false, Exception := { str := none }, Message := none, StackTrace := none }

/-- A trap for a syntax error at line 1, engine column 2 of `main.js`. -/
def trapSyntax : TryCatch :=
  { HasTerminated := false,
    Exception := { str := some "SyntaxError: Unexpected end of input".data },
    Message := some { ResourceName := { str := some "main.js".data },
                      LineNumber := some 1, StartColumn := some 2 },
    StackTrace := none }

/-- An engine for the examples: a string is identified by its length; the
source of length 2 does not compile; the script of the source of length 1 throws;
every other script yields the value `40 + script`; `then` and `catch` on a
promise `p` yield the chained promise `p + 100`. -/
def demoEngine : Engine :=
  { String_NewFromUtf8 := fun str => some str.length,
    Script_Compile := fun _ src _ => if src = 2 then (none, trapSyntax) else (some src, trapClear),
    Script_Run := fun script _ s =>
      if script = 1 then ((none, trapColumn4), s) else ((some (40 + script), trapClear), s),
    Function_New := fun _ data => some (1000 + data.toNat),
    Promise_Then := fun _ promise _ => some (promise + 100),
    Promise_Then2 := fun _ promise _ _ => some (promise + 100),
    Promise_Catch := fun _ promise _ => some (promise + 100) }

/-- The memory after `NewContext(iso = 1, nullptr, ref = 7)` on the empty
memory: the context record is at address `1`, its engine context is `1`. -/
def demoState : State := (NewContext 1 0 7 State.empty).2

/-- The memory after two engine values, `10` and `20`, were wrapped and tracked
under the context at address `1` of `demoState`: the handles are at `2` and `3`. -/
def demoTracked : State := (wrap_args 1 1 [10, 20] demoState).2

/-- The trampoline up to the call of `goFunctionCallback`, for an embedder slot
holding the integer `d`: the argument array, and the state in which the host
callback is entered. -/
def callback_entry (host : Host) (info : FunctionCallbackInfo) (d : Int) (s : State) :
    List Ptr × State :=
  let ctx_ref := toInt d
  let w := wrap_args info.isolate (host.goContext ctx_ref) info.args
    ((s.emit (.lock info.isolate)).emit (.goContext ctx_ref))
  (w.1, w.2.emit (.goFunctionCallback ctx_ref (toInt info.data) w.1 info.args.length))

/-- A host for the examples: the context registry maps the identifier `7` to
the context at address `1`; the callback returns its first argument, or null
when it has none. -/
def demoHost : Host :=
  { goContext := fun ctxref => if ctxref = 7 then 1 else 0,
    goFunctionCallback := fun _ _ args _ s => (args.headD 0, s) }

/-- The memory after the promise `50` was wrapped and tracked under the context
at address `1` of `demoState`: its handle is at address `2`. -/
def demoPromise : State := (wrap_args 1 1 [50] demoState).2

/-- The trap after running a throw of the two-character string NUL, `x`. -/
def trapThrowNUL : TryCatch :=
  { HasTerminated := false,
    Exception := { str := some [NUL, 'x'] },
    Message := none,
    StackTrace := none }

/-! ## Isolates -/

/-- `Isolate* iso = Isolate::New(params)`: a fresh non-null isolate address. -/
def Isolate_New (s : State) : Ptr × State := s.new

/-- `iso->SetData(slot, p)`. -/
def Isolate_SetData (iso : Ptr) (slot : Nat) (p : Ptr) (s : State) : State :=
  { s with isoData := update s.isoData iso (update (s.isoData iso) slot p) }

/-- `IsolatePtr NewIsolate()`: the context for internal use is created without
a global template and stored in data slot 0 of the isolate. -/
def NewIsolate (s : State) : Ptr × State :=
  let (iso, s) := Isolate_New s
  let s := s.emit (.lock iso)
  let (ctx, s) := s.new
  let (local_ctx, s) := Context_New none s
  let s := { s with ctxs := update s.ctxs ctx { iso := iso, vals := [], ptr := some local_ctx } }
  let s := Isolate_SetData iso 0 ctx s
  (iso, s.emit (.unlock iso))

/-- `void IsolateDispose(IsolatePtr ptr)`.  The disposal of the engine isolate
is recorded as an event only: the records of the bridge are memory of the
bridge and stay as they are, but the references they hold into the disposed
isolate are dead from then on, which the records do not show.  What is proved
of `IsolateDispose` is therefore about the calls it makes and the records it
releases, not about what can be done with the isolate afterwards. -/
def IsolateDispose (ptr : Ptr) (s : State) : State :=
  if ptr = 0 then s
  else
    let iso := ptr
    let s := ContextFree (s.isoData iso 0) s
    s.emit (.dispose iso)

/-- Engine type `v8::HeapStatistics`, by its eleven accessors. -/
structure HeapStatistics where
  total_heap_size : Nat
  total_heap_size_executable : Nat
  total_physical_size : Nat
  total_available_size : Nat
  used_heap_size : Nat
  heap_size_limit : Nat
  malloced_memory : Nat
  external_memory : Nat
  peak_malloced_memory : Nat
  number_of_native_contexts : Nat
  number_of_detached_contexts : Nat
deriving DecidableEq, Repr

/-- Record `IsolateHStatistics` of v8go.h. -/
structure IsolateHStatistics where
  total_heap_size : Nat
  total_heap_size_executable : Nat
  total_physical_size : Nat
  total_available_size : Nat
  used_heap_size : Nat
  heap_size_limit : Nat
  malloced_memory : Nat
  external_memory : Nat
  peak_malloced_memory : Nat
  number_of_native_contexts : Nat
  number_of_detached_contexts : Nat
deriving DecidableEq, Repr

/-- `IsolateHStatistics IsolationGetHeapStatistics(IsolatePtr ptr)`; the
parameter is `iso->GetHeapStatistics(&hs)`.  `IsolateHStatistics{0}` sets the
first field to `0` and value-initialises the others. -/
def IsolationGetHeapStatistics (GetHeapStatistics : Ptr → HeapStatistics) (ptr : Ptr) :
    IsolateHStatistics :=
  if ptr = 0 then
    { total_heap_size := 0, total_heap_size_executable := 0, total_physical_size := 0,
      total_available_size := 0, used_heap_size := 0, heap_size_limit := 0,
      malloced_memory := 0, external_memory := 0, peak_malloced_memory := 0,
      number_of_native_contexts := 0, number_of_detached_contexts := 0 }
  else
    let iso := ptr
    let hs := GetHeapStatistics iso
    { total_heap_size := hs.total_heap_size,
      total_heap_size_executable := hs.total_heap_size_executable,
      total_physical_size := hs.total_physical_size,
      total_available_size := hs.total_available_size,
      used_heap_size := hs.used_heap_size,
      heap_size_limit := hs.heap_size_limit,
      malloced_memory := hs.malloced_memory,
      external_memory := hs.external_memory,
      peak_malloced_memory := hs.peak_malloced_memory,
      number_of_native_contexts := hs.number_of_native_contexts,
      number_of_detached_contexts := hs.number_of_detached_contexts }

/-! ## Further engine calls -/

/-- The engine calls on values that the operations below use.  A call that can
run script code (property getters, `toJSON`, function bodies, `toString`) also
transforms the state. -/
structure ValueEngine where
  /-- `Exception::Error(msg)` -/
  Exception_Error : LocalValue → LocalValue
  /-- `Exception::RangeError(msg)` -/
  Exception_RangeError : LocalValue → LocalValue
  /-- `Exception::ReferenceError(msg)` -/
  Exception_ReferenceError : LocalValue → LocalValue
  /-- `Exception::SyntaxError(msg)` -/
  Exception_SyntaxError : LocalValue → LocalValue
  /-- `Exception::TypeError(msg)` -/
  Exception_TypeError : LocalValue → LocalValue
  /-- `Integer::New(iso, v)` -/
  Integer_New : Int → LocalValue
  /-- `Undefined(iso)` -/
  Undefined : LocalValue
  /-- `JSON::Parse(local_ctx, str)` and the trap afterwards -/
  JSON_Parse : LocalContext → LocalValue → Option LocalValue × TryCatch
  /-- `JSON::Stringify(local_ctx, value)` read through `String::Utf8Value`, and the state afterwards -/
  JSON_Stringify : LocalContext → LocalValue → State → Option Utf8Value × State
  /-- `obj->Get(local_ctx, key_val)`, the trap afterwards, and the state afterwards -/
  Object_Get : LocalContext → LocalValue → LocalValue → State →
    (Option LocalValue × TryCatch) × State
  /-- `obj->Get(local_ctx, idx)`, the trap afterwards, and the state afterwards -/
  Object_GetIdx : LocalContext → LocalValue → Nat → State →
    (Option LocalValue × TryCatch) × State
  /-- `fn->Call(local_ctx, recv, argc, argv)`, the trap afterwards, and the state afterwards -/
  Function_Call : LocalContext → LocalValue → LocalValue → List (Option LocalValue) → State →
    (Option LocalValue × TryCatch) × State
  /-- `value->ToObject(local_ctx)`, and the state afterwards -/
  Value_ToObject : LocalContext → LocalValue → State → Option LocalValue × State

/-! ## JSON, value constructors, objects and functions -/

/-- `RtnValue JSONParse(ContextPtr ctx_ptr, const char* str)`. -/
def JSONParse (eng : Engine) (ve : ValueEngine) (ctx_ptr : Ptr) (str : String) (s : State) :
    Option (RtnValue × State) :=
  match LOCAL_CONTEXT ctx_ptr s with
  | none => none
  | some (sc, s) =>
    let rtn : RtnValue := { value := 0, error := { msg := none, location := none, stack := none } }
    match eng.String_NewFromUtf8 str with
    | none => none
    | some json =>
      match ve.JSON_Parse sc.local_ctx json with
      | (none, try_catch) =>
        let (e, s) := ExceptionError try_catch sc.iso s
        some ({ rtn with error := e }, s.emit (.unlock sc.iso))
      | (some result, _) =>
        let (val, s) := new_m_value sc.iso sc.ctx (some result) s
        let (v, s) := tracked_value sc.ctx val s
        some ({ rtn with value := v }, s.emit (.unlock sc.iso))

/-- `const char* JSONStringify(ContextPtr ctx_ptr, ValuePtr val_ptr)`; entering
an empty `Local<Context>` or stringifying an empty `Local<Value>` aborts. -/
def JSONStringify (ve : ValueEngine) (ctx_ptr val_ptr : Ptr) (s : State) :
    Option (CharPtr × State) :=
  let val := val_ptr
  let ctx := ctx_ptr
  let iso := if ctx ≠ 0 then (s.ctxs ctx).iso else (s.values val).iso
  let s := s.emit (.lock iso)
  let local_ctx : Option LocalContext :=
    if ctx ≠ 0 then (s.ctxs ctx).ptr
    else if (s.values val).ctx ≠ 0 then (s.ctxs (s.values val).ctx).ptr
    else (s.ctxs (s.isoData iso 0)).ptr
  match local_ctx with
  | none => none
  | some local_ctx =>
    match (s.values val).ptr with
    | none => none
    | some value =>
      match ve.JSON_Stringify local_ctx value s with
      | (none, s) => some (none, s.emit (.unlock iso))
      | (some json, s) => some (CopyString_Utf8Value json, s.emit (.unlock iso))

/-- `ValuePtr NewValueInteger(IsolatePtr iso_ptr, int32_t v)`, through the
macro `ISOLATE_SCOPE_INTERNAL_CONTEXT`. -/
def NewValueInteger (ve : ValueEngine) (iso_ptr : Ptr) (v : Int) (s : State) : Ptr × State :=
  let iso := iso_ptr
  let s := s.emit (.lock iso)
  let ctx := s.isoData iso 0
  let (val, s) := new_m_value iso ctx (some (ve.Integer_New v)) s
  let (r, s) := tracked_value ctx val s
  (r, s.emit (.unlock iso))

/-- `ValuePtr ValueToObject(ValuePtr ptr)`. -/
def ValueToObject (ve : ValueEngine) (ptr : Ptr) (s : State) : Option (Ptr × State) :=
  match LOCAL_VALUE ptr s with
  | none => none
  | some (sc, s) =>
    match sc.value with
    | none => none
    | some value =>
      match ve.Value_ToObject sc.local_ctx value s with
      | (none, _) => none
      | (some obj, s) =>
        let (new_val, s) := new_m_value sc.iso sc.ctx (some obj) s
        let (r, s) := tracked_value sc.ctx new_val s
        some (r, s.emit (.unlock sc.iso))

/-- `RtnValue ObjectGet(ValuePtr ptr, const char* key)`. -/
def ObjectGet (eng : Engine) (ve : ValueEngine) (ptr : Ptr) (key : String) (s : State) :
    Option (RtnValue × State) :=
  match LOCAL_VALUE ptr s with
  | none => none
  | some (sc, s) =>
    let rtn : RtnValue := { value := 0, error := { msg := none, location := none, stack := none } }
    match eng.String_NewFromUtf8 key with
    | none => none
    | some key_val =>
      match sc.value with
      | none => none
      | some obj =>
        match ve.Object_Get sc.local_ctx obj key_val s with
        | ((none, try_catch), s) =>
          let (e, s) := ExceptionError try_catch sc.iso s
          some ({ rtn with error := e }, s.emit (.unlock sc.iso))
        | ((some result, _), s) =>
          let (new_val, s) := new_m_value sc.iso sc.ctx (some result) s
          let (v, s) := tracked_value sc.ctx new_val s
          some ({ rtn with value := v }, s.emit (.unlock sc.iso))

/-- `RtnValue ObjectGetIdx(ValuePtr ptr, uint32_t idx)`. -/
def ObjectGetIdx (ve : ValueEngine) (ptr : Ptr) (idx : Nat) (s : State) :
    Option (RtnValue × State) :=
  match LOCAL_VALUE ptr s with
  | none => none
  | some (sc, s) =>
    let rtn : RtnValue := { value := 0, error := { msg := none, location := none, stack := none } }
    match sc.value with
    | none => none
    | some obj =>
      match ve.Object_GetIdx sc.local_ctx obj idx s with
      | ((none, try_catch), s) =>
        let (e, s) := ExceptionError try_catch sc.iso s
        some ({ rtn with error := e }, s.emit (.unlock sc.iso))
      | ((some result, _), s) =>
        let (new_val, s) := new_m_value sc.iso sc.ctx (some result) s
        let (v, s) := tracked_value sc.ctx new_val s
        some ({ rtn with value := v }, s.emit (.unlock sc.iso))

/-- `RtnValue FunctionCall(ValuePtr ptr, int argc, ValuePtr args[])`, with
`argc` the length of `args`. -/
def FunctionCall (ve : ValueEngine) (ptr : Ptr) (args : List Ptr) (s : State) :
    Option (RtnValue × State) :=
  match LOCAL_VALUE ptr s with
  | none => none
  | some (sc, s) =>
    let rtn : RtnValue := { value := 0, error := { msg := none, location := none, stack := none } }
    match sc.value with
    | none => none
    | some fn =>
      let argv := args.map (fun arg => (s.values arg).ptr)
      let recv := ve.Undefined
      match ve.Function_Call sc.local_ctx fn recv argv s with
      | ((none, try_catch), s) =>
        let (e, s) := ExceptionError try_catch sc.iso s
        some ({ rtn with error := e }, s.emit (.unlock sc.iso))
      | ((some result, _), s) =>
        let (rtnval, s) := new_m_value sc.iso sc.ctx (some result) s
        let (v, s) := tracked_value sc.ctx rtnval s
        some ({ rtn with value := v }, s.emit (.unlock sc.iso))

/-- The body shared by the five constructors of the section `Exceptions`:
`ISOLATE_SCOPE(iso_ptr)`, the message string, a new `m_value` with
`ctx = nullptr` holding `make(msg)`, returned by a plain `static_cast`. -/
def Exceptions.construct (eng : Engine) (make : LocalValue → LocalValue) (iso_ptr : Ptr)
    (message : String) (s : State) : Option (Ptr × State) :=
  let iso := iso_ptr
  let s := s.emit (.lock iso)
  match eng.String_NewFromUtf8 message with
  | none => none
  | some msg =>
    let (val, s) := new_m_value iso 0 (some (make msg)) s
    some (val, s.emit (.unlock iso))

/-- `ValuePtr ExceptionError(IsolatePtr iso_ptr, const char* message)`. -/
def Exceptions.ExceptionError (eng : Engine) (ve : ValueEngine) (iso_ptr : Ptr)
    (message : String) (s : State) : Option (Ptr × State) :=
  Exceptions.construct eng ve.Exception_Error iso_ptr message s

/-- `ValuePtr ExceptionRangeError(IsolatePtr iso_ptr, const char* message)`. -/
def Exceptions.ExceptionRangeError (eng : Engine) (ve : ValueEngine) (iso_ptr : Ptr)
    (message : String) (s : State) : Option (Ptr × State) :=
  Exceptions.construct eng ve.Exception_RangeError iso_ptr message s

/-- `ValuePtr ExceptionReferenceError(IsolatePtr iso_ptr, const char* message)`. -/
def Exceptions.ExceptionReferenceError (eng : Engine) (ve : ValueEngine) (iso_ptr : Ptr)
    (message : String) (s : State) : Option (Ptr × State) :=
  Exceptions.construct eng ve.Exception_ReferenceError iso_ptr message s

/-- `ValuePtr ExceptionSyntaxError(IsolatePtr iso_ptr, const char* message)`. -/
def Exceptions.ExceptionSyntaxError (eng : Engine) (ve : ValueEngine) (iso_ptr : Ptr)
    (message : String) (s : State) : Option (Ptr × State) :=
  Exceptions.construct eng ve.Exception_SyntaxError iso_ptr message s

/-- `ValuePtr ExceptionTypeError(IsolatePtr iso_ptr, const char* message)`. -/
def Exceptions.ExceptionTypeError (eng : Engine) (ve : ValueEngine) (iso_ptr : Ptr)
    (message : String) (s : State) : Option (Ptr × State) :=
  Exceptions.construct eng ve.Exception_TypeError iso_ptr message s

/-! ## Further concrete inputs -/

/-- Engine calls on values for the examples: an exception object for the
message string `m` is `500 + m`; the empty JSON text does not parse; the value
`99` cannot be stringified; the key `0`, the index `0` and a call without
arguments throw. -/
def demoValues : ValueEngine :=
  { Exception_Error := fun msg => 500 + msg,
    Exception_RangeError := fun msg => 510 + msg,
    Exception_ReferenceError := fun msg => 520 + msg,
    Exception_SyntaxError := fun msg => 530 + msg,
    Exception_TypeError := fun msg => 540 + msg,
    Integer_New := fun v => 600 + v.toNat,
    Undefined := 0,
    JSON_Parse := fun _ json => if json = 0 then (none, trapSyntax) else (some (700 + json), trapClear),
    JSON_Stringify := fun _ value s =>
      if value = 99 then (none, s) else (some { str := some "[1]".data }, s),
    Object_Get := fun _ _ key s =>
      if key = 0 then ((none, trapColumn4), s) else ((some (800 + key), trapClear), s),
    Object_GetIdx := fun _ _ idx s =>
      if idx = 0 then ((none, trapColumn4), s) else ((some (800 + idx), trapClear), s),
    Function_Call := fun _ _ _ argv s =>
      if argv = [] then ((none, trapColumn4), s) else ((some 900, trapClear), s),
    Value_ToObject := fun _ value s => (some value, s) }

/-- The memory after `NewIsolate()` on the empty memory: the isolate is at
address `1`, its context for internal use at address `2` (engine context `1`). -/
def demoIsolate : State := (NewIsolate State.empty).2

/-- The memory after, on `demoIsolate`, `NewContext(1, nullptr, 7)` (context at
address `3`, engine context `2`), one engine value `10` tracked under that
context (handle at `4`), and `NewValueInteger(1, 5)` (handle at `5`, tracked
under the context for internal use). -/
def demoWorld : State :=
  (NewValueInteger demoValues 1 5
    (wrap_args 1 3 [10] (NewContext 1 0 7 demoIsolate).2).2).2

/-- The memory after `ExceptionError(1, "boom")` on `demoWorld`: the handle of
the exception object is at address `6` and records no context. -/
def demoException : State :=
  match Exceptions.ExceptionError demoEngine demoValues 1 "boom" demoWorld with
  | some r => r.2
  | none => demoWorld

/-- `JSONStringify` once the isolate and the engine context are chosen: lock,
stringify the value in that context, copy the text (null when the engine
yields empty), unlock. -/
def JSONStringify_in (ve : ValueEngine) (iso : Ptr) (local_ctx : LocalContext)
    (value : LocalValue) (s : State) : CharPtr × State :=
  match ve.JSON_Stringify local_ctx value (s.emit (.lock iso)) with
  | (none, s) => (none, s.emit (.unlock iso))
  | (some json, s) => (CopyString_Utf8Value json, s.emit (.unlock iso))

/-- The memory after, on `demoWorld`, the engine value `99` was wrapped and
tracked under the context at address `3`: its handle is at address `6`. -/
def demoUnstringifiable : State := (wrap_args 1 3 [99] demoWorld).2

/-- Heap statistics for the examples: eleven different numbers. -/
def demoHeap : Ptr → HeapStatistics := fun _ =>
  { total_heap_size := 11, total_heap_size_executable := 10, total_physical_size := 9,
    total_available_size := 8, used_heap_size := 7, heap_size_limit := 6,
    malloced_memory := 5, external_memory := 4, peak_malloced_memory := 3,
    number_of_native_contexts := 2, number_of_detached_contexts := 1 }

/-! ## Lock nesting -/

/-- The change one event makes to the nesting depth of the lock of `iso`. -/
def lockDelta (iso : Ptr) : Event → Int
  | Event.lock i => if i = iso then 1 else 0
  | Event.unlock i => if i = iso then -1 else 0
  | _ => 0

/-- The nesting depth of the lock of `iso` after the events, starting at depth `d`. -/
def lockDepth (iso : Ptr) : List Event → Int → Int
  | [], d => d
  | e :: es, d => lockDepth iso es (d + lockDelta iso e)

/-- The greatest nesting depth of the lock of `iso` reached while the events
happen, starting at depth `d`. -/
def maxLockDepth (iso : Ptr) : List Event → Int → Int
  | [], d => d
  | e :: es, d => max d (maxLockDepth iso es (d + lockDelta iso e))

/-- An engine for the examples whose scripts call a host function with the
argument `10` (the trampoline runs inside `Script::Run`, with the context of the
run current) and then throw. -/
def demoCallbackEngine : Engine :=
  { String_NewFromUtf8 := fun str => some str.length,
    Script_Compile := fun _ src _ => (some src, trapClear),
    Script_Run := fun _ local_ctx s =>
      match FunctionTemplateCallback demoHost
          { isolate := 1, currentContext := local_ctx, data := 5, args := [10] } s with
      | some (_, s') => ((none, trapColumn4), s')
      | none => ((none, trapColumn4), s),
    Function_New := fun _ data => some (1000 + data.toNat),
    Promise_Then := fun _ promise _ => some (promise + 100),
    Promise_Then2 := fun _ promise _ _ => some (promise + 100),
    Promise_Catch := fun _ promise _ => some (promise + 100) }

/-- A trap after a throw in `main.js`, line 3, whose thrown value has a
`toString` that calls a host function with the argument `10`: the conversion
of the exception by the translator runs the trampoline, with the context `1`
current. -/
def trapToString : TryCatch :=
  { HasTerminated := false,
    Exception := { str := some "Error: boom".data },
    Message := some { ResourceName := { str := some "main.js".data },
                      LineNumber := some 3, StartColumn := some 4 },
    StackTrace := none,
    Exception_run := fun s =>
      match FunctionTemplateCallback demoHost
          { isolate := 1, currentContext := 1, data := 5, args := [10] } s with
      | some (_, s') => s'
      | none => s }

/-- An engine for the examples whose scripts throw a value with such a `toString`. -/
def demoToStringEngine : Engine :=
  { String_NewFromUtf8 := fun str => some str.length,
    Script_Compile := fun _ src _ => (some src, trapClear),
    Script_Run := fun _ _ s => ((none, trapToString), s),
    Function_New := fun _ data => some (1000 + data.toNat),
    Promise_Then := fun _ promise _ => some (promise + 100),
    Promise_Then2 := fun _ promise _ _ => some (promise + 100),
    Promise_Catch := fun _ promise _ => some (promise + 100) }

/-! ## The remaining operations that hand out handles

The engine call of each is a parameter. -/

/-- `ValuePtr ObjectTemplateNewInstance(TemplatePtr ptr, ContextPtr ctx_ptr)`,
through the macro `LOCAL_TEMPLATE`; the parameter is `obj_tmpl->NewInstance(local_ctx)`. -/
def ObjectTemplateNewInstance (NewInstance : Option Template → LocalContext → Option LocalValue)
    (ptr ctx_ptr : Ptr) (s : State) : Option (Ptr × State) :=
  let ot := s.templates ptr
  let iso := ot.iso
  let s := s.emit (.lock iso)
  let tmpl := ot.ptr
  let ctx := ctx_ptr
  match (s.ctxs ctx).ptr with
  | none => none
  | some local_ctx =>
    match NewInstance tmpl local_ctx with
    | none => none
    | some obj =>
      let (val, s) := new_m_value iso ctx (some obj) s
      let (r, s) := tracked_value ctx val s
      some (r, s.emit (.unlock iso))

/-- `ValuePtr FunctionTemplateGetFunction(TemplatePtr ptr, ContextPtr ctx_ptr)`,
through the macro `LOCAL_TEMPLATE`; the parameter is `fn_tmpl->GetFunction(local_ctx)`. -/
def FunctionTemplateGetFunction (GetFunction : Option Template → LocalContext → Option LocalValue)
    (ptr ctx_ptr : Ptr) (s : State) : Option (Ptr × State) :=
  let ot := s.templates ptr
  let iso := ot.iso
  let s := s.emit (.lock iso)
  let tmpl := ot.ptr
  let ctx := ctx_ptr
  match (s.ctxs ctx).ptr with
  | none => none
  | some local_ctx =>
    match GetFunction tmpl local_ctx with
    | none => none
    | some fn =>
      let (val, s) := new_m_value iso ctx (some fn) s
      let (r, s) := tracked_value ctx val s
      some (r, s.emit (.unlock iso))

/-- `ValuePtr ContextGlobal(ContextPtr ctx_ptr)`; the parameter is `local_ctx->Global()`. -/
def ContextGlobal (Global : LocalContext → LocalValue) (ctx_ptr : Ptr) (s : State) :
    Option (Ptr × State) :=
  match LOCAL_CONTEXT ctx_ptr s with
  | none => none
  | some (sc, s) =>
    let (val, s) := new_m_value sc.iso sc.ctx (some (Global sc.local_ctx)) s
    let (r, s) := tracked_value sc.ctx val s
    some (r, s.emit (.unlock sc.iso))

/-- The body shared by `NewValueInteger`, `NewValueIntegerFromUnsigned`,
`NewValueString`, `NewValueBoolean`, `NewValueNumber`, `NewValueBigInt`,
`NewValueBigIntFromUnsigned` and `NewValueBigIntFromWords`, through the macro
`ISOLATE_SCOPE_INTERNAL_CONTEXT`; the parameter is the engine value made, `none`
when `ToLocalChecked` aborts. -/
def NewValue_internal (iso_ptr : Ptr) (v : Option LocalValue) (s : State) :
    Option (Ptr × State) :=
  let iso := iso_ptr
  let s := s.emit (.lock iso)
  let ctx := s.isoData iso 0
  match v with
  | none => none
  | some v =>
    let (val, s) := new_m_value iso ctx (some v) s
    let (r, s) := tracked_value ctx val s
    some (r, s.emit (.unlock iso))

/-- `ValuePtr NewPromiseResolver(ContextPtr ctx_ptr)`; the parameter is
`Promise::Resolver::New(local_ctx)`. -/
def NewPromiseResolver (Resolver_New : LocalContext → Option LocalValue) (ctx_ptr : Ptr)
    (s : State) : Option (Ptr × State) :=
  match LOCAL_CONTEXT ctx_ptr s with
  | none => none
  | some (sc, s) =>
    match Resolver_New sc.local_ctx with
    | none => none
    | some resolver =>
      let (val, s) := new_m_value sc.iso sc.ctx (some resolver) s
      let (r, s) := tracked_value sc.ctx val s
      some (r, s.emit (.unlock sc.iso))

/-- `ValuePtr PromiseResolverGetPromise(ValuePtr ptr)`; the parameter is
`resolver->GetPromise()`. -/
def PromiseResolverGetPromise (GetPromise : LocalValue → LocalValue) (ptr : Ptr) (s : State) :
    Option (Ptr × State) :=
  match LOCAL_VALUE ptr s with
  | none => none
  | some (sc, s) =>
    match sc.value with
    | none => none
    | some resolver =>
      let (promise_val, s) := new_m_value sc.iso sc.ctx (some (GetPromise resolver)) s
      let (r, s) := tracked_value sc.ctx promise_val s
      some (r, s.emit (.unlock sc.iso))

/-- `ValuePtr PromiseResult(ValuePtr ptr)`; the parameter is `promise->Result()`. -/
def PromiseResult (Result : LocalValue → LocalValue) (ptr : Ptr) (s : State) :
    Option (Ptr × State) :=
  match LOCAL_VALUE ptr s with
  | none => none
  | some (sc, s) =>
    match sc.value with
    | none => none
    | some promise =>
      let (result_val, s) := new_m_value sc.iso sc.ctx (some (Result promise)) s
      let (r, s) := tracked_value sc.ctx result_val s
      some (r, s.emit (.unlock sc.iso))

/-- `void TemplateFree(TemplatePtr ptr)`. -/
def TemplateFree (ptr : Ptr) (s : State) : State := s.delete ptr

/-! ## The operations as one step function -/

/-- One call of a bridge operation, with its arguments; where the engine call
of the operation is a parameter above, the call carries the engine's answer. -/
inductive Op where
  | NewIsolate
  | IsolateDispose (iso : Ptr)
  | NewContext (iso global_template : Ptr) (ref : Int)
  | ContextFree (ctx : Ptr)
  | NewFunctionTemplate (iso : Ptr) (callback_ref : Int)
  | TemplateFree (tmpl : Ptr)
  | ObjectTemplateNewInstance (tmpl ctx : Ptr) (obj : Option LocalValue)
  | FunctionTemplateGetFunction (tmpl ctx : Ptr) (fn : Option LocalValue)
  | RunScript (ctx : Ptr) (source origin : String)
  | JSONParse (ctx : Ptr) (str : String)
  | JSONStringify (ctx val : Ptr)
  | ContextGlobal (ctx : Ptr) (global : LocalValue)
  | NewValue (iso : Ptr) (v : Option LocalValue)
  | NewValueInteger (iso : Ptr) (v : Int)
  | ValueFree (val : Ptr)
  | ValueToObject (val : Ptr)
  | ObjectGet (val : Ptr) (key : String)
  | ObjectGetIdx (val : Ptr) (idx : Nat)
  | FunctionCall (val : Ptr) (args : List Ptr)
  | NewPromiseResolver (ctx : Ptr) (resolver : Option LocalValue)
  | PromiseResolverGetPromise (val : Ptr) (promise : LocalValue)
  | PromiseThen (val : Ptr) (callback_ref : Int)
  | PromiseThen2 (val : Ptr) (on_fulfilled_ref on_rejected_ref : Int)
  | PromiseCatch (val : Ptr) (callback_ref : Int)
  | PromiseResult (val : Ptr) (result : LocalValue)
  | ExceptionError (iso : Ptr) (message : String)
  | ExceptionRangeError (iso : Ptr) (message : String)
  | ExceptionReferenceError (iso : Ptr) (message : String)
  | ExceptionSyntaxError (iso : Ptr) (message : String)
  | ExceptionTypeError (iso : Ptr) (message : String)
  | FunctionTemplateCallback (info : FunctionCallbackInfo)
  /-- not a call of the bridge: the allocator settles which addresses it hands
  out at the coming calls of `new` -/
  | plan (addresses : List Ptr)

/-- The memory after one operation, `none` when the operation aborts. -/
def step (eng : Engine) (ve : ValueEngine) (host : Host) : Op → State → Option State
  | Op.NewIsolate, s => some (NewIsolate s).2
  | Op.IsolateDispose iso, s => some (IsolateDispose iso s)
  | Op.NewContext iso t ref, s => some (NewContext iso t ref s).2
  | Op.ContextFree ctx, s => some (ContextFree ctx s)
  | Op.NewFunctionTemplate iso ref, s => some (NewFunctionTemplate iso ref s).2
  | Op.TemplateFree t, s => some (TemplateFree t s)
  | Op.ObjectTemplateNewInstance t ctx obj, s =>
    (ObjectTemplateNewInstance (fun _ _ => obj) t ctx s).map Prod.snd
  | Op.FunctionTemplateGetFunction t ctx fn, s =>
    (FunctionTemplateGetFunction (fun _ _ => fn) t ctx s).map Prod.snd
  | Op.RunScript ctx source origin, s => (RunScript eng ctx source origin s).map Prod.snd
  | Op.JSONParse ctx str, s => (JSONParse eng ve ctx str s).map Prod.snd
  | Op.JSONStringify ctx val, s => (JSONStringify ve ctx val s).map Prod.snd
  | Op.ContextGlobal ctx g, s => (ContextGlobal (fun _ => g) ctx s).map Prod.snd
  | Op.NewValue iso v, s => (NewValue_internal iso v s).map Prod.snd
  | Op.NewValueInteger iso v, s => some (NewValueInteger ve iso v s).2
  | Op.ValueFree val, s => some (ValueFree val s)
  | Op.ValueToObject val, s => (ValueToObject ve val s).map Prod.snd
  | Op.ObjectGet val key, s => (ObjectGet eng ve val key s).map Prod.snd
  | Op.ObjectGetIdx val idx, s => (ObjectGetIdx ve val idx s).map Prod.snd
  | Op.FunctionCall val args, s => (FunctionCall ve val args s).map Prod.snd
  | Op.NewPromiseResolver ctx r, s => (NewPromiseResolver (fun _ => r) ctx s).map Prod.snd
  | Op.PromiseResolverGetPromise val p, s =>
    (PromiseResolverGetPromise (fun _ => p) val s).map Prod.snd
  | Op.PromiseThen val ref, s => (PromiseThen eng val ref s).map Prod.snd
  | Op.PromiseThen2 val r1 r2, s => (PromiseThen2 eng val r1 r2 s).map Prod.snd
  | Op.PromiseCatch val ref, s => (PromiseCatch eng val ref s).map Prod.snd
  | Op.PromiseResult val r, s => (PromiseResult (fun _ => r) val s).map Prod.snd
  | Op.ExceptionError iso m, s => (Exceptions.ExceptionError eng ve iso m s).map Prod.snd
  | Op.ExceptionRangeError iso m, s =>
    (Exceptions.ExceptionRangeError eng ve iso m s).map Prod.snd
  | Op.ExceptionReferenceError iso m, s =>
    (Exceptions.ExceptionReferenceError eng ve iso m s).map Prod.snd
  | Op.ExceptionSyntaxError iso m, s =>
    (Exceptions.ExceptionSyntaxError eng ve iso m s).map Prod.snd
  | Op.ExceptionTypeError iso m, s =>
    (Exceptions.ExceptionTypeError eng ve iso m s).map Prod.snd
  | Op.FunctionTemplateCallback info, s => (FunctionTemplateCallback host info s).map Prod.snd
  | Op.plan ps, s => some (s.plan ps)

/-- A context record that holds an engine context: made by `NewContext` or
`NewIsolate` and not passed to `ContextFree` since, which resets the reference. -/
def State.opened (s : State) (c : Ptr) : Prop := (s.ctxs c).ptr ≠ none

instance State.opened_decidable (s : State) (c : Ptr) : Decidable (s.opened c) :=
  inferInstanceAs (Decidable ((s.ctxs c).ptr ≠ none))

/-- The shape of the handle registry.  Every entry of the tracked list of a
context that holds an engine context is a non-null live address handed out by
`new`, its record names the context of that list, and it is not the address of
such a context; no such list has an entry twice; and every such context is
itself a non-null live address handed out by `new`. -/
def WellTracked (s : State) : Prop :=
  (∀ c h, s.opened c → h ∈ (s.ctxs c).vals →
    (s.values h).ctx = c ∧ h ≠ 0 ∧ h ≤ s.next ∧ s.live h = true ∧ ¬ s.opened h) ∧
  (∀ c, s.opened c → (s.ctxs c).vals.Nodup) ∧
  (∀ c, s.opened c → c ≠ 0 ∧ c ≤ s.next ∧ s.live c = true)

/-- The conversions the translator makes of this trap keep the shape of the registry. -/
def TryCatch.Keeps (try_catch : TryCatch) : Prop :=
  ∀ s, WellTracked s → WellTracked (try_catch.conversions s)

/-- The engine and the host reach the memory of the bridge only through bridge
operations, and the host releases no tracked handle meanwhile: whatever they run
inside a call, and inside the conversions of a trap they return, keeps the shape
of the registry. -/
structure KeepsTracked (eng : Engine) (ve : ValueEngine) (host : Host) : Prop where
  run : ∀ script lc s, WellTracked s → WellTracked (eng.Script_Run script lc s).2
  stringify : ∀ lc v s, WellTracked s → WellTracked (ve.JSON_Stringify lc v s).2
  get : ∀ lc o k s, WellTracked s → WellTracked (ve.Object_Get lc o k s).2
  getIdx : ∀ lc o i s, WellTracked s → WellTracked (ve.Object_GetIdx lc o i s).2
  call : ∀ lc f r a s, WellTracked s → WellTracked (ve.Function_Call lc f r a s).2
  toObject : ∀ lc v s, WellTracked s → WellTracked (ve.Value_ToObject lc v s).2
  callback : ∀ c t a n s, WellTracked s → WellTracked (host.goFunctionCallback c t a n s).2
  compile_trap : ∀ lc a b, (eng.Script_Compile lc a b).2.Keeps
  run_trap : ∀ script lc s, (eng.Script_Run script lc s).1.2.Keeps
  parse_trap : ∀ lc v, (ve.JSON_Parse lc v).2.Keeps
  get_trap : ∀ lc o k s, (ve.Object_Get lc o k s).1.2.Keeps
  getIdx_trap : ∀ lc o i s, (ve.Object_GetIdx lc o i s).1.2.Keeps
  call_trap : ∀ lc f r a s, (ve.Function_Call lc f r a s).1.2.Keeps

/-- What the host may pass to the operations that release: to `ValueFree` only
null or a handle that no context tracks; to `ContextFree` null or a context not
freed before; to `IsolateDispose` null or an isolate whose context for internal
use was not freed before; to `TemplateFree` an address that is neither a handle
some context tracks nor a context.  Every other call is allowed. -/
def Allowed (s : State) : Op → Prop
  | Op.ValueFree val =>
    val = 0 ∨ (¬ s.opened val ∧ ∀ c, s.opened c → val ∉ (s.ctxs c).vals)
  | Op.ContextFree ctx => ctx = 0 ∨ s.opened ctx
  | Op.IsolateDispose iso => iso = 0 ∨ s.isoData iso 0 = 0 ∨ s.opened (s.isoData iso 0)
  | Op.TemplateFree tmpl => ¬ s.opened tmpl ∧ ∀ c, s.opened c → tmpl ∉ (s.ctxs c).vals
  | _ => True

/-- The memory after a sequence of operations, `none` when one of them aborts. -/
def run_ops (eng : Engine) (ve : ValueEngine) (host : Host) : List Op → State → Option State
  | [], s => some s
  | op :: rest, s =>
    match step eng ve host op s with
    | none => none
    | some s1 => run_ops eng ve host rest s1

/-- Every call of the sequence is allowed on the memory it is made on. -/
def AllowedRun (eng : Engine) (ve : ValueEngine) (host : Host) : List Op → State → Prop
  | [], _ => True
  | op :: rest, s =>
    Allowed s op ∧
      match step eng ve host op s with
      | none => True
      | some s1 => AllowedRun eng ve host rest s1

/-- The handle and the memory after `ValueToObject` on the exception handle at
address `6` of `demoException`. -/
def demoDerived : Ptr × State :=
  match ValueToObject demoValues 6 demoException with
  | some r => r
  | none => (0, demoException)

/-- A sequence of operations in which a script calls a host function and then
throws: a context (address `1`, engine context `1`) and a failing `RunScript`
in it, during which the trampoline tracks the handle of the argument (address
`2`) under the context. -/
def demoCallbackOps : List Op :=
  [Op.NewContext 1 0 7, Op.RunScript 1 "f(10); throw 1" "main.js"]

/-- The memory after `demoCallbackOps` on the empty memory, with the engine
whose scripts call a host function. -/
def demoCallbackRun : State :=
  match run_ops demoCallbackEngine demoValues demoHost demoCallbackOps State.empty with
  | some s => s
  | none => State.empty

/-- A sequence of operations in which the host releases a tracked handle: an
isolate (address `1`, internal context `2`), a context (address `3`), its global
object (handle `4`, tracked under `3`), `ValueFree(4)`, the allocator taking
the address `4` back, and an integer, whose handle is at `4` again and is
tracked under the internal context. -/
def demoReuseOps : List Op :=
  [Op.NewIsolate, Op.NewContext 1 0 7, Op.ContextGlobal 3 77, Op.ValueFree 4, Op.plan [4],
   Op.NewValueInteger 1 9]

/-- A sequence of operations in which a context is freed and the address of its
handle is handed out again: an isolate (address `1`, internal context `2`), a
context (address `3`), its global object (handle `4`, tracked under `3`),
`ContextFree(3)`, the allocator taking the address `4` back, and an integer,
whose handle is at `4` again and is tracked under the internal context. -/
def demoRecycleOps : List Op :=
  [Op.NewIsolate, Op.NewContext 1 0 7, Op.ContextGlobal 3 77, Op.ContextFree 3, Op.plan [4],
   Op.NewValueInteger 1 9]

/-- The memory after `demoRecycleOps` on the empty memory. -/
def demoRecycle : State :=
  match run_ops demoEngine demoValues demoHost demoRecycleOps State.empty with
  | some s => s
  | none => State.empty

/-! ## Properties -/

/-! ### Allocation -/

theorem State.new_spec (s : State) :
    ∃ (p : Ptr) (n : Nat) (r : List Ptr),
      s.new = (p, { s with recycle := r, next := n, live := update s.live p true }) ∧
      p ≠ 0 ∧ p ≤ n ∧ s.next ≤ n ∧ ((p ≤ s.next ∧ s.live p = false) ∨ s.next < p) := by
  unfold State.new
  split
  · rename_i p rest _
    split
    · rename_i h
      exact ⟨p, s.next, rest, rfl, h.1, h.2.1, Nat.le_refl _, Or.inl ⟨h.2.1, h.2.2⟩⟩
    · exact ⟨s.next + 1, s.next + 1, rest, rfl, Nat.succ_ne_zero _, Nat.le_refl _,
        Nat.le_succ _, Or.inr (Nat.lt_succ_self _)⟩
  · exact ⟨s.next + 1, s.next + 1, s.recycle, rfl, Nat.succ_ne_zero _, Nat.le_refl _,
      Nat.le_succ _, Or.inr (Nat.lt_succ_self _)⟩

theorem new_m_value_spec (iso ctx : Ptr) (v : Option LocalValue) (s : State) :
    ∃ (p : Ptr) (n : Nat) (r : List Ptr),
      new_m_value iso ctx v s =
        (p, { s with recycle := r, next := n, live := update s.live p true,
                     values := update s.values p { iso := iso, ctx := ctx, ptr := v } }) ∧
      p ≠ 0 ∧ p ≤ n ∧ s.next ≤ n ∧ ((p ≤ s.next ∧ s.live p = false) ∨ s.next < p) := by
  obtain ⟨p, n, r, h, h0, h1, h2, h3⟩ := State.new_spec s
  refine ⟨p, n, r, ?_, h0, h1, h2, h3⟩
  simp only [new_m_value, h]


/-! ### Strings -/

theorem toInt_of_range (x : Int) (h0 : -2 ^ 31 ≤ x) (h1 : x < 2 ^ 31) : toInt x = x := by
  unfold toInt
  have h : (x + 2 ^ 31) % 2 ^ 32 = x + 2 ^ 31 :=
    Int.emod_eq_of_lt (by norm_num at *; omega) (by norm_num at *; omega)
  omega

theorem cstr_of_no_NUL (cs : List Char) (h : NUL ∉ cs) : cstr cs = cs := by
  unfold cstr
  rw [List.takeWhile_eq_self_iff]
  intro x hx
  simp only [bne_iff_ne, ne_eq]
  intro hxe
  exact h (hxe ▸ hx)

theorem cstr_cons_ne_nil (c : Char) (rest : List Char) (h : c ≠ NUL) :
    cstr (c :: rest) ≠ [] := by
  simp [cstr, List.takeWhile_cons, h]

theorem Utf8Value_length_cons (c : Char) (rest : List Char) :
    Utf8Value.length { str := some (c :: rest) } ≠ 0 := by
  have := Char.utf8Size_pos c
  simp only [Utf8Value.length, List.map_cons, List.sum_cons]
  omega

theorem Utf8Value_length_eq_zero (value : Utf8Value) :
    value.length = 0 ↔ value.str = none ∨ value.str = some [] := by
  obtain ⟨str⟩ := value
  cases str with
  | none => simp [Utf8Value.length]
  | some cs =>
    cases cs with
    | nil => simp [Utf8Value.length]
    | cons c rest =>
      have := Utf8Value_length_cons c rest
      simp_all

/-! ### Exception translation -/

/-- C8: when the trap reports a terminated execution, the Error is the fixed
termination message with no location and no stack, whatever exception, message
object or stack trace the trap holds. -/
theorem ExceptionError_terminated (try_catch : TryCatch) (iso : Ptr) (s : State)
    (h : try_catch.HasTerminated = true) :
    (ExceptionError try_catch iso s).1 =
      { msg := some "ExecutionTerminated: script execution has been terminated".data,
        location := none, stack := none } := by
  simp [ExceptionError, h, CopyString, terminatedMessage]

theorem ExceptionError_terminated_witness :
    trapTerminated.HasTerminated = true ∧
    trapTerminated.Message ≠ none ∧ trapTerminated.StackTrace ≠ none ∧
    (ExceptionError trapTerminated 1 State.empty).1 =
      { msg := some "ExecutionTerminated: script execution has been terminated".data,
        location := none, stack := none } :=
  ⟨rfl, by decide, by decide, ExceptionError_terminated trapTerminated 1 State.empty rfl⟩

/-- C9: for a failure that is not a termination, when the trap holds a message
object with resource name `o` (a text without NUL), line `L` and 0-based start
column `c` (with `c + 1` an `int`), the location is `o:L:c+1` in decimal; when
the trap holds no message object the location is null. -/
theorem ExceptionError_location (try_catch : TryCatch) (iso : Ptr) (s : State)
    (hT : try_catch.HasTerminated = false) :
    (try_catch.Message = none → (ExceptionError try_catch iso s).1.location = none) ∧
    (∀ (o : List Char) (L c : Int),
      try_catch.Message =
        some { ResourceName := { str := some o }, LineNumber := some L, StartColumn := some c } →
      NUL ∉ o → 0 ≤ c → c + 1 < 2 ^ 31 →
      (ExceptionError try_catch iso s).1.location =
        some (o ++ [':'] ++ decimal L ++ [':'] ++ decimal (c + 1))) := by
  refine ⟨?_, ?_⟩
  · intro hM
    simp only [ExceptionError, hT, hM]
    cases try_catch.StackTrace <;> simp
  · intro o L c hM hN h0 h1
    have hc : toInt (c + 1) = c + 1 := toInt_of_range (c + 1) (by norm_num at *; omega) h1
    have hcolon : cstr [':'] = [':'] := by decide
    simp only [ExceptionError, hT, hM, hc]
    cases try_catch.StackTrace <;>
      simp [ostringstream.put_cstr, ostringstream.put_int, ostringstream.str, CopyString,
        cstr_of_no_NUL o hN, hcolon]

theorem ExceptionError_location_witness :
    (ExceptionError trapColumn4 1 State.empty).1.location = some "main.js:3:5".data ∧
    (ExceptionError trapNoMessage 1 State.empty).1.location = none :=
  ⟨(ExceptionError_location trapColumn4 1 State.empty rfl).2 "main.js".data 3 4 rfl
      (by decide) (by decide) (by decide),
   (ExceptionError_location trapNoMessage 1 State.empty rfl).1 rfl⟩

/-- C3, as stated, fails: after `throw ''` the execution was not terminated,
the translator runs, and the message of the Error is null. -/
theorem ExceptionError_msg_null_on_empty_exception :
    trapThrowEmpty.HasTerminated = false ∧
    (ExceptionError trapThrowEmpty 1 State.empty).1.msg = none := by
  constructor
  · rfl
  · simp [ExceptionError, trapThrowEmpty, CopyString_Utf8Value, Utf8Value.length]

/-- C3, amended: for a failure that is not a termination, the message is null
when the string form of the exception has length zero; it is present and
non-empty (the string form up to its first NUL) when the string form starts
with a character other than NUL; it is present and empty when the string form
starts with NUL. -/
theorem ExceptionError_msg (try_catch : TryCatch) (iso : Ptr) (s : State)
    (hT : try_catch.HasTerminated = false) :
    (try_catch.Exception.length = 0 → (ExceptionError try_catch iso s).1.msg = none) ∧
    (∀ (c : Char) (rest : List Char),
      try_catch.Exception = { str := some (c :: rest) } → c ≠ NUL →
      (ExceptionError try_catch iso s).1.msg = some (cstr (c :: rest)) ∧
      cstr (c :: rest) ≠ []) ∧
    (∀ (rest : List Char),
      try_catch.Exception = { str := some (NUL :: rest) } →
      (ExceptionError try_catch iso s).1.msg = some []) := by
  have key : (ExceptionError try_catch iso s).1.msg = CopyString_Utf8Value try_catch.Exception := by
    simp only [ExceptionError, hT]
    cases try_catch.Message <;> cases try_catch.StackTrace <;> simp
  refine ⟨?_, ?_, ?_⟩
  · intro h0
    rw [key]
    simp [CopyString_Utf8Value, h0]
  · intro c rest hE hc
    rw [key, hE]
    refine ⟨?_, cstr_cons_ne_nil c rest hc⟩
    simp [CopyString_Utf8Value, Utf8Value_length_cons c rest, CopyString, std_string]
  · intro rest hE
    rw [key, hE]
    simp [CopyString_Utf8Value, Utf8Value_length_cons NUL rest, CopyString, std_string, cstr]

theorem ExceptionError_msg_witness :
    (ExceptionError trapThrowEmpty 1 State.empty).1.msg = none ∧
    (ExceptionError trapNoMessage 1 State.empty).1.msg = some "oops".data ∧
    (ExceptionError trapThrowNUL 1 State.empty).1.msg = some [] :=
  ⟨(ExceptionError_msg trapThrowEmpty 1 State.empty rfl).1 (by decide),
   ((ExceptionError_msg trapNoMessage 1 State.empty rfl).2.1 'o' "ops".data rfl (by decide)).1,
   (ExceptionError_msg trapThrowNUL 1 State.empty rfl).2.2 ['x'] rfl⟩

/-! ### RunScript -/

/-- C1: when the strings are created and both compilation and execution
succeed, `RunScript` returns a non-null handle together with an error whose
msg, location and stack are all null, and the handle records the input context
(and wraps the result of the run, and is tracked under that context). -/
theorem RunScript_success (eng : Engine) (ctx_ptr : Ptr) (source origin : String) (s : State)
    (local_ctx : LocalContext) (src ogn : LocalValue) (script : Script) (result : LocalValue)
    (tc1 tc2 : TryCatch) (s1 : State)
    (hctx : (s.ctxs ctx_ptr).ptr = some local_ctx)
    (hsrc : eng.String_NewFromUtf8 source = some src)
    (hogn : eng.String_NewFromUtf8 origin = some ogn)
    (hcompile : eng.Script_Compile local_ctx src ogn = (some script, tc1))
    (hrun : eng.Script_Run script local_ctx
        (((s.emit (.lock (s.ctxs ctx_ptr).iso)).emit (.compile local_ctx)).emit
          (.run script local_ctx)) = ((some result, tc2), s1)) :
    ∃ (h : Ptr) (s' : State),
      RunScript eng ctx_ptr source origin s =
        some ({ value := h, error := { msg := none, location := none, stack := none } }, s') ∧
      h ≠ 0 ∧ (s'.values h).ctx = ctx_ptr ∧ (s'.values h).ptr = some result ∧
      h ∈ (s'.ctxs ctx_ptr).vals := by
  simp only [State.emit] at hrun
  simp only [RunScript, LOCAL_CONTEXT, State.emit, hctx, hsrc, hogn, hcompile, hrun]
  obtain ⟨p, n, r, hnew, hp0, -⟩ :=
    new_m_value_spec (s.ctxs ctx_ptr).iso ctx_ptr (some result) s1
  simp only [hnew, tracked_value]
  refine ⟨p, _, rfl, hp0, ?_, ?_, ?_⟩
  · simp [update]
  · simp [update]
  · simp [update]

theorem RunScript_success_witness :
    ∃ (h : Ptr) (s' : State),
      RunScript demoEngine 1 "1+1" "main.js" demoState =
        some ({ value := h, error := { msg := none, location := none, stack := none } }, s') ∧
      h ≠ 0 ∧ (s'.values h).ctx = 1 ∧ (s'.values h).ptr = some 43 ∧
      h ∈ (s'.ctxs 1).vals :=
  RunScript_success demoEngine 1 "1+1" "main.js" demoState 1 3 7 3 43 trapClear trapClear
    (((demoState.emit (.lock 1)).emit (.compile 1)).emit (.run 3 1)) rfl rfl rfl rfl rfl

theorem ExceptionError_state (try_catch : TryCatch) (iso : Ptr) (s : State) :
    (ExceptionError try_catch iso s).2 =
      (try_catch.conversions (s.emit (.lock iso))).emit (.unlock iso) := by
  unfold ExceptionError TryCatch.conversions
  cases try_catch.HasTerminated <;> simp

theorem ExceptionError_fst_state (try_catch : TryCatch) (iso : Ptr) (s t : State) :
    (ExceptionError try_catch iso s).1 = (ExceptionError try_catch iso t).1 := by
  unfold ExceptionError
  cases try_catch.HasTerminated <;> simp

/-- C2: when the compile step yields empty, `RunScript` returns a null value
with the Error the translator makes from the trap, and the run step is not
reached: the outcome is the same whatever `Script::Run` would do, and the
memory is the one the translator leaves, followed by the release of the lock.
When the run step yields empty, it returns a null value with the Error the
translator makes from the trap after the run.  In both cases the function
returns normally. -/
theorem RunScript_failure (eng : Engine) (ctx_ptr : Ptr) (source origin : String) (s : State)
    (local_ctx : LocalContext) (src ogn : LocalValue)
    (hctx : (s.ctxs ctx_ptr).ptr = some local_ctx)
    (hsrc : eng.String_NewFromUtf8 source = some src)
    (hogn : eng.String_NewFromUtf8 origin = some ogn) :
    (∀ (tc : TryCatch), eng.Script_Compile local_ctx src ogn = (none, tc) →
      RunScript eng ctx_ptr source origin s =
        some ({ value := 0,
                error := (ExceptionError tc (s.ctxs ctx_ptr).iso
                  ((s.emit (.lock (s.ctxs ctx_ptr).iso)).emit (.compile local_ctx))).1 },
              (ExceptionError tc (s.ctxs ctx_ptr).iso
                  ((s.emit (.lock (s.ctxs ctx_ptr).iso)).emit (.compile local_ctx))).2.emit
                (.unlock (s.ctxs ctx_ptr).iso)) ∧
      ∀ (run : Script → LocalContext → State → (Option LocalValue × TryCatch) × State),
        RunScript { eng with Script_Run := run } ctx_ptr source origin s =
          RunScript eng ctx_ptr source origin s) ∧
    (∀ (script : Script) (tc1 tc2 : TryCatch) (s1 : State),
      eng.Script_Compile local_ctx src ogn = (some script, tc1) →
      eng.Script_Run script local_ctx
        (((s.emit (.lock (s.ctxs ctx_ptr).iso)).emit (.compile local_ctx)).emit
          (.run script local_ctx)) = ((none, tc2), s1) →
      RunScript eng ctx_ptr source origin s =
        some ({ value := 0, error := (ExceptionError tc2 (s.ctxs ctx_ptr).iso s1).1 },
              (ExceptionError tc2 (s.ctxs ctx_ptr).iso s1).2.emit
                (.unlock (s.ctxs ctx_ptr).iso))) := by
  have hctx' : ((s.emit (.lock (s.ctxs ctx_ptr).iso)).ctxs ctx_ptr).ptr = some local_ctx := hctx
  refine ⟨?_, ?_⟩
  · intro tc hcompile
    refine ⟨?_, ?_⟩
    · simp only [RunScript, LOCAL_CONTEXT, hctx', hsrc, hogn, hcompile]
    · intro run
      simp only [RunScript, LOCAL_CONTEXT, hctx', hsrc, hogn, hcompile]
  · intro script tc1 tc2 s1 hcompile hrun
    simp only [RunScript, LOCAL_CONTEXT, hctx', hsrc, hogn, hcompile, hrun]

theorem RunScript_failure_witness :
    (RunScript demoEngine 1 "1+" "main.js" demoState =
      some ({ value := 0,
              error := (ExceptionError trapSyntax 1
                ((demoState.emit (.lock 1)).emit (.compile 1))).1 },
            (ExceptionError trapSyntax 1
                ((demoState.emit (.lock 1)).emit (.compile 1))).2.emit (.unlock 1)) ∧
      ∀ (run : Script → LocalContext → State → (Option LocalValue × TryCatch) × State),
        RunScript { demoEngine with Script_Run := run } 1 "1+" "main.js" demoState =
          RunScript demoEngine 1 "1+" "main.js" demoState) ∧
    RunScript demoEngine 1 "x" "main.js" demoState =
      some ({ value := 0,
              error := (ExceptionError trapColumn4 1
                (((demoState.emit (.lock 1)).emit (.compile 1)).emit (.run 1 1))).1 },
            (ExceptionError trapColumn4 1
                (((demoState.emit (.lock 1)).emit (.compile 1)).emit (.run 1 1))).2.emit
              (.unlock 1)) :=
  ⟨(RunScript_failure demoEngine 1 "1+" "main.js" demoState 1 2 7 rfl rfl rfl).1 trapSyntax rfl,
   (RunScript_failure demoEngine 1 "x" "main.js" demoState 1 1 7 rfl rfl rfl).2 1 trapClear
      trapColumn4 (((demoState.emit (.lock 1)).emit (.compile 1)).emit (.run 1 1)) rfl rfl⟩

/-! ### Releasing handles and contexts -/

theorem ValueFree_ctxs (p : Ptr) (s : State) : (ValueFree p s).ctxs = s.ctxs := by
  unfold ValueFree
  split <;> rfl

theorem ValueFree_trace (p : Ptr) (s : State) :
    (ValueFree p s).trace =
      s.trace ++ (if p = 0 then [] else [Event.resetValue p, Event.deleteValue p]) := by
  unfold ValueFree
  split <;> simp [State.emit, State.delete]

theorem ValueFree_cleared (p : Ptr) (s : State) (hp : p ≠ 0) :
    ((ValueFree p s).values p).ptr = none ∧ (ValueFree p s).live p = false := by
  simp [ValueFree, hp, State.emit, State.delete, update]

theorem ValueFree_keeps_cleared (p h : Ptr) (s : State)
    (hh : (s.values h).ptr = none ∧ s.live h = false) :
    ((ValueFree p s).values h).ptr = none ∧ (ValueFree p s).live h = false := by
  unfold ValueFree
  split
  · exact hh
  · by_cases e : h = p
    · subst e
      simp [State.emit, State.delete, update]
    · simp [State.emit, State.delete, update, e, hh]

theorem foldl_ValueFree_ctxs (l : List Ptr) (s : State) :
    (l.foldl (fun s val_ptr => ValueFree val_ptr s) s).ctxs = s.ctxs := by
  induction l generalizing s with
  | nil => rfl
  | cons p rest ih => rw [List.foldl_cons, ih, ValueFree_ctxs]

theorem foldl_ValueFree_trace (l : List Ptr) (s : State) :
    (l.foldl (fun s val_ptr => ValueFree val_ptr s) s).trace =
      s.trace ++ (l.filter (fun h => h ≠ 0)).flatMap
        (fun h => [Event.resetValue h, Event.deleteValue h]) := by
  induction l generalizing s with
  | nil => simp
  | cons p rest ih =>
    rw [List.foldl_cons, ih, ValueFree_trace]
    by_cases hp : p = 0
    · simp [hp]
    · simp [hp, List.filter_cons]

theorem foldl_ValueFree_keeps_cleared (l : List Ptr) (h : Ptr) (s : State)
    (hh : (s.values h).ptr = none ∧ s.live h = false) :
    ((l.foldl (fun s val_ptr => ValueFree val_ptr s) s).values h).ptr = none ∧
    (l.foldl (fun s val_ptr => ValueFree val_ptr s) s).live h = false := by
  induction l generalizing s with
  | nil => exact hh
  | cons p rest ih =>
    rw [List.foldl_cons]
    exact ih _ (ValueFree_keeps_cleared p h s hh)

theorem foldl_ValueFree_cleared (l : List Ptr) (h : Ptr) (s : State) (hmem : h ∈ l)
    (h0 : h ≠ 0) :
    ((l.foldl (fun s val_ptr => ValueFree val_ptr s) s).values h).ptr = none ∧
    (l.foldl (fun s val_ptr => ValueFree val_ptr s) s).live h = false := by
  induction l generalizing s with
  | nil => simp at hmem
  | cons p rest ih =>
    rw [List.foldl_cons]
    rcases List.mem_cons.mp hmem with e | hrest
    · subst e
      exact foldl_ValueFree_keeps_cleared rest h _ (ValueFree_cleared h s h0)
    · exact ih _ hrest

/-- C4: `ContextFree(nullptr)` does nothing.  For a non-null context `c`,
`ContextFree(c)` first resets the context's own persistent reference, then
resets and deletes every handle of the tracked list in list order, then deletes
the context record; afterwards the reference of the context and of every
tracked handle is empty and none of them is live. -/
theorem ContextFree_releases (c : Ptr) (s : State) :
    ContextFree 0 s = s ∧
    (c ≠ 0 →
      (ContextFree c s).trace =
        s.trace ++ [Event.resetContext c] ++
          ((s.ctxs c).vals.filter (fun h => h ≠ 0)).flatMap
            (fun h => [Event.resetValue h, Event.deleteValue h]) ++
          [Event.deleteContext c] ∧
      ((ContextFree c s).ctxs c).ptr = none ∧
      (ContextFree c s).live c = false ∧
      ∀ h ∈ (s.ctxs c).vals, h ≠ 0 →
        ((ContextFree c s).values h).ptr = none ∧ (ContextFree c s).live h = false) := by
  refine ⟨by simp [ContextFree], ?_⟩
  intro hc
  have hshape : ContextFree c s =
      (((s.ctxs c).vals.foldl (fun s val_ptr => ValueFree val_ptr s)
        (State.emit { s with ctxs := update s.ctxs c { s.ctxs c with ptr := none } }
          (Event.resetContext c))).delete c).emit (Event.deleteContext c) := by
    simp [ContextFree, hc, State.emit, update]
  rw [hshape]
  refine ⟨?_, ?_, ?_, ?_⟩
  · simp only [State.emit, State.delete]
    rw [foldl_ValueFree_trace]
  · simp only [State.emit, State.delete]
    rw [foldl_ValueFree_ctxs]
    simp [update]
  · simp [State.emit, State.delete, update]
  · intro h hmem h0
    have key := foldl_ValueFree_cleared (s.ctxs c).vals h
      (State.emit { s with ctxs := update s.ctxs c { s.ctxs c with ptr := none } }
        (Event.resetContext c)) hmem h0
    refine ⟨key.1, ?_⟩
    by_cases e : h = c
    · simp [State.emit, State.delete, update, e]
    · simpa [State.emit, State.delete, update, e] using key.2

theorem ContextFree_releases_witness :
    (ContextFree 1 demoTracked).trace =
      demoTracked.trace ++ [Event.resetContext 1] ++
        ((demoTracked.ctxs 1).vals.filter (fun h => h ≠ 0)).flatMap
          (fun h => [Event.resetValue h, Event.deleteValue h]) ++
        [Event.deleteContext 1] ∧
    ((ContextFree 1 demoTracked).ctxs 1).ptr = none ∧
    (ContextFree 1 demoTracked).live 1 = false ∧
    ∀ h ∈ (demoTracked.ctxs 1).vals, h ≠ 0 →
      ((ContextFree 1 demoTracked).values h).ptr = none ∧ (ContextFree 1 demoTracked).live h = false :=
  (ContextFree_releases 1 demoTracked).2 (by decide)

/-! ### The callback trampoline -/

theorem wrap_args_spec (iso ctx : Ptr) (args : List LocalValue) (s : State) :
    (wrap_args iso ctx args s).1.length = args.length ∧
    (wrap_args iso ctx args s).2.trace = s.trace ∧
    ((wrap_args iso ctx args s).2.ctxs ctx).vals =
      (s.ctxs ctx).vals ++ (wrap_args iso ctx args s).1 ∧
    (∀ p ∈ (wrap_args iso ctx args s).1,
      p ≠ 0 ∧ (wrap_args iso ctx args s).2.live p = true ∧
      p ≤ (wrap_args iso ctx args s).2.next ∧
      ((p ≤ s.next ∧ s.live p = false) ∨ s.next < p)) ∧
    (wrap_args iso ctx args s).1.Nodup ∧
    (∀ p, p ∉ (wrap_args iso ctx args s).1 →
      (wrap_args iso ctx args s).2.values p = s.values p ∧
      (wrap_args iso ctx args s).2.live p = s.live p) ∧
    (∀ (i : Nat) (a : LocalValue) (h : Ptr), args[i]? = some a →
      (wrap_args iso ctx args s).1[i]? = some h →
      (wrap_args iso ctx args s).2.values h = { iso := iso, ctx := ctx, ptr := some a }) ∧
    s.next ≤ (wrap_args iso ctx args s).2.next ∧
    (∀ c, c ≠ ctx → (wrap_args iso ctx args s).2.ctxs c = s.ctxs c) ∧
    ((wrap_args iso ctx args s).2.ctxs ctx).iso = (s.ctxs ctx).iso ∧
    ((wrap_args iso ctx args s).2.ctxs ctx).ptr = (s.ctxs ctx).ptr ∧
    (wrap_args iso ctx args s).2.embedder = s.embedder ∧
    (wrap_args iso ctx args s).2.isoData = s.isoData := by
  induction args generalizing s with
  | nil => simp [wrap_args]
  | cons a rest ih =>
    obtain ⟨p, n, r, hnew, hp0, hpn, hsn, hfresh⟩ := new_m_value_spec iso ctx (some a) s
    have hunfold : wrap_args iso ctx (a :: rest) s =
        (p :: (wrap_args iso ctx rest (tracked_value ctx p (new_m_value iso ctx (some a) s).2).2).1,
          (wrap_args iso ctx rest (tracked_value ctx p (new_m_value iso ctx (some a) s).2).2).2) := by
      simp only [wrap_args, hnew, tracked_value]
    rw [hunfold]
    obtain ⟨ih1, ih2, ih3, ih4, ih5, ih6, ih7, ih8, ih9, ih10, ih11, ih12, ih13⟩ :=
      ih (tracked_value ctx p (new_m_value iso ctx (some a) s).2).2
    rw [hnew] at ih1 ih2 ih3 ih4 ih5 ih6 ih7 ih8 ih9 ih10 ih11 ih12 ih13 ⊢
    simp only [tracked_value] at ih1 ih2 ih3 ih4 ih5 ih6 ih7 ih8 ih9 ih10 ih11 ih12 ih13 ⊢
    have hpnot : p ∉ (wrap_args iso ctx rest
        { s with recycle := r, next := n, live := update s.live p true,
                 values := update s.values p { iso := iso, ctx := ctx, ptr := some a },
                 ctxs := update s.ctxs ctx
                   { s.ctxs ctx with vals := (s.ctxs ctx).vals ++ [p] } }).1 := by
      intro hmem
      rcases (ih4 p hmem).2.2.2 with ⟨_, hl⟩ | hlt
      · simp [update] at hl
      · exact absurd hpn (Nat.not_le.mpr hlt)
    refine ⟨?_, ?_, ?_, ?_, ?_, ?_, ?_, ?_, ?_, ?_, ?_, ?_, ?_⟩
    · simp [ih1]
    · rw [ih2]
    · rw [ih3]
      simp [update]
    · intro q hq
      rcases List.mem_cons.mp hq with e | hq
      · subst e
        refine ⟨hp0, ?_, Nat.le_trans hpn ih8, hfresh⟩
        rw [(ih6 q hpnot).2]
        simp [update]
      · obtain ⟨q0, ql, qn, qf⟩ := ih4 q hq
        refine ⟨q0, ql, qn, ?_⟩
        have hqp : q ≠ p := fun e => hpnot (e ▸ hq)
        rcases qf with ⟨qle, qlive⟩ | qlt
        · simp only [update, hqp, if_false] at qlive
          by_cases hq2 : q ≤ s.next
          · exact Or.inl ⟨hq2, qlive⟩
          · exact Or.inr (Nat.not_le.mp hq2)
        · exact Or.inr (Nat.lt_of_le_of_lt hsn qlt)
    · exact List.nodup_cons.mpr ⟨hpnot, ih5⟩
    · intro q hq
      have hqp : q ≠ p := fun e => hq (e ▸ List.mem_cons_self _ _)
      have hq2 := ih6 q (fun hm => hq (List.mem_cons_of_mem _ hm))
      simp only [update, hqp, if_false] at hq2
      exact hq2
    · intro i b h hb hh
      cases i with
      | zero =>
        simp only [List.getElem?_cons_zero, Option.some.injEq] at hb hh
        subst hb
        subst hh
        rw [(ih6 _ hpnot).1]
        simp [update]
      | succ j =>
        simp only [List.getElem?_cons_succ] at hb hh
        exact ih7 j b h hb hh
    · exact Nat.le_trans hsn ih8
    · intro c hc
      rw [ih9 c hc]
      simp [update, hc]
    · rw [ih10]
      simp [update]
    · rw [ih11]
      simp [update]
    · rw [ih12]
    · rw [ih13]

theorem FunctionTemplateCallback_eq (host : Host) (info : FunctionCallbackInfo) (s : State)
    (d : Int) (hd : s.embedder info.currentContext 1 = some d) :
    FunctionTemplateCallback host info s =
      some
        (if (host.goFunctionCallback (toInt d) (toInt info.data) (callback_entry host info d s).1
              info.args.length (callback_entry host info d s).2).1 ≠ 0 then
          ReturnValue.set
            (((host.goFunctionCallback (toInt d) (toInt info.data) (callback_entry host info d s).1
              info.args.length (callback_entry host info d s).2).2.values
              (host.goFunctionCallback (toInt d) (toInt info.data) (callback_entry host info d s).1
              info.args.length (callback_entry host info d s).2).1).ptr)
         else ReturnValue.undefined,
         (host.goFunctionCallback (toInt d) (toInt info.data) (callback_entry host info d s).1
              info.args.length (callback_entry host info d s).2).2.emit
           (Event.unlock info.isolate)) := by
  have hd' : (s.emit (Event.lock info.isolate)).embedder info.currentContext 1 = some d := hd
  simp only [FunctionTemplateCallback, hd', callback_entry]
  split <;> rfl

/-- C5: a call, with arguments `args`, of a function made from the template of
`NewFunctionTemplate(iso, T)` enters the host callback once, with the callback
token `T`, `args_count = args.length`, and an argument array of the same length
whose `i`-th entry is a fresh non-null handle wrapping `args[i]`, recorded and
tracked (appended in order) under the context that `goContext` resolves from the
identifier in embedder slot 1; the call returns from that one host call. -/
theorem trampoline_delivers_arguments (host : Host) (iso_ptr : Ptr) (T : Int) (s0 : State)
    (current : LocalContext) (args : List LocalValue) (s : State) (ref : Int)
    (hT0 : -2 ^ 31 ≤ T) (hT1 : T < 2 ^ 31)
    (href : s.embedder current 1 = some ref) :
    let tmpl := ((NewFunctionTemplate iso_ptr T s0).2.templates
      (NewFunctionTemplate iso_ptr T s0).1).ptr
    let info : FunctionCallbackInfo :=
      { isolate := iso_ptr, currentContext := current, data := T, args := args }
    let ctx := host.goContext (toInt ref)
    let e := callback_entry host info ref s
    let r := host.goFunctionCallback (toInt ref) T e.1 args.length e.2
    e.1.length = args.length ∧ e.1.Nodup ∧
    (∀ (i : Nat) (a : LocalValue), args[i]? = some a →
      ∃ h, e.1[i]? = some h ∧ h ≠ 0 ∧
        e.2.values h = { iso := iso_ptr, ctx := ctx, ptr := some a }) ∧
    (e.2.ctxs ctx).vals = (s.ctxs ctx).vals ++ e.1 ∧
    e.2.trace = s.trace ++ [Event.lock iso_ptr, Event.goContext (toInt ref),
      Event.goFunctionCallback (toInt ref) T e.1 args.length] ∧
    call_template_function host tmpl iso_ptr current args s =
      some (if r.1 ≠ 0 then ReturnValue.set (r.2.values r.1).ptr else ReturnValue.undefined,
            r.2.emit (Event.unlock iso_ptr)) := by
  intro tmpl info ctx e r
  have hTT : toInt T = T := toInt_of_range T hT0 hT1
  have htmpl : tmpl = some (Template.function T) := by
    obtain ⟨p, n, r, hnew, -⟩ := State.new_spec (s0.emit (Event.lock iso_ptr))
    simp [tmpl, NewFunctionTemplate, hnew, State.emit, update]
  obtain ⟨w1, w2, w3, w4, w5, -, w7, -⟩ := wrap_args_spec iso_ptr ctx args
    ((s.emit (Event.lock iso_ptr)).emit (Event.goContext (toInt ref)))
  have he1 : e.1 = (wrap_args iso_ptr ctx args
      ((s.emit (Event.lock iso_ptr)).emit (Event.goContext (toInt ref)))).1 := rfl
  have he2 : e.2 = (wrap_args iso_ptr ctx args
      ((s.emit (Event.lock iso_ptr)).emit (Event.goContext (toInt ref)))).2.emit
        (Event.goFunctionCallback (toInt ref) (toInt T) e.1 args.length) := rfl
  refine ⟨?_, ?_, ?_, ?_, ?_, ?_⟩
  · rw [he1, w1]
  · rw [he1]
    exact w5
  · intro i a hia
    have hi : i < args.length := by
      by_contra hge
      rw [List.getElem?_eq_none (by omega)] at hia
      exact Option.noConfusion hia
    have hi' : i < (wrap_args iso_ptr ctx args
        ((s.emit (Event.lock iso_ptr)).emit (Event.goContext (toInt ref)))).1.length := by
      rw [w1]
      exact hi
    obtain ⟨h, hget⟩ : ∃ h, (wrap_args iso_ptr ctx args
        ((s.emit (Event.lock iso_ptr)).emit (Event.goContext (toInt ref)))).1[i]? = some h :=
      ⟨_, List.getElem?_eq_getElem hi'⟩
    refine ⟨h, ?_, ?_, ?_⟩
    · rw [he1]
      exact hget
    · exact (w4 h (List.getElem?_mem hget)).1
    · rw [he2]
      exact w7 i a h hia hget
  · rw [he2]
    show ((wrap_args iso_ptr ctx args _).2.ctxs ctx).vals = _
    rw [w3]
    rfl
  · rw [he2]
    show (wrap_args iso_ptr ctx args _).2.trace ++ _ = _
    rw [w2, hTT]
    simp [State.emit]
  · rw [htmpl]
    simp only [call_template_function]
    rw [FunctionTemplateCallback_eq host info s ref href]
    simp only [info, hTT]

theorem trampoline_delivers_arguments_witness :
    let tmpl := ((NewFunctionTemplate 1 5 State.empty).2.templates
      (NewFunctionTemplate 1 5 State.empty).1).ptr
    let info : FunctionCallbackInfo :=
      { isolate := 1, currentContext := 1, data := 5, args := [10, 20] }
    let ctx := demoHost.goContext (toInt 7)
    let e := callback_entry demoHost info 7 demoState
    let r := demoHost.goFunctionCallback (toInt 7) 5 e.1 [10, 20].length e.2
    e.1.length = [10, 20].length ∧ e.1.Nodup ∧
    (∀ (i : Nat) (a : LocalValue), [10, 20][i]? = some a →
      ∃ h, e.1[i]? = some h ∧ h ≠ 0 ∧
        e.2.values h = { iso := 1, ctx := ctx, ptr := some a }) ∧
    (e.2.ctxs ctx).vals = (demoState.ctxs ctx).vals ++ e.1 ∧
    e.2.trace = demoState.trace ++ [Event.lock 1, Event.goContext (toInt 7),
      Event.goFunctionCallback (toInt 7) 5 e.1 [10, 20].length] ∧
    call_template_function demoHost tmpl 1 1 [10, 20] demoState =
      some (if r.1 ≠ 0 then ReturnValue.set (r.2.values r.1).ptr else ReturnValue.undefined,
            r.2.emit (Event.unlock 1)) :=
  trampoline_delivers_arguments demoHost 1 5 State.empty 1 [10, 20] demoState 7
    (by decide) (by decide) rfl

theorem NewContext_spec (iso_ptr global_template_ptr : Ptr) (ref : Int) (s : State) :
    ∃ (ctx : Ptr) (s' : State),
      NewContext iso_ptr global_template_ptr ref s = (ctx, s') ∧
      ctx ≠ 0 ∧ ctx ≤ s'.next ∧ s.next ≤ s'.next ∧
      ((ctx ≤ s.next ∧ s.live ctx = false) ∨ s.next < ctx) ∧
      s'.ctxs = update s.ctxs ctx
        { iso := iso_ptr, vals := [], ptr := some (s.nextContext + 1) } ∧
      s'.values = s.values ∧ s'.live = update s.live ctx true ∧
      s'.isoData = s.isoData ∧ s'.templates = s.templates ∧
      s'.embedder (s.nextContext + 1) 1 = some ref ∧
      (∀ slot, slot ≠ 1 → s'.embedder (s.nextContext + 1) slot = none) ∧
      s'.trace = s.trace ++ [Event.lock iso_ptr,
        Event.setEmbedderData (s.nextContext + 1) 1 ref, Event.unlock iso_ptr] := by
  obtain ⟨p, n, r, hnew, hp0, hpn, hsn, hfresh⟩ := State.new_spec
    (SetEmbedderData (s.nextContext + 1) 1 ref
      (Context_New (if global_template_ptr ≠ 0 then
          ((s.emit (Event.lock iso_ptr)).templates global_template_ptr).ptr
        else some Template.object) (s.emit (Event.lock iso_ptr))).2)
  simp only [Context_New, SetEmbedderData, State.emit] at hnew hsn hfresh
  simp only [NewContext, Context_New, SetEmbedderData, State.emit, hnew]
  refine ⟨p, _, rfl, hp0, hpn, hsn, hfresh, rfl, rfl, rfl, rfl, rfl, ?_, ?_, ?_⟩
  · simp [update]
  · intro slot hslot
    simp [update, hslot]
  · simp

/-- C6: `NewContext(iso, template, ref)`, for an `int` `ref`, stores `ref` in
embedder slot 1 of the new engine context and writes no other slot (slot 0 stays
empty); and whenever the trampoline runs with that context current while slot 1
still holds `ref`, the identifier in both the `goContext` call and the
`goFunctionCallback` call is `ref`. -/
theorem NewContext_identifier (iso_ptr global_template_ptr : Ptr) (ref : Int) (s : State)
    (h0 : -2 ^ 31 ≤ ref) (h1 : ref < 2 ^ 31) :
    ∃ (local_ctx : LocalContext),
      ((NewContext iso_ptr global_template_ptr ref s).2.ctxs
        (NewContext iso_ptr global_template_ptr ref s).1).ptr = some local_ctx ∧
      (NewContext iso_ptr global_template_ptr ref s).2.embedder local_ctx 1 = some ref ∧
      (∀ slot, slot ≠ 1 →
        (NewContext iso_ptr global_template_ptr ref s).2.embedder local_ctx slot = none) ∧
      (NewContext iso_ptr global_template_ptr ref s).2.trace =
        s.trace ++ [Event.lock iso_ptr, Event.setEmbedderData local_ctx 1 ref,
          Event.unlock iso_ptr] ∧
      ∀ (host : Host) (info : FunctionCallbackInfo) (s2 : State),
        info.currentContext = local_ctx → s2.embedder local_ctx 1 = some ref →
        let e := callback_entry host info ref s2
        let r := host.goFunctionCallback ref (toInt info.data) e.1 info.args.length e.2
        e.1 = (wrap_args info.isolate (host.goContext ref) info.args
            ((s2.emit (Event.lock info.isolate)).emit (Event.goContext ref))).1 ∧
        e.2.trace = s2.trace ++ [Event.lock info.isolate, Event.goContext ref,
            Event.goFunctionCallback ref (toInt info.data) e.1 info.args.length] ∧
        FunctionTemplateCallback host info s2 =
          some (if r.1 ≠ 0 then ReturnValue.set (r.2.values r.1).ptr else ReturnValue.undefined,
                r.2.emit (Event.unlock info.isolate)) := by
  have hr : toInt ref = ref := toInt_of_range ref h0 h1
  obtain ⟨ctx, s', heq, -, -, -, -, hctxs, -, -, -, -, hemb, hslots, htrace⟩ :=
    NewContext_spec iso_ptr global_template_ptr ref s
  rw [heq]
  refine ⟨s.nextContext + 1, ?_, hemb, hslots, htrace, ?_⟩
  · show (s'.ctxs ctx).ptr = _
    rw [hctxs]
    simp [update]
  · intro host info s2 hcur hslot e r
    have hd : s2.embedder info.currentContext 1 = some ref := by rw [hcur]; exact hslot
    have hentry := (wrap_args_spec info.isolate (host.goContext ref) info.args
      ((s2.emit (Event.lock info.isolate)).emit (Event.goContext ref))).2.1
    refine ⟨?_, ?_, ?_⟩
    · simp only [e, callback_entry, hr]
    · simp only [e, callback_entry, hr, State.emit] at hentry ⊢
      rw [hentry]
      simp
    · have := FunctionTemplateCallback_eq host info s2 ref hd
      rw [hr] at this
      exact this

theorem NewContext_identifier_witness :
    ∃ (local_ctx : LocalContext),
      ((NewContext 1 0 7 State.empty).2.ctxs (NewContext 1 0 7 State.empty).1).ptr
        = some local_ctx ∧
      (NewContext 1 0 7 State.empty).2.embedder local_ctx 1 = some 7 ∧
      (∀ slot, slot ≠ 1 → (NewContext 1 0 7 State.empty).2.embedder local_ctx slot = none) ∧
      (NewContext 1 0 7 State.empty).2.trace =
        State.empty.trace ++ [Event.lock 1, Event.setEmbedderData local_ctx 1 7, Event.unlock 1] ∧
      ∀ (host : Host) (info : FunctionCallbackInfo) (s2 : State),
        info.currentContext = local_ctx → s2.embedder local_ctx 1 = some 7 →
        let e := callback_entry host info 7 s2
        let r := host.goFunctionCallback 7 (toInt info.data) e.1 info.args.length e.2
        e.1 = (wrap_args info.isolate (host.goContext 7) info.args
            ((s2.emit (Event.lock info.isolate)).emit (Event.goContext 7))).1 ∧
        e.2.trace = s2.trace ++ [Event.lock info.isolate, Event.goContext 7,
            Event.goFunctionCallback 7 (toInt info.data) e.1 info.args.length] ∧
        FunctionTemplateCallback host info s2 =
          some (if r.1 ≠ 0 then ReturnValue.set (r.2.values r.1).ptr else ReturnValue.undefined,
                r.2.emit (Event.unlock info.isolate)) :=
  NewContext_identifier 1 0 7 State.empty (by decide) (by decide)

/-- C7: when the host callback returns a non-null handle, the return value of
the engine call is set to the value that handle holds; when it returns null,
the return value is the undefined value of the engine. -/
theorem trampoline_return_value (host : Host) (info : FunctionCallbackInfo) (s : State)
    (d : Int) (hd : s.embedder info.currentContext 1 = some d) :
    let e := callback_entry host info d s
    let r := host.goFunctionCallback (toInt d) (toInt info.data) e.1 info.args.length e.2
    (r.1 ≠ 0 →
      FunctionTemplateCallback host info s =
        some (ReturnValue.set (r.2.values r.1).ptr, r.2.emit (Event.unlock info.isolate))) ∧
    (r.1 = 0 →
      FunctionTemplateCallback host info s =
        some (ReturnValue.undefined, r.2.emit (Event.unlock info.isolate))) := by
  intro e r
  have key := FunctionTemplateCallback_eq host info s d hd
  refine ⟨?_, ?_⟩
  · intro hne
    rw [key, if_pos hne]
  · intro heq
    have hnot : ¬ ((host.goFunctionCallback (toInt d) (toInt info.data)
        (callback_entry host info d s).1 info.args.length
        (callback_entry host info d s).2).1 ≠ 0) := by
      intro hne
      exact hne heq
    rw [key, if_neg hnot]

theorem trampoline_return_value_witness :
    (FunctionTemplateCallback demoHost
        { isolate := 1, currentContext := 1, data := 5, args := [10, 20] } demoState).map Prod.fst
      = some (ReturnValue.set (some 10)) ∧
    (FunctionTemplateCallback demoHost
        { isolate := 1, currentContext := 1, data := 5, args := [] } demoState).map Prod.fst
      = some ReturnValue.undefined := by
  constructor
  · rw [(trampoline_return_value demoHost
      { isolate := 1, currentContext := 1, data := 5, args := [10, 20] } demoState 7 rfl).1
      (by decide)]
    rfl
  · rw [(trampoline_return_value demoHost
      { isolate := 1, currentContext := 1, data := 5, args := [] } demoState 7 rfl).2 rfl]
    rfl

/-! ### Promises -/

theorem PromiseThen_wraps_receiver (eng : Engine) (ptr : Ptr) (callback_ref : Int) (s : State)
    (h : Ptr) (s' : State) (hret : PromiseThen eng ptr callback_ref s = some (h, s')) :
    (s'.values h).ptr = (s.values ptr).ptr := by
  unfold PromiseThen at hret
  cases hL : LOCAL_VALUE ptr s with
  | none => simp [hL] at hret
  | some p =>
    obtain ⟨sc, t⟩ := p
    have hval : sc.value = (s.values ptr).ptr := by
      unfold LOCAL_VALUE at hL
      simp only at hL
      split at hL
      · exact Option.noConfusion hL
      · simp only [Option.some.injEq, Prod.mk.injEq] at hL
        rw [← hL.1]
    simp only [hL] at hret
    cases hv : sc.value with
    | none => simp [hv] at hret
    | some promise =>
      simp only [hv] at hret
      cases hf : eng.Function_New sc.local_ctx callback_ref with
      | none => simp [hf] at hret
      | some func =>
        simp only [hf] at hret
        cases ht : eng.Promise_Then sc.local_ctx promise func with
        | none => simp [ht] at hret
        | some result =>
          simp only [ht, Option.some.injEq, Prod.mk.injEq] at hret
          obtain ⟨h1, h2⟩ := hret
          rw [← h1, ← h2, ← hval, hv]
          simp [new_m_value, tracked_value, State.new, State.emit, update]

/-- C10 fails on the code: for the promise `50` behind the handle at address
`2`, the engine returns the chained promise `150` from `then` and `catch`, but
the handles returned by `PromiseThen`, `PromiseThen2` and `PromiseCatch` hold
the receiver `50`. -/
theorem Promise_chaining_returns_receiver :
    (demoPromise.values 2).ptr = some 50 ∧
    demoEngine.Promise_Then 1 50 1005 = some 150 ∧
    (PromiseThen demoEngine 2 5 demoPromise).map (fun r => (r.2.values r.1).ptr)
      = some (some 50) ∧
    demoEngine.Promise_Then2 1 50 1005 1006 = some 150 ∧
    (PromiseThen2 demoEngine 2 5 6 demoPromise).map (fun r => (r.2.values r.1).ptr)
      = some (some 50) ∧
    demoEngine.Promise_Catch 1 50 1005 = some 150 ∧
    (PromiseCatch demoEngine 2 5 demoPromise).map (fun r => (r.2.values r.1).ptr)
      = some (some 50) := by
  refine ⟨rfl, rfl, ?_, rfl, ?_, rfl, ?_⟩ <;> rfl

/-! ### Handle registry -/

/-- C11: `tracked_value(C, v)` is total, returns the handle `v` it was given,
and leaves the tracked list of `C` equal to its previous contents with `v`
appended last; the rest of the record of `C`, every other context record, every
handle record and the trace are unchanged. -/
theorem tracked_value_appends (c v : Ptr) (s : State) :
    (tracked_value c v s).1 = v ∧
    ((tracked_value c v s).2.ctxs c).vals = (s.ctxs c).vals ++ [v] ∧
    ((tracked_value c v s).2.ctxs c).vals.length = (s.ctxs c).vals.length + 1 ∧
    ((tracked_value c v s).2.ctxs c).iso = (s.ctxs c).iso ∧
    ((tracked_value c v s).2.ctxs c).ptr = (s.ctxs c).ptr ∧
    (∀ q, q ≠ c → (tracked_value c v s).2.ctxs q = s.ctxs q) ∧
    (tracked_value c v s).2.values = s.values ∧
    (tracked_value c v s).2.live = s.live ∧
    (tracked_value c v s).2.trace = s.trace := by
  refine ⟨rfl, ?_, ?_, ?_, ?_, ?_, rfl, rfl, rfl⟩
  · simp [tracked_value, update]
  · simp [tracked_value, update]
  · simp [tracked_value, update]
  · simp [tracked_value, update]
  · intro q hq
    simp [tracked_value, update, hq]

/-- C12: `ValueFree(nullptr)` does nothing.  For a non-null handle `h`,
`ValueFree(h)` empties the persistent reference of `h` and deletes the record,
and leaves every context record, hence every tracked list, unchanged: `h` is
still an entry of each list it was in. -/
theorem ValueFree_keeps_lists (h : Ptr) (s : State) :
    ValueFree 0 s = s ∧
    (h ≠ 0 →
      ((ValueFree h s).values h).ptr = none ∧
      (ValueFree h s).live h = false ∧
      (ValueFree h s).trace = s.trace ++ [Event.resetValue h, Event.deleteValue h] ∧
      (ValueFree h s).ctxs = s.ctxs ∧
      ∀ c, h ∈ (s.ctxs c).vals → h ∈ ((ValueFree h s).ctxs c).vals) := by
  refine ⟨by simp [ValueFree], ?_⟩
  intro hh
  refine ⟨(ValueFree_cleared h s hh).1, (ValueFree_cleared h s hh).2, ?_, ValueFree_ctxs h s, ?_⟩
  · rw [ValueFree_trace]
    simp [hh]
  · intro c hc
    rw [ValueFree_ctxs]
    exact hc

theorem ValueFree_keeps_lists_witness :
    ((ValueFree 4 demoWorld).values 4).ptr = none ∧
    (ValueFree 4 demoWorld).live 4 = false ∧
    (ValueFree 4 demoWorld).trace =
      demoWorld.trace ++ [Event.resetValue 4, Event.deleteValue 4] ∧
    (ValueFree 4 demoWorld).ctxs = demoWorld.ctxs ∧
    ∀ c, 4 ∈ (demoWorld.ctxs c).vals → 4 ∈ ((ValueFree 4 demoWorld).ctxs c).vals :=
  (ValueFree_keeps_lists 4 demoWorld).2 (by decide)

/-! ### Exception constructors -/

theorem Exceptions_construct_spec (eng : Engine) (make : LocalValue → LocalValue) (iso_ptr : Ptr)
    (message : String) (s : State) (msg : LocalValue)
    (hmsg : eng.String_NewFromUtf8 message = some msg) :
    ∃ (h : Ptr) (s' : State),
      Exceptions.construct eng make iso_ptr message s = some (h, s') ∧ h ≠ 0 ∧
      s'.ctxs = s.ctxs ∧ s'.isoData = s.isoData ∧
      s'.values h = { iso := iso_ptr, ctx := 0, ptr := some (make msg) } ∧
      s'.live h = true ∧
      s'.trace = s.trace ++ [Event.lock iso_ptr, Event.unlock iso_ptr] := by
  obtain ⟨p, n, r, hnew, hp0, -⟩ :=
    new_m_value_spec iso_ptr 0 (some (make msg)) (s.emit (Event.lock iso_ptr))
  simp only [Exceptions.construct, hmsg, hnew]
  refine ⟨p, _, rfl, hp0, ?_⟩
  simp [State.emit, update]

theorem NewIsolate_spec (s0 : State) :
    ∃ (iso ctx : Ptr) (n : Nat) (r : List Ptr),
      NewIsolate s0 =
        (iso, { s0 with
          recycle := r, next := n,
          live := update (update s0.live iso true) ctx true,
          nextContext := s0.nextContext + 1,
          embedder := update s0.embedder (s0.nextContext + 1) (fun _ => none),
          global := update s0.global (s0.nextContext + 1) none,
          ctxs := update s0.ctxs ctx
            { iso := iso, vals := [], ptr := some (s0.nextContext + 1) },
          isoData := update s0.isoData iso (update (s0.isoData iso) 0 ctx),
          trace := s0.trace ++ [Event.lock iso, Event.unlock iso] }) ∧
      iso ≠ 0 ∧ ctx ≠ 0 ∧ iso ≠ ctx ∧ iso ≤ n ∧ ctx ≤ n ∧ s0.next ≤ n ∧
      ((iso ≤ s0.next ∧ s0.live iso = false) ∨ s0.next < iso) ∧
      ((ctx ≤ s0.next ∧ s0.live ctx = false) ∨ s0.next < ctx) := by
  obtain ⟨p1, n1, r1, h1, a1, b1, c1, d1⟩ := State.new_spec s0
  obtain ⟨p2, n2, r2, h2, a2, b2, c2, d2⟩ := State.new_spec
    (({ s0 with recycle := r1, next := n1, live := update s0.live p1 true } : State).emit
      (Event.lock p1))
  have c2' : n1 ≤ n2 := c2
  have hne : p1 ≠ p2 := by
    intro e
    rcases d2 with ⟨_, hl⟩ | hlt
    · simp [State.emit, update, e] at hl
    · have hlt' : n1 < p2 := hlt
      exact absurd (e ▸ b1 : p2 ≤ n1) (Nat.not_le.mpr hlt')
  refine ⟨p1, p2, n2, r2, ?_, a1, a2, hne, Nat.le_trans b1 c2', b2, Nat.le_trans c1 c2', d1, ?_⟩
  · simp only [State.emit] at h2
    simp only [NewIsolate, Isolate_New, h1, State.emit, h2, Context_New, Isolate_SetData]
    simp
  · rcases d2 with ⟨hle, hl⟩ | hlt
    · have hl' : s0.live p2 = false := by
        simpa [State.emit, update, Ne.symm hne] using hl
      by_cases hq : p2 ≤ s0.next
      · exact Or.inl ⟨hq, hl'⟩
      · exact Or.inr (Nat.not_le.mp hq)
    · have hlt' : n1 < p2 := hlt
      exact Or.inr (Nat.lt_of_le_of_lt c1 hlt')

theorem demoWorld_lists (c p : Ptr) (hp : p ∈ (demoWorld.ctxs c).vals) : p ≤ 5 := by
  have h : demoWorld.ctxs c =
      if c = 2 then { iso := 1, vals := [5], ptr := some 1 }
      else if c = 3 then { iso := 1, vals := [4], ptr := some 2 }
      else { iso := 0, vals := [], ptr := none } := by
    by_cases h2 : c = 2
    · subst h2; rfl
    · by_cases h3 : c = 3
      · subst h3; rfl
      · simp [demoWorld, NewValueInteger, wrap_args, NewContext, demoIsolate, NewIsolate,
          Isolate_New, Isolate_SetData, Context_New, SetEmbedderData, new_m_value, tracked_value,
          State.new, State.emit, State.empty, update, h2, h3]
  rw [h] at hp
  split at hp
  · have h5 : p = 5 := List.mem_singleton.mp hp
    exact le_of_eq h5
  · split at hp
    · have h4 : p = 4 := List.mem_singleton.mp hp
      rw [h4]
      decide
    · exact absurd hp (List.not_mem_nil p)

/-- C13 fails on the code: on a memory with an isolate at address `1`, each of
the five exception constructors hands the host a fresh live handle (address `6`)
that records no context and is an element of no tracked list, while
`NewValueInteger` on the same memory tracks its handle under the context for
internal use. -/
theorem Exception_constructors_do_not_track :
    (∀ op ∈ [Exceptions.ExceptionError, Exceptions.ExceptionRangeError,
              Exceptions.ExceptionReferenceError, Exceptions.ExceptionSyntaxError,
              Exceptions.ExceptionTypeError],
      ∃ s', op demoEngine demoValues 1 "boom" demoWorld = some (6, s') ∧
        s'.live 6 = true ∧ (s'.values 6).ctx = 0 ∧ (s'.values 6).ptr ≠ none ∧
        ∀ c, 6 ∉ (s'.ctxs c).vals) ∧
    (NewValueInteger demoValues 1 5 demoWorld).1 = 6 ∧
    6 ∈ ((NewValueInteger demoValues 1 5 demoWorld).2.ctxs (demoWorld.isoData 1 0)).vals := by
  have key : ∀ make : LocalValue → LocalValue,
      ∃ s', Exceptions.construct demoEngine make 1 "boom" demoWorld = some (6, s') ∧
        s'.live 6 = true ∧ (s'.values 6).ctx = 0 ∧ (s'.values 6).ptr ≠ none ∧
        ∀ c, 6 ∉ (s'.ctxs c).vals := by
    intro make
    obtain ⟨h, s', h1, _, h2, _, h4, h5, _⟩ :=
      Exceptions_construct_spec demoEngine make 1 "boom" demoWorld 4 rfl
    have hn : (Exceptions.construct demoEngine make 1 "boom" demoWorld).map Prod.fst = some 6 :=
      rfl
    rw [h1] at hn
    have h6 : h = 6 := Option.some.inj hn
    subst h6
    refine ⟨s', h1, h5, ?_, ?_, ?_⟩
    · rw [h4]
    · rw [h4]; simp
    · intro c hc
      rw [h2] at hc
      exact absurd (demoWorld_lists c 6 hc) (by decide)
  refine ⟨?_, rfl, by decide⟩
  intro op hop
  simp only [List.mem_cons, List.mem_singleton, List.not_mem_nil, or_false] at hop
  rcases hop with h | h | h | h | h <;> subst h
  · exact key _
  · exact key _
  · exact key _
  · exact key _
  · exact key _

/-! ### The context of a value operation -/

/-- C14: the macro `LOCAL_VALUE`, through which every value operation enters,
selects the context the handle records when that is non-null, and otherwise the
context in data slot 0 of the handle's isolate; the operation then runs in the
engine context of the selected record.  `NewIsolate` stores its context for
internal use in that slot, and a handle made by `ExceptionError(iso, message)`
records no context, so an operation on it runs in that internal context. -/
theorem LOCAL_VALUE_context (ptr : Ptr) (s : State) (lc : LocalContext) :
    ((s.values ptr).ctx ≠ 0 → (s.ctxs (s.values ptr).ctx).ptr = some lc →
      LOCAL_VALUE ptr s =
        some ({ iso := (s.values ptr).iso, ctx := (s.values ptr).ctx, local_ctx := lc,
                value := (s.values ptr).ptr },
              s.emit (Event.lock (s.values ptr).iso))) ∧
    ((s.values ptr).ctx = 0 → (s.ctxs (s.isoData (s.values ptr).iso 0)).ptr = some lc →
      LOCAL_VALUE ptr s =
        some ({ iso := (s.values ptr).iso, ctx := s.isoData (s.values ptr).iso 0,
                local_ctx := lc, value := (s.values ptr).ptr },
              s.emit (Event.lock (s.values ptr).iso))) ∧
    (∀ (s0 : State),
      (NewIsolate s0).2.isoData (NewIsolate s0).1 0 ≠ 0 ∧
      (NewIsolate s0).2.ctxs ((NewIsolate s0).2.isoData (NewIsolate s0).1 0) =
        { iso := (NewIsolate s0).1, vals := [], ptr := some (s0.nextContext + 1) }) ∧
    (∀ (eng : Engine) (ve : ValueEngine) (iso : Ptr) (message : String) (msg : LocalValue),
      eng.String_NewFromUtf8 message = some msg →
      (s.ctxs (s.isoData iso 0)).ptr = some lc →
      ∃ (h : Ptr) (s' : State),
        Exceptions.ExceptionError eng ve iso message s = some (h, s') ∧ h ≠ 0 ∧
        (s'.values h).ctx = 0 ∧
        LOCAL_VALUE h s' =
          some ({ iso := iso, ctx := s.isoData iso 0, local_ctx := lc,
                  value := some (ve.Exception_Error msg) },
                s'.emit (Event.lock iso))) := by
  refine ⟨?_, ?_, ?_, ?_⟩
  · intro hc hp
    simp [LOCAL_VALUE, State.emit, hc, hp]
  · intro hc hp
    simp [LOCAL_VALUE, State.emit, hc, hp]
  · intro s0
    obtain ⟨iso, ctx, n, r, heq, _, hctx0, _⟩ := NewIsolate_spec s0
    rw [heq]
    constructor
    · simpa [update] using hctx0
    · simp [update]
  · intro eng ve iso message msg hmsg hp
    obtain ⟨h, s', h1, h0, h2, h3, h4, _, _⟩ :=
      Exceptions_construct_spec eng ve.Exception_Error iso message s msg hmsg
    refine ⟨h, s', h1, h0, by rw [h4], ?_⟩
    have hp' : (s'.ctxs (s'.isoData iso 0)).ptr = some lc := by rw [h2, h3]; exact hp
    simp only [LOCAL_VALUE, State.emit, h4, hp', ne_eq, not_true_eq_false, if_false]
    rw [h3]

theorem LOCAL_VALUE_context_witness :
    LOCAL_VALUE 4 demoWorld =
      some ({ iso := 1, ctx := 3, local_ctx := 2, value := some 10 },
            demoWorld.emit (Event.lock 1)) ∧
    LOCAL_VALUE 6 demoException =
      some ({ iso := 1, ctx := 2, local_ctx := 1, value := some 504 },
            demoException.emit (Event.lock 1)) ∧
    (∃ (h : Ptr) (s' : State),
      Exceptions.ExceptionError demoEngine demoValues 1 "boom" demoWorld = some (h, s') ∧
      h ≠ 0 ∧ (s'.values h).ctx = 0 ∧
      LOCAL_VALUE h s' =
        some ({ iso := 1, ctx := 2, local_ctx := 1, value := some 504 },
              s'.emit (Event.lock 1))) :=
  ⟨(LOCAL_VALUE_context 4 demoWorld 2).1 (by decide) rfl,
   (LOCAL_VALUE_context 6 demoException 1).2.1 rfl rfl,
   (LOCAL_VALUE_context 0 demoWorld 1).2.2.2 demoEngine demoValues 1 "boom" 4 rfl rfl⟩

/-! ### JSON -/

theorem JSONStringify_eq (ve : ValueEngine) (ctx_ptr val_ptr : Ptr) (s : State)
    (iso : Ptr) (lc : LocalContext) (value : LocalValue)
    (hiso : (if ctx_ptr ≠ 0 then (s.ctxs ctx_ptr).iso else (s.values val_ptr).iso) = iso)
    (hlc : (if ctx_ptr ≠ 0 then (s.ctxs ctx_ptr).ptr
            else if (s.values val_ptr).ctx ≠ 0 then (s.ctxs (s.values val_ptr).ctx).ptr
            else (s.ctxs (s.isoData iso 0)).ptr) = some lc)
    (hv : (s.values val_ptr).ptr = some value) :
    JSONStringify ve ctx_ptr val_ptr s = some (JSONStringify_in ve iso lc value s) := by
  have hlc' : (if ctx_ptr ≠ 0 then ((s.emit (Event.lock iso)).ctxs ctx_ptr).ptr
            else if ((s.emit (Event.lock iso)).values val_ptr).ctx ≠ 0 then
              ((s.emit (Event.lock iso)).ctxs ((s.emit (Event.lock iso)).values val_ptr).ctx).ptr
            else ((s.emit (Event.lock iso)).ctxs
              ((s.emit (Event.lock iso)).isoData iso 0)).ptr) = some lc := hlc
  have hv' : ((s.emit (Event.lock iso)).values val_ptr).ptr = some value := hv
  simp only [JSONStringify, hiso, hlc', hv', JSONStringify_in]
  cases h : ve.JSON_Stringify lc value (s.emit (Event.lock iso)) with
  | mk r t => cases r <;> rfl

/-- C15: `JSONStringify(ctx, val)` runs the stringification of the value of
`val` in the engine context of `ctx` when `ctx` is non-null; otherwise in that of
the context `val` records when that is non-null; otherwise in that of the
context in data slot 0 of the isolate of `val`.  The isolate locked is that of
`ctx` when `ctx` is non-null and that of `val` otherwise. -/
theorem JSONStringify_context (ve : ValueEngine) (ctx_ptr val_ptr : Ptr) (s : State)
    (lc : LocalContext) (value : LocalValue)
    (hv : (s.values val_ptr).ptr = some value) :
    (ctx_ptr ≠ 0 → (s.ctxs ctx_ptr).ptr = some lc →
      JSONStringify ve ctx_ptr val_ptr s =
        some (JSONStringify_in ve (s.ctxs ctx_ptr).iso lc value s)) ∧
    ((s.values val_ptr).ctx ≠ 0 → (s.ctxs (s.values val_ptr).ctx).ptr = some lc →
      JSONStringify ve 0 val_ptr s =
        some (JSONStringify_in ve (s.values val_ptr).iso lc value s)) ∧
    ((s.values val_ptr).ctx = 0 →
      (s.ctxs (s.isoData (s.values val_ptr).iso 0)).ptr = some lc →
      JSONStringify ve 0 val_ptr s =
        some (JSONStringify_in ve (s.values val_ptr).iso lc value s)) := by
  refine ⟨?_, ?_, ?_⟩
  · intro hc hp
    exact JSONStringify_eq ve ctx_ptr val_ptr s _ lc value (by simp [hc]) (by simp [hc, hp]) hv
  · intro hc hp
    exact JSONStringify_eq ve 0 val_ptr s _ lc value (by simp) (by simp [hc, hp]) hv
  · intro hc hp
    exact JSONStringify_eq ve 0 val_ptr s _ lc value (by simp) (by simp [hc, hp]) hv

theorem JSONStringify_context_witness :
    JSONStringify demoValues 2 4 demoWorld = some (JSONStringify_in demoValues 1 1 10 demoWorld) ∧
    JSONStringify demoValues 0 4 demoWorld = some (JSONStringify_in demoValues 1 2 10 demoWorld) ∧
    JSONStringify demoValues 0 6 demoException =
      some (JSONStringify_in demoValues 1 1 504 demoException) :=
  ⟨(JSONStringify_context demoValues 2 4 demoWorld 1 10 rfl).1 (by decide) rfl,
   (JSONStringify_context demoValues 0 4 demoWorld 2 10 rfl).2.1 (by decide) rfl,
   (JSONStringify_context demoValues 0 6 demoException 1 504 rfl).2.2 rfl rfl⟩

/-! ### Failure paths of the result-or-error operations -/

theorem LOCAL_VALUE_some (ptr : Ptr) (s : State) (sc : ValueScope) (s1 : State)
    (h : LOCAL_VALUE ptr s = some (sc, s1)) :
    s1 = s.emit (Event.lock sc.iso) ∧ sc.iso = (s.values ptr).iso ∧
    sc.value = (s.values ptr).ptr := by
  unfold LOCAL_VALUE at h
  simp only at h
  split at h
  · exact Option.noConfusion h
  · simp only [Option.some.injEq, Prod.mk.injEq] at h
    obtain ⟨h1, h2⟩ := h
    subst h1
    exact ⟨h2.symm, rfl, rfl⟩

theorem RunScript_compile_failure_eq (eng : Engine) (ctx_ptr : Ptr) (source origin : String)
    (s : State) (local_ctx : LocalContext) (src ogn : LocalValue) (tc : TryCatch)
    (hctx : (s.ctxs ctx_ptr).ptr = some local_ctx)
    (hsrc : eng.String_NewFromUtf8 source = some src)
    (hogn : eng.String_NewFromUtf8 origin = some ogn)
    (hcompile : eng.Script_Compile local_ctx src ogn = (none, tc)) :
    RunScript eng ctx_ptr source origin s =
      some ({ value := 0, error := (ExceptionError tc (s.ctxs ctx_ptr).iso s).1 },
            (ExceptionError tc (s.ctxs ctx_ptr).iso
                ((s.emit (Event.lock (s.ctxs ctx_ptr).iso)).emit (Event.compile local_ctx))).2.emit
              (Event.unlock (s.ctxs ctx_ptr).iso)) := by
  have hctx' : ((s.emit (Event.lock (s.ctxs ctx_ptr).iso)).ctxs ctx_ptr).ptr = some local_ctx :=
    hctx
  simp only [RunScript, LOCAL_CONTEXT, hctx', hsrc, hogn, hcompile]
  rw [ExceptionError_fst_state tc (s.ctxs ctx_ptr).iso _ s]

theorem RunScript_run_failure_eq (eng : Engine) (ctx_ptr : Ptr) (source origin : String)
    (s : State) (local_ctx : LocalContext) (src ogn : LocalValue) (script : Script)
    (tc1 tc2 : TryCatch) (s1 : State)
    (hctx : (s.ctxs ctx_ptr).ptr = some local_ctx)
    (hsrc : eng.String_NewFromUtf8 source = some src)
    (hogn : eng.String_NewFromUtf8 origin = some ogn)
    (hcompile : eng.Script_Compile local_ctx src ogn = (some script, tc1))
    (hrun : eng.Script_Run script local_ctx
        (((s.emit (Event.lock (s.ctxs ctx_ptr).iso)).emit (Event.compile local_ctx)).emit
          (Event.run script local_ctx)) = ((none, tc2), s1)) :
    RunScript eng ctx_ptr source origin s =
      some ({ value := 0, error := (ExceptionError tc2 (s.ctxs ctx_ptr).iso s1).1 },
            (ExceptionError tc2 (s.ctxs ctx_ptr).iso s1).2.emit
              (Event.unlock (s.ctxs ctx_ptr).iso)) := by
  have hctx' : ((s.emit (Event.lock (s.ctxs ctx_ptr).iso)).ctxs ctx_ptr).ptr = some local_ctx :=
    hctx
  simp only [RunScript, LOCAL_CONTEXT, hctx', hsrc, hogn, hcompile, hrun]

theorem JSONParse_failure_eq (eng : Engine) (ve : ValueEngine) (ctx_ptr : Ptr) (str : String)
    (s : State) (local_ctx : LocalContext) (json : LocalValue) (tc : TryCatch)
    (hctx : (s.ctxs ctx_ptr).ptr = some local_ctx)
    (hstr : eng.String_NewFromUtf8 str = some json)
    (hparse : ve.JSON_Parse local_ctx json = (none, tc)) :
    JSONParse eng ve ctx_ptr str s =
      some ({ value := 0, error := (ExceptionError tc (s.ctxs ctx_ptr).iso s).1 },
            (ExceptionError tc (s.ctxs ctx_ptr).iso
                (s.emit (Event.lock (s.ctxs ctx_ptr).iso))).2.emit
              (Event.unlock (s.ctxs ctx_ptr).iso)) := by
  have hctx' : ((s.emit (Event.lock (s.ctxs ctx_ptr).iso)).ctxs ctx_ptr).ptr = some local_ctx :=
    hctx
  simp only [JSONParse, LOCAL_CONTEXT, hctx', hstr, hparse]
  rw [ExceptionError_fst_state tc (s.ctxs ctx_ptr).iso _ s]

theorem ObjectGet_failure_eq (eng : Engine) (ve : ValueEngine) (ptr : Ptr) (key : String)
    (s : State) (sc : ValueScope) (s1 : State) (key_val obj : LocalValue) (tc : TryCatch)
    (s2 : State)
    (hL : LOCAL_VALUE ptr s = some (sc, s1))
    (hkey : eng.String_NewFromUtf8 key = some key_val)
    (hobj : sc.value = some obj)
    (hget : ve.Object_Get sc.local_ctx obj key_val s1 = ((none, tc), s2)) :
    ObjectGet eng ve ptr key s =
      some ({ value := 0, error := (ExceptionError tc sc.iso s2).1 },
            (ExceptionError tc sc.iso s2).2.emit (Event.unlock sc.iso)) := by
  simp only [ObjectGet, hL, hkey, hobj, hget]

theorem ObjectGetIdx_failure_eq (ve : ValueEngine) (ptr : Ptr) (idx : Nat)
    (s : State) (sc : ValueScope) (s1 : State) (obj : LocalValue) (tc : TryCatch)
    (s2 : State)
    (hL : LOCAL_VALUE ptr s = some (sc, s1))
    (hobj : sc.value = some obj)
    (hget : ve.Object_GetIdx sc.local_ctx obj idx s1 = ((none, tc), s2)) :
    ObjectGetIdx ve ptr idx s =
      some ({ value := 0, error := (ExceptionError tc sc.iso s2).1 },
            (ExceptionError tc sc.iso s2).2.emit (Event.unlock sc.iso)) := by
  simp only [ObjectGetIdx, hL, hobj, hget]

theorem FunctionCall_failure_eq (ve : ValueEngine) (ptr : Ptr) (args : List Ptr)
    (s : State) (sc : ValueScope) (s1 : State) (fn : LocalValue) (tc : TryCatch)
    (s2 : State)
    (hL : LOCAL_VALUE ptr s = some (sc, s1))
    (hfn : sc.value = some fn)
    (hcall : ve.Function_Call sc.local_ctx fn ve.Undefined
      (args.map (fun arg => (s1.values arg).ptr)) s1 = ((none, tc), s2)) :
    FunctionCall ve ptr args s =
      some ({ value := 0, error := (ExceptionError tc sc.iso s2).1 },
            (ExceptionError tc sc.iso s2).2.emit (Event.unlock sc.iso)) := by
  simp only [FunctionCall, hL, hfn, hcall]

theorem JSONStringify_failure_eq (ve : ValueEngine) (ctx_ptr val_ptr : Ptr) (s : State)
    (iso : Ptr) (lc : LocalContext) (value : LocalValue)
    (hiso : (if ctx_ptr ≠ 0 then (s.ctxs ctx_ptr).iso else (s.values val_ptr).iso) = iso)
    (hlc : (if ctx_ptr ≠ 0 then (s.ctxs ctx_ptr).ptr
            else if (s.values val_ptr).ctx ≠ 0 then (s.ctxs (s.values val_ptr).ctx).ptr
            else (s.ctxs (s.isoData iso 0)).ptr) = some lc)
    (hv : (s.values val_ptr).ptr = some value)
    (hfail : (ve.JSON_Stringify lc value (s.emit (Event.lock iso))).1 = none) :
    JSONStringify ve ctx_ptr val_ptr s =
      some (none, (ve.JSON_Stringify lc value (s.emit (Event.lock iso))).2.emit
        (Event.unlock iso)) := by
  rw [JSONStringify_eq ve ctx_ptr val_ptr s iso lc value hiso hlc hv]
  unfold JSONStringify_in
  cases h : ve.JSON_Stringify lc value (s.emit (Event.lock iso)) with
  | mk r t =>
    rw [h] at hfail
    simp only at hfail
    subst hfail
    rfl

/-! ### How failures are reported -/

/-- C16, as stated, fails: the engine cannot stringify the value `99` behind the
handle at address `6`, and `JSONStringify` returns a null pointer, which is all
its return type `const char*` can carry. -/
theorem JSONStringify_failure_is_bare_null :
    (demoValues.JSON_Stringify 2 99 (demoUnstringifiable.emit (Event.lock 1))).1 = none ∧
    (JSONStringify demoValues 3 6 demoUnstringifiable).map Prod.fst = some none := by
  constructor <;> rfl

/-- C16, amended: the operations that return an `RtnValue` (`RunScript`,
`JSONParse`, `ObjectGet`, `ObjectGetIdx`, `FunctionCall`) report an empty result
of their engine call as a null value together with the Error the translator
makes from the trap; `JSONStringify`, which returns a `const char*`, reports an
empty result of the stringification as a null pointer, with no Error record. -/
theorem failure_reporting (eng : Engine) (ve : ValueEngine) (s : State) :
    (∀ (ctx_ptr val_ptr iso : Ptr) (lc : LocalContext) (value : LocalValue),
      (if ctx_ptr ≠ 0 then (s.ctxs ctx_ptr).iso else (s.values val_ptr).iso) = iso →
      (if ctx_ptr ≠ 0 then (s.ctxs ctx_ptr).ptr
        else if (s.values val_ptr).ctx ≠ 0 then (s.ctxs (s.values val_ptr).ctx).ptr
        else (s.ctxs (s.isoData iso 0)).ptr) = some lc →
      (s.values val_ptr).ptr = some value →
      (ve.JSON_Stringify lc value (s.emit (Event.lock iso))).1 = none →
      (JSONStringify ve ctx_ptr val_ptr s).map Prod.fst = some none) ∧
    (∀ (ctx_ptr : Ptr) (source origin : String) (local_ctx : LocalContext)
        (src ogn : LocalValue) (tc : TryCatch),
      (s.ctxs ctx_ptr).ptr = some local_ctx →
      eng.String_NewFromUtf8 source = some src →
      eng.String_NewFromUtf8 origin = some ogn →
      eng.Script_Compile local_ctx src ogn = (none, tc) →
      (RunScript eng ctx_ptr source origin s).map Prod.fst =
        some { value := 0, error := (ExceptionError tc (s.ctxs ctx_ptr).iso s).1 }) ∧
    (∀ (ctx_ptr : Ptr) (source origin : String) (local_ctx : LocalContext)
        (src ogn : LocalValue) (script : Script) (tc1 tc2 : TryCatch) (s1 : State),
      (s.ctxs ctx_ptr).ptr = some local_ctx →
      eng.String_NewFromUtf8 source = some src →
      eng.String_NewFromUtf8 origin = some ogn →
      eng.Script_Compile local_ctx src ogn = (some script, tc1) →
      eng.Script_Run script local_ctx
        (((s.emit (Event.lock (s.ctxs ctx_ptr).iso)).emit (Event.compile local_ctx)).emit
          (Event.run script local_ctx)) = ((none, tc2), s1) →
      (RunScript eng ctx_ptr source origin s).map Prod.fst =
        some { value := 0, error := (ExceptionError tc2 (s.ctxs ctx_ptr).iso s1).1 }) ∧
    (∀ (ctx_ptr : Ptr) (str : String) (local_ctx : LocalContext) (json : LocalValue)
        (tc : TryCatch),
      (s.ctxs ctx_ptr).ptr = some local_ctx →
      eng.String_NewFromUtf8 str = some json →
      ve.JSON_Parse local_ctx json = (none, tc) →
      (JSONParse eng ve ctx_ptr str s).map Prod.fst =
        some { value := 0, error := (ExceptionError tc (s.ctxs ctx_ptr).iso s).1 }) ∧
    (∀ (ptr : Ptr) (key : String) (sc : ValueScope) (s1 : State) (key_val obj : LocalValue)
        (tc : TryCatch) (s2 : State),
      LOCAL_VALUE ptr s = some (sc, s1) →
      eng.String_NewFromUtf8 key = some key_val →
      sc.value = some obj →
      ve.Object_Get sc.local_ctx obj key_val s1 = ((none, tc), s2) →
      (ObjectGet eng ve ptr key s).map Prod.fst =
        some { value := 0, error := (ExceptionError tc sc.iso s2).1 }) ∧
    (∀ (ptr : Ptr) (idx : Nat) (sc : ValueScope) (s1 : State) (obj : LocalValue)
        (tc : TryCatch) (s2 : State),
      LOCAL_VALUE ptr s = some (sc, s1) →
      sc.value = some obj →
      ve.Object_GetIdx sc.local_ctx obj idx s1 = ((none, tc), s2) →
      (ObjectGetIdx ve ptr idx s).map Prod.fst =
        some { value := 0, error := (ExceptionError tc sc.iso s2).1 }) ∧
    (∀ (ptr : Ptr) (args : List Ptr) (sc : ValueScope) (s1 : State) (fn : LocalValue)
        (tc : TryCatch) (s2 : State),
      LOCAL_VALUE ptr s = some (sc, s1) →
      sc.value = some fn →
      ve.Function_Call sc.local_ctx fn ve.Undefined
        (args.map (fun arg => (s1.values arg).ptr)) s1 = ((none, tc), s2) →
      (FunctionCall ve ptr args s).map Prod.fst =
        some { value := 0, error := (ExceptionError tc sc.iso s2).1 }) := by
  refine ⟨?_, ?_, ?_, ?_, ?_, ?_, ?_⟩
  · intro ctx_ptr val_ptr iso lc value hiso hlc hv hfail
    rw [JSONStringify_failure_eq ve ctx_ptr val_ptr s iso lc value hiso hlc hv hfail]
    rfl
  · intro ctx_ptr source origin local_ctx src ogn tc hctx hsrc hogn hcompile
    rw [RunScript_compile_failure_eq eng ctx_ptr source origin s local_ctx src ogn tc hctx hsrc
      hogn hcompile]
    rfl
  · intro ctx_ptr source origin local_ctx src ogn script tc1 tc2 s1 hctx hsrc hogn hcompile hrun
    rw [RunScript_run_failure_eq eng ctx_ptr source origin s local_ctx src ogn script tc1 tc2 s1
      hctx hsrc hogn hcompile hrun]
    rfl
  · intro ctx_ptr str local_ctx json tc hctx hstr hparse
    rw [JSONParse_failure_eq eng ve ctx_ptr str s local_ctx json tc hctx hstr hparse]
    rfl
  · intro ptr key sc s1 key_val obj tc s2 hL hkey hobj hget
    rw [ObjectGet_failure_eq eng ve ptr key s sc s1 key_val obj tc s2 hL hkey hobj hget]
    rfl
  · intro ptr idx sc s1 obj tc s2 hL hobj hget
    rw [ObjectGetIdx_failure_eq ve ptr idx s sc s1 obj tc s2 hL hobj hget]
    rfl
  · intro ptr args sc s1 fn tc s2 hL hfn hcall
    rw [FunctionCall_failure_eq ve ptr args s sc s1 fn tc s2 hL hfn hcall]
    rfl

theorem failure_reporting_witness :
    (JSONStringify demoValues 3 6 demoUnstringifiable).map Prod.fst = some none ∧
    (RunScript demoEngine 3 "1+" "main.js" demoWorld).map Prod.fst =
      some { value := 0, error := (ExceptionError trapSyntax 1 demoWorld).1 } ∧
    (RunScript demoEngine 3 "x" "main.js" demoWorld).map Prod.fst =
      some { value := 0,
             error := (ExceptionError trapColumn4 1
               (((demoWorld.emit (Event.lock 1)).emit (Event.compile 2)).emit
                 (Event.run 1 2))).1 } ∧
    (JSONParse demoEngine demoValues 3 "" demoWorld).map Prod.fst =
      some { value := 0, error := (ExceptionError trapSyntax 1 demoWorld).1 } ∧
    (ObjectGet demoEngine demoValues 4 "" demoWorld).map Prod.fst =
      some { value := 0, error := (ExceptionError trapColumn4 1 demoWorld).1 } ∧
    (ObjectGetIdx demoValues 4 0 demoWorld).map Prod.fst =
      some { value := 0, error := (ExceptionError trapColumn4 1 demoWorld).1 } ∧
    (FunctionCall demoValues 4 [] demoWorld).map Prod.fst =
      some { value := 0, error := (ExceptionError trapColumn4 1 demoWorld).1 } :=
  ⟨(failure_reporting demoEngine demoValues demoUnstringifiable).1 3 6 1 2 99 rfl rfl rfl rfl,
   (failure_reporting demoEngine demoValues demoWorld).2.1 3 "1+" "main.js" 2 2 7 trapSyntax
     rfl rfl rfl rfl,
   (failure_reporting demoEngine demoValues demoWorld).2.2.1 3 "x" "main.js" 2 1 7 1 trapClear
     trapColumn4 (((demoWorld.emit (Event.lock 1)).emit (Event.compile 2)).emit (Event.run 1 2))
     rfl rfl rfl rfl rfl,
   (failure_reporting demoEngine demoValues demoWorld).2.2.2.1 3 "" 2 0 trapSyntax rfl rfl rfl,
   (failure_reporting demoEngine demoValues demoWorld).2.2.2.2.1 4 ""
     { iso := 1, ctx := 3, local_ctx := 2, value := some 10 } (demoWorld.emit (Event.lock 1))
     0 10 trapColumn4 (demoWorld.emit (Event.lock 1)) rfl rfl rfl rfl,
   (failure_reporting demoEngine demoValues demoWorld).2.2.2.2.2.1 4 0
     { iso := 1, ctx := 3, local_ctx := 2, value := some 10 } (demoWorld.emit (Event.lock 1))
     10 trapColumn4 (demoWorld.emit (Event.lock 1)) rfl rfl rfl,
   (failure_reporting demoEngine demoValues demoWorld).2.2.2.2.2.2 4 []
     { iso := 1, ctx := 3, local_ctx := 2, value := some 10 } (demoWorld.emit (Event.lock 1))
     10 trapColumn4 (demoWorld.emit (Event.lock 1)) rfl rfl rfl⟩

/-! ### Disposing an isolate -/

theorem ContextFree_shape (c : Ptr) (s : State) (hc : c ≠ 0) :
    ContextFree c s =
      (((s.ctxs c).vals.foldl (fun s val_ptr => ValueFree val_ptr s)
        (State.emit { s with ctxs := update s.ctxs c { s.ctxs c with ptr := none } }
          (Event.resetContext c))).delete c).emit (Event.deleteContext c) := by
  simp [ContextFree, hc, State.emit, update]

theorem ContextFree_effect (c : Ptr) (s : State) (hc : c ≠ 0) :
    (ContextFree c s).trace =
      s.trace ++ [Event.resetContext c] ++
        ((s.ctxs c).vals.filter (fun h => h ≠ 0)).flatMap
          (fun h => [Event.resetValue h, Event.deleteValue h]) ++
        [Event.deleteContext c] ∧
    ((ContextFree c s).ctxs c).ptr = none ∧
    (ContextFree c s).live c = false ∧
    ∀ h ∈ (s.ctxs c).vals, h ≠ 0 →
      ((ContextFree c s).values h).ptr = none ∧ (ContextFree c s).live h = false := by
  rw [ContextFree_shape c s hc]
  refine ⟨?_, ?_, ?_, ?_⟩
  · simp only [State.emit, State.delete]
    rw [foldl_ValueFree_trace]
  · simp only [State.emit, State.delete]
    rw [foldl_ValueFree_ctxs]
    simp [update]
  · simp [State.emit, State.delete, update]
  · intro h hmem h0
    have key := foldl_ValueFree_cleared (s.ctxs c).vals h
      (State.emit { s with ctxs := update s.ctxs c { s.ctxs c with ptr := none } }
        (Event.resetContext c)) hmem h0
    refine ⟨key.1, ?_⟩
    by_cases e : h = c
    · simp [State.emit, State.delete, update, e]
    · simpa [State.emit, State.delete, update, e] using key.2

theorem ValueFree_frame (p h : Ptr) (s : State) (hne : h ≠ p) :
    (ValueFree p s).values h = s.values h ∧ (ValueFree p s).live h = s.live h := by
  unfold ValueFree
  split
  · exact ⟨rfl, rfl⟩
  · simp [State.emit, State.delete, update, hne]

theorem foldl_ValueFree_frame (l : List Ptr) (h : Ptr) (s : State) (hnot : h ∉ l) :
    (l.foldl (fun s val_ptr => ValueFree val_ptr s) s).values h = s.values h ∧
    (l.foldl (fun s val_ptr => ValueFree val_ptr s) s).live h = s.live h := by
  induction l generalizing s with
  | nil => exact ⟨rfl, rfl⟩
  | cons p rest ih =>
    rw [List.foldl_cons]
    have hp : h ≠ p := fun e => hnot (e ▸ List.mem_cons_self _ _)
    have hrest : h ∉ rest := fun m => hnot (List.mem_cons_of_mem _ m)
    obtain ⟨i1, i2⟩ := ih (ValueFree p s) hrest
    obtain ⟨f1, f2⟩ := ValueFree_frame p h s hp
    exact ⟨i1.trans f1, i2.trans f2⟩

theorem ContextFree_frame (p : Ptr) (s : State) :
    (∀ c, c ≠ p → (ContextFree p s).ctxs c = s.ctxs c) ∧
    (∀ h, h ∉ (s.ctxs p).vals → (ContextFree p s).values h = s.values h) ∧
    (∀ h, h ∉ (s.ctxs p).vals → h ≠ p → (ContextFree p s).live h = s.live h) := by
  by_cases hp : p = 0
  · subst hp
    simp [ContextFree]
  · rw [ContextFree_shape p s hp]
    refine ⟨?_, ?_, ?_⟩
    · intro c hc
      simp only [State.emit, State.delete]
      rw [foldl_ValueFree_ctxs]
      simp [update, hc]
    · intro h hnot
      exact (foldl_ValueFree_frame (s.ctxs p).vals h _ hnot).1
    · intro h hnot hne
      have := (foldl_ValueFree_frame (s.ctxs p).vals h
        (State.emit { s with ctxs := update s.ctxs p { s.ctxs p with ptr := none } }
          (Event.resetContext p)) hnot).2
      simpa [State.emit, State.delete, update, hne] using this

/-- C17: `IsolateDispose(nullptr)` does nothing.  For a non-null isolate,
`IsolateDispose` first runs `ContextFree` on the context in data slot 0 (which
`NewIsolate` set to its non-null context for internal use), resetting that
context and resetting and deleting every handle tracked in it, and only then
disposes the engine isolate. -/
theorem IsolateDispose_order (iso : Ptr) (s : State) :
    IsolateDispose 0 s = s ∧
    (iso ≠ 0 →
      IsolateDispose iso s = (ContextFree (s.isoData iso 0) s).emit (Event.dispose iso) ∧
      (s.isoData iso 0 ≠ 0 →
        (IsolateDispose iso s).trace =
          s.trace ++ [Event.resetContext (s.isoData iso 0)] ++
            ((s.ctxs (s.isoData iso 0)).vals.filter (fun h => h ≠ 0)).flatMap
              (fun h => [Event.resetValue h, Event.deleteValue h]) ++
            [Event.deleteContext (s.isoData iso 0), Event.dispose iso] ∧
        ((IsolateDispose iso s).ctxs (s.isoData iso 0)).ptr = none ∧
        (IsolateDispose iso s).live (s.isoData iso 0) = false ∧
        ∀ h ∈ (s.ctxs (s.isoData iso 0)).vals, h ≠ 0 →
          ((IsolateDispose iso s).values h).ptr = none ∧
          (IsolateDispose iso s).live h = false)) ∧
    (∀ (s0 : State),
      (NewIsolate s0).1 ≠ 0 ∧ (NewIsolate s0).2.isoData (NewIsolate s0).1 0 ≠ 0 ∧
      ((NewIsolate s0).2.ctxs ((NewIsolate s0).2.isoData (NewIsolate s0).1 0)).iso =
        (NewIsolate s0).1) := by
  refine ⟨by simp [IsolateDispose], ?_, ?_⟩
  · intro hiso
    have hshape : IsolateDispose iso s =
        (ContextFree (s.isoData iso 0) s).emit (Event.dispose iso) := by
      simp [IsolateDispose, hiso]
    refine ⟨hshape, ?_⟩
    intro hctx
    obtain ⟨e1, e2, e3, e4⟩ := ContextFree_effect (s.isoData iso 0) s hctx
    rw [hshape]
    refine ⟨?_, e2, e3, e4⟩
    simp only [State.emit]
    rw [e1]
    simp
  · intro s0
    obtain ⟨i, c, n, r, heq, hi0, hc0, -⟩ := NewIsolate_spec s0
    rw [heq]
    refine ⟨hi0, ?_, ?_⟩
    · simpa [update] using hc0
    · simp [update]

theorem IsolateDispose_order_witness :
    IsolateDispose 1 demoWorld = (ContextFree (demoWorld.isoData 1 0) demoWorld).emit
      (Event.dispose 1) ∧
    (IsolateDispose 1 demoWorld).trace =
      demoWorld.trace ++ [Event.resetContext (demoWorld.isoData 1 0)] ++
        ((demoWorld.ctxs (demoWorld.isoData 1 0)).vals.filter (fun h => h ≠ 0)).flatMap
          (fun h => [Event.resetValue h, Event.deleteValue h]) ++
        [Event.deleteContext (demoWorld.isoData 1 0), Event.dispose 1] ∧
    ((IsolateDispose 1 demoWorld).ctxs (demoWorld.isoData 1 0)).ptr = none ∧
    (IsolateDispose 1 demoWorld).live (demoWorld.isoData 1 0) = false ∧
    ∀ h ∈ (demoWorld.ctxs (demoWorld.isoData 1 0)).vals, h ≠ 0 →
      ((IsolateDispose 1 demoWorld).values h).ptr = none ∧
      (IsolateDispose 1 demoWorld).live h = false :=
  ⟨((IsolateDispose_order 1 demoWorld).2.1 (by decide)).1,
   ((IsolateDispose_order 1 demoWorld).2.1 (by decide)).2 (by decide)⟩

/-- C19: for a non-null isolate each of the eleven fields of the record
returned by `IsolationGetHeapStatistics` equals the engine statistic of the same
name; for a null isolate all eleven fields are zero whatever the engine would
report (it is not queried). -/
theorem IsolationGetHeapStatistics_fields (GetHeapStatistics : Ptr → HeapStatistics)
    (ptr : Ptr) :
    (ptr ≠ 0 →
      IsolationGetHeapStatistics GetHeapStatistics ptr =
        { total_heap_size := (GetHeapStatistics ptr).total_heap_size,
          total_heap_size_executable := (GetHeapStatistics ptr).total_heap_size_executable,
          total_physical_size := (GetHeapStatistics ptr).total_physical_size,
          total_available_size := (GetHeapStatistics ptr).total_available_size,
          used_heap_size := (GetHeapStatistics ptr).used_heap_size,
          heap_size_limit := (GetHeapStatistics ptr).heap_size_limit,
          malloced_memory := (GetHeapStatistics ptr).malloced_memory,
          external_memory := (GetHeapStatistics ptr).external_memory,
          peak_malloced_memory := (GetHeapStatistics ptr).peak_malloced_memory,
          number_of_native_contexts := (GetHeapStatistics ptr).number_of_native_contexts,
          number_of_detached_contexts := (GetHeapStatistics ptr).number_of_detached_contexts }) ∧
    IsolationGetHeapStatistics GetHeapStatistics 0 =
      { total_heap_size := 0, total_heap_size_executable := 0, total_physical_size := 0,
        total_available_size := 0, used_heap_size := 0, heap_size_limit := 0,
        malloced_memory := 0, external_memory := 0, peak_malloced_memory := 0,
        number_of_native_contexts := 0, number_of_detached_contexts := 0 } ∧
    (∀ (other : Ptr → HeapStatistics),
      IsolationGetHeapStatistics other 0 = IsolationGetHeapStatistics GetHeapStatistics 0) := by
  refine ⟨?_, ?_, ?_⟩
  · intro h
    simp [IsolationGetHeapStatistics, h]
  · simp [IsolationGetHeapStatistics]
  · intro other
    simp [IsolationGetHeapStatistics]

theorem IsolationGetHeapStatistics_fields_witness :
    IsolationGetHeapStatistics demoHeap 1 =
      { total_heap_size := 11, total_heap_size_executable := 10, total_physical_size := 9,
        total_available_size := 8, used_heap_size := 7, heap_size_limit := 6,
        malloced_memory := 5, external_memory := 4, peak_malloced_memory := 3,
        number_of_native_contexts := 2, number_of_detached_contexts := 1 } :=
  (IsolationGetHeapStatistics_fields demoHeap 1).1 (by decide)

/-! ### Lock nesting -/

theorem lockDepth_append (iso : Ptr) (a b : List Event) (d : Int) :
    lockDepth iso (a ++ b) d = lockDepth iso b (lockDepth iso a d) := by
  induction a generalizing d with
  | nil => rfl
  | cons e rest ih =>
    simp only [List.cons_append, lockDepth]
    exact ih _

theorem lockDepth_lock (iso : Ptr) (t : List Event) (d : Int) :
    lockDepth iso (t ++ [Event.lock iso]) d = lockDepth iso t d + 1 := by
  rw [lockDepth_append]
  simp [lockDepth, lockDelta]

theorem lockDepth_unlock_twice (iso : Ptr) (t : List Event) (d : Int) :
    lockDepth iso (t ++ [Event.unlock iso, Event.unlock iso]) d = lockDepth iso t d - 2 := by
  rw [lockDepth_append]
  simp only [lockDepth, lockDelta, if_true]
  omega

theorem failure_tail_trace (tc : TryCatch) (iso : Ptr) (s : State) :
    ((ExceptionError tc iso s).2.emit (Event.unlock iso)).trace =
      (tc.conversions (s.emit (Event.lock iso))).trace ++
        [Event.unlock iso, Event.unlock iso] := by
  rw [ExceptionError_state]
  simp [State.emit]

/-- C20, as stated, fails: on the compile-failure path of `RunScript` the
exception translator takes the lock of isolate `1` while `RunScript` holds it,
and when a script calls a host function the trampoline takes it inside the
engine call that `RunScript` made under its lock: in both runs the nesting depth
of the lock reaches two. -/
theorem lock_nesting_reaches_two :
    (RunScript demoEngine 1 "1+" "main.js" demoState).map
        (fun r => r.2.trace.drop demoState.trace.length) =
      some [Event.lock 1, Event.compile 1, Event.lock 1, Event.unlock 1, Event.unlock 1] ∧
    (RunScript demoEngine 1 "1+" "main.js" demoState).map
        (fun r => maxLockDepth 1 (r.2.trace.drop demoState.trace.length) 0) = some 2 ∧
    (RunScript demoCallbackEngine 1 "f(10); throw 1" "main.js" demoState).map
        (fun r => r.2.trace.drop demoState.trace.length) =
      some [Event.lock 1, Event.compile 1, Event.run 14 1,
            Event.lock 1, Event.goContext 7, Event.goFunctionCallback 7 5 [2] 1, Event.unlock 1,
            Event.lock 1, Event.unlock 1, Event.unlock 1] ∧
    (RunScript demoCallbackEngine 1 "f(10); throw 1" "main.js" demoState).map
        (fun r => maxLockDepth 1 (r.2.trace.drop demoState.trace.length) 0) = some 2 := by
  refine ⟨?_, ?_, ?_, ?_⟩ <;> rfl

/-- C20, amended: the bridge does take the lock of an isolate while the same
call chain already holds it, so the nesting depth exceeds one; two is not a
bound.  On the failure paths of `RunScript`, `JSONParse`, `ObjectGet`,
`ObjectGetIdx` and `FunctionCall` the operation takes the lock on entry and
makes its engine call one level deeper than it was entered; once that call has
returned empty the exception translator takes the lock again, under the lock of
the operation, and makes its conversions of the exception and of the stack trace
(which can run script, and with it the trampoline) one level deeper than the
engine call left; the release by the translator and the release by the
operation are the last two events.  The trampoline takes the lock on entry,
runs the host callback one level deeper than it was entered, and its release is
the last event. -/
theorem lock_nesting (eng : Engine) (ve : ValueEngine) (host : Host) (s : State) (d : Int) :
    (∀ (ctx_ptr : Ptr) (source origin : String) (local_ctx : LocalContext)
        (src ogn : LocalValue) (tc : TryCatch),
      (s.ctxs ctx_ptr).ptr = some local_ctx →
      eng.String_NewFromUtf8 source = some src →
      eng.String_NewFromUtf8 origin = some ogn →
      eng.Script_Compile local_ctx src ogn = (none, tc) →
      (RunScript eng ctx_ptr source origin s).map (fun r => r.2.trace) =
        some ((tc.conversions
            (((s.emit (Event.lock (s.ctxs ctx_ptr).iso)).emit (Event.compile local_ctx)).emit
              (Event.lock (s.ctxs ctx_ptr).iso))).trace ++
          [Event.unlock (s.ctxs ctx_ptr).iso, Event.unlock (s.ctxs ctx_ptr).iso]) ∧
      lockDepth (s.ctxs ctx_ptr).iso
          (((s.emit (Event.lock (s.ctxs ctx_ptr).iso)).emit (Event.compile local_ctx)).emit
            (Event.lock (s.ctxs ctx_ptr).iso)).trace d =
        lockDepth (s.ctxs ctx_ptr).iso s.trace d + 2) ∧
    (∀ (ctx_ptr : Ptr) (source origin : String) (local_ctx : LocalContext)
        (src ogn : LocalValue) (script : Script) (tc1 tc2 : TryCatch) (s1 : State),
      (s.ctxs ctx_ptr).ptr = some local_ctx →
      eng.String_NewFromUtf8 source = some src →
      eng.String_NewFromUtf8 origin = some ogn →
      eng.Script_Compile local_ctx src ogn = (some script, tc1) →
      eng.Script_Run script local_ctx
        (((s.emit (Event.lock (s.ctxs ctx_ptr).iso)).emit (Event.compile local_ctx)).emit
          (Event.run script local_ctx)) = ((none, tc2), s1) →
      lockDepth (s.ctxs ctx_ptr).iso
          (((s.emit (Event.lock (s.ctxs ctx_ptr).iso)).emit (Event.compile local_ctx)).emit
            (Event.run script local_ctx)).trace d =
        lockDepth (s.ctxs ctx_ptr).iso s.trace d + 1 ∧
      (RunScript eng ctx_ptr source origin s).map (fun r => r.2.trace) =
        some ((tc2.conversions (s1.emit (Event.lock (s.ctxs ctx_ptr).iso))).trace ++
          [Event.unlock (s.ctxs ctx_ptr).iso, Event.unlock (s.ctxs ctx_ptr).iso]) ∧
      lockDepth (s.ctxs ctx_ptr).iso (s1.emit (Event.lock (s.ctxs ctx_ptr).iso)).trace d =
        lockDepth (s.ctxs ctx_ptr).iso s1.trace d + 1) ∧
    (∀ (ctx_ptr : Ptr) (str : String) (local_ctx : LocalContext) (json : LocalValue)
        (tc : TryCatch),
      (s.ctxs ctx_ptr).ptr = some local_ctx →
      eng.String_NewFromUtf8 str = some json →
      ve.JSON_Parse local_ctx json = (none, tc) →
      (JSONParse eng ve ctx_ptr str s).map (fun r => r.2.trace) =
        some ((tc.conversions
            ((s.emit (Event.lock (s.ctxs ctx_ptr).iso)).emit
              (Event.lock (s.ctxs ctx_ptr).iso))).trace ++
          [Event.unlock (s.ctxs ctx_ptr).iso, Event.unlock (s.ctxs ctx_ptr).iso]) ∧
      lockDepth (s.ctxs ctx_ptr).iso
          ((s.emit (Event.lock (s.ctxs ctx_ptr).iso)).emit
            (Event.lock (s.ctxs ctx_ptr).iso)).trace d =
        lockDepth (s.ctxs ctx_ptr).iso s.trace d + 2) ∧
    (∀ (ptr : Ptr) (key : String) (sc : ValueScope) (s1 : State) (key_val obj : LocalValue)
        (tc : TryCatch) (s2 : State),
      LOCAL_VALUE ptr s = some (sc, s1) →
      eng.String_NewFromUtf8 key = some key_val →
      sc.value = some obj →
      ve.Object_Get sc.local_ctx obj key_val s1 = ((none, tc), s2) →
      lockDepth sc.iso s1.trace d = lockDepth sc.iso s.trace d + 1 ∧
      (ObjectGet eng ve ptr key s).map (fun r => r.2.trace) =
        some ((tc.conversions (s2.emit (Event.lock sc.iso))).trace ++
          [Event.unlock sc.iso, Event.unlock sc.iso]) ∧
      lockDepth sc.iso (s2.emit (Event.lock sc.iso)).trace d =
        lockDepth sc.iso s2.trace d + 1) ∧
    (∀ (ptr : Ptr) (idx : Nat) (sc : ValueScope) (s1 : State) (obj : LocalValue)
        (tc : TryCatch) (s2 : State),
      LOCAL_VALUE ptr s = some (sc, s1) →
      sc.value = some obj →
      ve.Object_GetIdx sc.local_ctx obj idx s1 = ((none, tc), s2) →
      lockDepth sc.iso s1.trace d = lockDepth sc.iso s.trace d + 1 ∧
      (ObjectGetIdx ve ptr idx s).map (fun r => r.2.trace) =
        some ((tc.conversions (s2.emit (Event.lock sc.iso))).trace ++
          [Event.unlock sc.iso, Event.unlock sc.iso]) ∧
      lockDepth sc.iso (s2.emit (Event.lock sc.iso)).trace d =
        lockDepth sc.iso s2.trace d + 1) ∧
    (∀ (ptr : Ptr) (args : List Ptr) (sc : ValueScope) (s1 : State) (fn : LocalValue)
        (tc : TryCatch) (s2 : State),
      LOCAL_VALUE ptr s = some (sc, s1) →
      sc.value = some fn →
      ve.Function_Call sc.local_ctx fn ve.Undefined
        (args.map (fun arg => (s1.values arg).ptr)) s1 = ((none, tc), s2) →
      lockDepth sc.iso s1.trace d = lockDepth sc.iso s.trace d + 1 ∧
      (FunctionCall ve ptr args s).map (fun r => r.2.trace) =
        some ((tc.conversions (s2.emit (Event.lock sc.iso))).trace ++
          [Event.unlock sc.iso, Event.unlock sc.iso]) ∧
      lockDepth sc.iso (s2.emit (Event.lock sc.iso)).trace d =
        lockDepth sc.iso s2.trace d + 1) ∧
    (∀ (info : FunctionCallbackInfo) (r : Int),
      s.embedder info.currentContext 1 = some r →
      lockDepth info.isolate (callback_entry host info r s).2.trace d =
        lockDepth info.isolate s.trace d + 1 ∧
      (FunctionTemplateCallback host info s).map (fun x => x.2.trace) =
        some ((host.goFunctionCallback (toInt r) (toInt info.data)
          (callback_entry host info r s).1 info.args.length
          (callback_entry host info r s).2).2.trace ++ [Event.unlock info.isolate])) ∧
    (∀ (iso : Ptr) (t : List Event),
      lockDepth iso (t ++ [Event.unlock iso, Event.unlock iso]) d = lockDepth iso t d - 2) := by
  refine ⟨?_, ?_, ?_, ?_, ?_, ?_, ?_, ?_⟩
  · intro ctx_ptr source origin local_ctx src ogn tc hctx hsrc hogn hcompile
    rw [RunScript_compile_failure_eq eng ctx_ptr source origin s local_ctx src ogn tc hctx hsrc
      hogn hcompile]
    refine ⟨?_, ?_⟩
    · simp only [Option.map_some']
      rw [failure_tail_trace]
    · simp only [State.emit, lockDepth_append, lockDepth, lockDelta, if_true]
      omega
  · intro ctx_ptr source origin local_ctx src ogn script tc1 tc2 s1 hctx hsrc hogn hcompile hrun
    rw [RunScript_run_failure_eq eng ctx_ptr source origin s local_ctx src ogn script tc1 tc2 s1
      hctx hsrc hogn hcompile hrun]
    refine ⟨?_, ?_, ?_⟩
    · simp only [State.emit, lockDepth_append, lockDepth, lockDelta, if_true]
      omega
    · simp only [Option.map_some']
      rw [failure_tail_trace]
    · exact lockDepth_lock _ _ _
  · intro ctx_ptr str local_ctx json tc hctx hstr hparse
    rw [JSONParse_failure_eq eng ve ctx_ptr str s local_ctx json tc hctx hstr hparse]
    refine ⟨?_, ?_⟩
    · simp only [Option.map_some']
      rw [failure_tail_trace]
    · simp only [State.emit, lockDepth_append, lockDepth, lockDelta, if_true]
      omega
  · intro ptr key sc s1 key_val obj tc s2 hL hkey hobj hget
    rw [ObjectGet_failure_eq eng ve ptr key s sc s1 key_val obj tc s2 hL hkey hobj hget]
    refine ⟨?_, ?_, lockDepth_lock _ _ _⟩
    · rw [(LOCAL_VALUE_some ptr s sc s1 hL).1]
      exact lockDepth_lock _ _ _
    · simp only [Option.map_some']
      rw [failure_tail_trace]
  · intro ptr idx sc s1 obj tc s2 hL hobj hget
    rw [ObjectGetIdx_failure_eq ve ptr idx s sc s1 obj tc s2 hL hobj hget]
    refine ⟨?_, ?_, lockDepth_lock _ _ _⟩
    · rw [(LOCAL_VALUE_some ptr s sc s1 hL).1]
      exact lockDepth_lock _ _ _
    · simp only [Option.map_some']
      rw [failure_tail_trace]
  · intro ptr args sc s1 fn tc s2 hL hfn hcall
    rw [FunctionCall_failure_eq ve ptr args s sc s1 fn tc s2 hL hfn hcall]
    refine ⟨?_, ?_, lockDepth_lock _ _ _⟩
    · rw [(LOCAL_VALUE_some ptr s sc s1 hL).1]
      exact lockDepth_lock _ _ _
    · simp only [Option.map_some']
      rw [failure_tail_trace]
  · intro info r hr
    refine ⟨?_, ?_⟩
    · have hentry := (wrap_args_spec info.isolate (host.goContext (toInt r)) info.args
        ((s.emit (Event.lock info.isolate)).emit (Event.goContext (toInt r)))).2.1
      simp only [callback_entry, State.emit] at hentry ⊢
      rw [hentry]
      simp only [lockDepth_append, lockDepth, lockDelta, if_true]
      omega
    · rw [FunctionTemplateCallback_eq host info s r hr]
      rfl
  · intro iso t
    exact lockDepth_unlock_twice iso t d

theorem lock_nesting_witness :
    ((RunScript demoEngine 3 "1+" "main.js" demoWorld).map (fun r => r.2.trace) =
        some ((trapSyntax.conversions
            (((demoWorld.emit (Event.lock 1)).emit (Event.compile 2)).emit
              (Event.lock 1))).trace ++ [Event.unlock 1, Event.unlock 1]) ∧
      lockDepth 1 (((demoWorld.emit (Event.lock 1)).emit (Event.compile 2)).emit
            (Event.lock 1)).trace 0 = lockDepth 1 demoWorld.trace 0 + 2) ∧
    (lockDepth 1 (((demoState.emit (Event.lock 1)).emit (Event.compile 1)).emit
            (Event.run 1 1)).trace 0 = lockDepth 1 demoState.trace 0 + 1 ∧
      (RunScript demoToStringEngine 1 "x" "main.js" demoState).map (fun r => r.2.trace) =
        some ((trapToString.conversions
            ((((demoState.emit (Event.lock 1)).emit (Event.compile 1)).emit
              (Event.run 1 1)).emit (Event.lock 1))).trace ++
          [Event.unlock 1, Event.unlock 1]) ∧
      lockDepth 1 ((((demoState.emit (Event.lock 1)).emit (Event.compile 1)).emit
            (Event.run 1 1)).emit (Event.lock 1)).trace 0 =
        lockDepth 1 (((demoState.emit (Event.lock 1)).emit (Event.compile 1)).emit
            (Event.run 1 1)).trace 0 + 1) ∧
    ((JSONParse demoEngine demoValues 3 "" demoWorld).map (fun r => r.2.trace) =
        some ((trapSyntax.conversions
            ((demoWorld.emit (Event.lock 1)).emit (Event.lock 1))).trace ++
          [Event.unlock 1, Event.unlock 1]) ∧
      lockDepth 1 ((demoWorld.emit (Event.lock 1)).emit (Event.lock 1)).trace 0 =
        lockDepth 1 demoWorld.trace 0 + 2) ∧
    (lockDepth 1 (demoWorld.emit (Event.lock 1)).trace 0 = lockDepth 1 demoWorld.trace 0 + 1 ∧
      (ObjectGet demoEngine demoValues 4 "" demoWorld).map (fun r => r.2.trace) =
        some ((trapColumn4.conversions
            ((demoWorld.emit (Event.lock 1)).emit (Event.lock 1))).trace ++
          [Event.unlock 1, Event.unlock 1]) ∧
      lockDepth 1 ((demoWorld.emit (Event.lock 1)).emit (Event.lock 1)).trace 0 =
        lockDepth 1 (demoWorld.emit (Event.lock 1)).trace 0 + 1) ∧
    (lockDepth 1 (demoWorld.emit (Event.lock 1)).trace 0 = lockDepth 1 demoWorld.trace 0 + 1 ∧
      (ObjectGetIdx demoValues 4 0 demoWorld).map (fun r => r.2.trace) =
        some ((trapColumn4.conversions
            ((demoWorld.emit (Event.lock 1)).emit (Event.lock 1))).trace ++
          [Event.unlock 1, Event.unlock 1]) ∧
      lockDepth 1 ((demoWorld.emit (Event.lock 1)).emit (Event.lock 1)).trace 0 =
        lockDepth 1 (demoWorld.emit (Event.lock 1)).trace 0 + 1) ∧
    (lockDepth 1 (demoWorld.emit (Event.lock 1)).trace 0 = lockDepth 1 demoWorld.trace 0 + 1 ∧
      (FunctionCall demoValues 4 [] demoWorld).map (fun r => r.2.trace) =
        some ((trapColumn4.conversions
            ((demoWorld.emit (Event.lock 1)).emit (Event.lock 1))).trace ++
          [Event.unlock 1, Event.unlock 1]) ∧
      lockDepth 1 ((demoWorld.emit (Event.lock 1)).emit (Event.lock 1)).trace 0 =
        lockDepth 1 (demoWorld.emit (Event.lock 1)).trace 0 + 1) ∧
    (lockDepth 1 (callback_entry demoHost
          { isolate := 1, currentContext := 1, data := 5, args := [10] } 7 demoState).2.trace 0 =
        lockDepth 1 demoState.trace 0 + 1 ∧
      (FunctionTemplateCallback demoHost
          { isolate := 1, currentContext := 1, data := 5, args := [10] } demoState).map
          (fun x => x.2.trace) =
        some ((demoHost.goFunctionCallback (toInt 7) (toInt 5)
          (callback_entry demoHost
            { isolate := 1, currentContext := 1, data := 5, args := [10] } 7 demoState).1
          [10].length
          (callback_entry demoHost
            { isolate := 1, currentContext := 1, data := 5, args := [10] } 7 demoState).2).2.trace
          ++ [Event.unlock 1])) :=
  ⟨(lock_nesting demoEngine demoValues demoHost demoWorld 0).1 3 "1+" "main.js" 2 2 7 trapSyntax
     rfl rfl rfl rfl,
   (lock_nesting demoToStringEngine demoValues demoHost demoState 0).2.1 1 "x" "main.js" 1 1 7 1
     trapClear trapToString
     (((demoState.emit (Event.lock 1)).emit (Event.compile 1)).emit (Event.run 1 1))
     rfl rfl rfl rfl rfl,
   (lock_nesting demoEngine demoValues demoHost demoWorld 0).2.2.1 3 "" 2 0 trapSyntax
     rfl rfl rfl,
   (lock_nesting demoEngine demoValues demoHost demoWorld 0).2.2.2.1 4 ""
     { iso := 1, ctx := 3, local_ctx := 2, value := some 10 } (demoWorld.emit (Event.lock 1))
     0 10 trapColumn4 (demoWorld.emit (Event.lock 1)) rfl rfl rfl rfl,
   (lock_nesting demoEngine demoValues demoHost demoWorld 0).2.2.2.2.1 4 0
     { iso := 1, ctx := 3, local_ctx := 2, value := some 10 } (demoWorld.emit (Event.lock 1))
     10 trapColumn4 (demoWorld.emit (Event.lock 1)) rfl rfl rfl,
   (lock_nesting demoEngine demoValues demoHost demoWorld 0).2.2.2.2.2.1 4 []
     { iso := 1, ctx := 3, local_ctx := 2, value := some 10 } (demoWorld.emit (Event.lock 1))
     10 trapColumn4 (demoWorld.emit (Event.lock 1)) rfl rfl rfl,
   (lock_nesting demoEngine demoValues demoHost demoState 0).2.2.2.2.2.2.1
     { isolate := 1, currentContext := 1, data := 5, args := [10] } 7 rfl⟩

theorem lock_nesting_reaches_three :
    (RunScript demoToStringEngine 1 "x" "main.js" demoState).map
        (fun r => r.2.trace.drop demoState.trace.length) =
      some [Event.lock 1, Event.compile 1, Event.run 1 1, Event.lock 1,
            Event.lock 1, Event.goContext 7, Event.goFunctionCallback 7 5 [2] 1, Event.unlock 1,
            Event.unlock 1, Event.unlock 1] ∧
    (RunScript demoToStringEngine 1 "x" "main.js" demoState).map
        (fun r => maxLockDepth 1 (r.2.trace.drop demoState.trace.length) 0) = some 3 := by
  constructor <;> rfl

/-! ### The shape of the registry is kept -/

theorem WellTracked_of_same (s s' : State)
    (hctxs : s'.ctxs = s.ctxs)
    (hctx : ∀ h, (s'.values h).ctx = (s.values h).ctx)
    (hnext : s.next ≤ s'.next)
    (hlive : ∀ p, s.live p = true → s'.live p = true)
    (h : WellTracked s) : WellTracked s' := by
  obtain ⟨h1, h2, h3⟩ := h
  have hop : ∀ c, s'.opened c ↔ s.opened c := by
    intro c
    unfold State.opened
    rw [hctxs]
  refine ⟨?_, ?_, ?_⟩
  · intro c x hc hx
    rw [hctxs] at hx
    obtain ⟨a, b, d, l, o⟩ := h1 c x ((hop c).mp hc) hx
    exact ⟨(hctx x).trans a, b, le_trans d hnext, hlive x l, fun ho => o ((hop x).mp ho)⟩
  · intro c hc
    rw [hctxs]
    exact h2 c ((hop c).mp hc)
  · intro c hc
    obtain ⟨a, b, l⟩ := h3 c ((hop c).mp hc)
    exact ⟨a, le_trans b hnext, hlive c l⟩

theorem WellTracked_emit (s : State) (e : Event) (h : WellTracked s) :
    WellTracked (s.emit e) :=
  WellTracked_of_same s _ rfl (fun _ => rfl) (le_refl _) (fun _ l => l) h

theorem WellTracked_plan (s : State) (ps : List Ptr) (h : WellTracked s) :
    WellTracked (s.plan ps) :=
  WellTracked_of_same s _ rfl (fun _ => rfl) (le_refl _) (fun _ l => l) h

theorem WellTracked_empty : WellTracked State.empty := by
  have hno : ∀ c, ¬ State.empty.opened c := fun c hc => hc rfl
  exact ⟨fun c _ hc => absurd hc (hno c), fun c hc => absurd hc (hno c),
    fun c hc => absurd hc (hno c)⟩

theorem fresh_unused (s : State) (p : Ptr) (hw : WellTracked s)
    (hf : (p ≤ s.next ∧ s.live p = false) ∨ s.next < p) :
    ¬ s.opened p ∧ ∀ c, s.opened c → p ∉ (s.ctxs c).vals := by
  obtain ⟨h1, _, h3⟩ := hw
  have key : ¬ (p ≤ s.next ∧ s.live p = true) := by
    rintro ⟨hle, hl⟩
    rcases hf with ⟨_, hl'⟩ | hlt
    · rw [hl] at hl'
      exact Bool.noConfusion hl'
    · exact absurd hle (Nat.not_le.mpr hlt)
  refine ⟨?_, ?_⟩
  · intro ho
    obtain ⟨_, b, l⟩ := h3 p ho
    exact key ⟨b, l⟩
  · intro c hc hm
    obtain ⟨_, _, d, l, _⟩ := h1 c p hc hm
    exact key ⟨d, l⟩

theorem WellTracked_of_frame (s s' : State) (p : Ptr)
    (hctxs : s'.ctxs = s.ctxs)
    (hctx : ∀ h, (s'.values h).ctx = (s.values h).ctx)
    (hnext : s.next ≤ s'.next)
    (hlive : ∀ q, q ≠ p → s.live q = true → s'.live q = true)
    (hno : ¬ s.opened p) (hnl : ∀ c, s.opened c → p ∉ (s.ctxs c).vals)
    (h : WellTracked s) : WellTracked s' := by
  obtain ⟨h1, h2, h3⟩ := h
  have hop : ∀ c, s'.opened c ↔ s.opened c := by
    intro c
    unfold State.opened
    rw [hctxs]
  refine ⟨?_, ?_, ?_⟩
  · intro c x hc hx
    rw [hctxs] at hx
    have hc' := (hop c).mp hc
    obtain ⟨a, b, d, l, o⟩ := h1 c x hc' hx
    have hxp : x ≠ p := fun e => hnl c hc' (e ▸ hx)
    exact ⟨(hctx x).trans a, b, le_trans d hnext, hlive x hxp l, fun ho => o ((hop x).mp ho)⟩
  · intro c hc
    rw [hctxs]
    exact h2 c ((hop c).mp hc)
  · intro c hc
    have hc' := (hop c).mp hc
    obtain ⟨a, b, l⟩ := h3 c hc'
    have hcp : c ≠ p := fun e => hno (e ▸ hc')
    exact ⟨a, le_trans b hnext, hlive c hcp l⟩

theorem WellTracked_new_value (s : State) (p : Ptr) (n : Nat) (r : List Ptr) (record : m_value)
    (hw : WellTracked s) (hsn : s.next ≤ n)
    (hf : (p ≤ s.next ∧ s.live p = false) ∨ s.next < p) :
    WellTracked { s with recycle := r, next := n, live := update s.live p true,
                         values := update s.values p record } := by
  obtain ⟨hno, hnl⟩ := fresh_unused s p hw hf
  obtain ⟨h1, h2, h3⟩ := hw
  refine ⟨?_, ?_, ?_⟩
  · intro c x hc hx
    have hc' : s.opened c := hc
    have hx' : x ∈ (s.ctxs c).vals := hx
    obtain ⟨a, b, d, l, o⟩ := h1 c x hc' hx'
    have hxp : x ≠ p := fun e => hnl c hc' (e ▸ hx')
    refine ⟨?_, b, le_trans d hsn, ?_, o⟩
    · simpa [update, hxp] using a
    · simp [update, hxp, l]
  · intro c hc
    exact h2 c hc
  · intro c hc
    have hc' : s.opened c := hc
    obtain ⟨a, b, l⟩ := h3 c hc'
    have hcp : c ≠ p := fun e => hno (e ▸ hc')
    refine ⟨a, le_trans b hsn, ?_⟩
    simp [update, hcp, l]

theorem WellTracked_new_m_value (iso c : Ptr) (v : Option LocalValue) (s : State)
    (h : WellTracked s) : WellTracked (new_m_value iso c v s).2 := by
  obtain ⟨p, n, r, hnew, -, -, hsn, hf⟩ := new_m_value_spec iso c v s
  rw [hnew]
  exact WellTracked_new_value s p n r _ h hsn hf

theorem WellTracked_track (s : State) (c p : Ptr) (hw : WellTracked s)
    (hp0 : p ≠ 0) (hpn : p ≤ s.next) (hlive : s.live p = true)
    (hno : ¬ s.opened p) (hnl : ∀ c', s.opened c' → p ∉ (s.ctxs c').vals)
    (hctx : (s.values p).ctx = c) : WellTracked (tracked_value c p s).2 := by
  obtain ⟨h1, h2, h3⟩ := hw
  have hop : ∀ c', (tracked_value c p s).2.opened c' ↔ s.opened c' := by
    intro c'
    unfold State.opened
    by_cases e : c' = c
    · subst e
      simp [tracked_value, update]
    · simp [tracked_value, update, e]
  have hvals : ∀ c', ((tracked_value c p s).2.ctxs c').vals =
      if c' = c then (s.ctxs c).vals ++ [p] else (s.ctxs c').vals := by
    intro c'
    by_cases e : c' = c
    · subst e
      simp [tracked_value, update]
    · simp [tracked_value, update, e]
  refine ⟨?_, ?_, ?_⟩
  · intro c' x hc hx
    have hc' := (hop c').mp hc
    rw [hvals c'] at hx
    have hold : x ∈ (s.ctxs c').vals →
        ((tracked_value c p s).2.values x).ctx = c' ∧ x ≠ 0 ∧
        x ≤ (tracked_value c p s).2.next ∧ (tracked_value c p s).2.live x = true ∧
        ¬ (tracked_value c p s).2.opened x := by
      intro hm
      obtain ⟨a, b, d, l, o⟩ := h1 c' x hc' hm
      exact ⟨a, b, d, l, fun ho => o ((hop x).mp ho)⟩
    by_cases e : c' = c
    · rw [if_pos e] at hx
      rcases List.mem_append.mp hx with hm | hm
      · exact hold (e ▸ hm)
      · have hxp : x = p := List.mem_singleton.mp hm
        subst hxp
        exact ⟨hctx.trans e.symm, hp0, hpn, hlive, fun ho => hno ((hop x).mp ho)⟩
    · rw [if_neg e] at hx
      exact hold hx
  · intro c' hc
    have hc' := (hop c').mp hc
    rw [hvals c']
    by_cases e : c' = c
    · rw [if_pos e]
      refine List.Nodup.append (h2 c (e ▸ hc')) (List.nodup_singleton _) ?_
      intro x hx hx'
      have hxp : x = p := List.mem_singleton.mp hx'
      exact hnl c (e ▸ hc') (hxp ▸ hx)
    · rw [if_neg e]
      exact h2 c' hc'
  · intro c' hc
    exact h3 c' ((hop c').mp hc)

theorem WellTracked_track_new (iso c : Ptr) (v : Option LocalValue) (s : State)
    (h : WellTracked s) :
    WellTracked (tracked_value c (new_m_value iso c v s).1 (new_m_value iso c v s).2).2 := by
  obtain ⟨p, n, r, hnew, hp0, hpn, hsn, hf⟩ := new_m_value_spec iso c v s
  obtain ⟨hno, hnl⟩ := fresh_unused s p h hf
  rw [hnew]
  apply WellTracked_track _ c p (WellTracked_new_value s p n r _ h hsn hf) hp0 hpn
  · simp [update]
  · exact hno
  · exact hnl
  · simp [update]

theorem WellTracked_wrap_args (iso ctx : Ptr) (args : List LocalValue) (s : State)
    (h : WellTracked s) : WellTracked (wrap_args iso ctx args s).2 := by
  induction args generalizing s with
  | nil => exact h
  | cons a rest ih =>
    exact ih _ (WellTracked_track_new iso ctx (some a) s h)

theorem ValueFree_ctx_field (p h : Ptr) (s : State) :
    ((ValueFree p s).values h).ctx = (s.values h).ctx ∧ (ValueFree p s).next = s.next := by
  unfold ValueFree
  split
  · exact ⟨rfl, rfl⟩
  · by_cases e : h = p
    · subst e
      simp [State.emit, State.delete, update]
    · simp [State.emit, State.delete, update, e]

theorem WellTracked_ValueFree (p : Ptr) (s : State) (h : WellTracked s)
    (ha : p = 0 ∨ (¬ s.opened p ∧ ∀ c, s.opened c → p ∉ (s.ctxs c).vals)) :
    WellTracked (ValueFree p s) := by
  rcases ha with h0 | ⟨hno, hnl⟩
  · subst h0
    simpa [ValueFree] using h
  · apply WellTracked_of_frame s _ p (ValueFree_ctxs p s) _ _ _ hno hnl h
    · intro x
      exact (ValueFree_ctx_field p x s).1
    · exact le_of_eq (ValueFree_ctx_field p p s).2.symm
    · intro q hq l
      rw [(ValueFree_frame p q s hq).2]
      exact l

theorem ContextFree_next (c : Ptr) (s : State) : (ContextFree c s).next = s.next := by
  have hfold : ∀ (l : List Ptr) (t : State),
      (l.foldl (fun s val_ptr => ValueFree val_ptr s) t).next = t.next := by
    intro l
    induction l with
    | nil => intro t; rfl
    | cons p rest ih =>
      intro t
      rw [List.foldl_cons, ih, (ValueFree_ctx_field p p t).2]
  by_cases hc : c = 0
  · subst hc
    simp [ContextFree]
  · rw [ContextFree_shape c s hc]
    simp only [State.emit, State.delete]
    rw [hfold]

theorem WellTracked_ContextFree (c : Ptr) (s : State) (h : WellTracked s)
    (ha : c = 0 ∨ s.opened c) : WellTracked (ContextFree c s) := by
  by_cases hc : c = 0
  · subst hc
    simpa [ContextFree] using h
  · have hopen : s.opened c := ha.resolve_left hc
    obtain ⟨h1, h2, h3⟩ := h
    obtain ⟨f1, f2, f3⟩ := ContextFree_frame c s
    obtain ⟨-, e2, -, -⟩ := ContextFree_effect c s hc
    have hop : ∀ c', (ContextFree c s).opened c' → c' ≠ c ∧ s.opened c' := by
      intro c' ho
      have hne : c' ≠ c := by
        intro e
        rw [e] at ho
        exact ho e2
      refine ⟨hne, ?_⟩
      unfold State.opened at ho ⊢
      rw [f1 c' hne] at ho
      exact ho
    have hnotin : ∀ c' x, c' ≠ c → s.opened c' → x ∈ (s.ctxs c').vals →
        x ∉ (s.ctxs c).vals ∧ x ≠ c := by
      intro c' x hne ho hx
      obtain ⟨a, _, _, _, o⟩ := h1 c' x ho hx
      refine ⟨?_, ?_⟩
      · intro hm
        exact hne (a.symm.trans (h1 c x hopen hm).1)
      · intro e
        exact o (e ▸ hopen)
    refine ⟨?_, ?_, ?_⟩
    · intro c' x ho hx
      obtain ⟨hne, ho'⟩ := hop c' ho
      rw [f1 c' hne] at hx
      obtain ⟨a, b, d, l, o⟩ := h1 c' x ho' hx
      obtain ⟨n1, n2⟩ := hnotin c' x hne ho' hx
      refine ⟨?_, b, ?_, ?_, ?_⟩
      · rw [f2 x n1]
        exact a
      · rw [ContextFree_next]
        exact d
      · rw [f3 x n1 n2]
        exact l
      · intro hox
        exact o (hop x hox).2
    · intro c' ho
      obtain ⟨hne, ho'⟩ := hop c' ho
      rw [f1 c' hne]
      exact h2 c' ho'
    · intro c' ho
      obtain ⟨hne, ho'⟩ := hop c' ho
      obtain ⟨a, b, l⟩ := h3 c' ho'
      have hnl : c' ∉ (s.ctxs c).vals := by
        intro hm
        exact (h1 c c' hopen hm).2.2.2.2 ho'
      refine ⟨a, ?_, ?_⟩
      · rw [ContextFree_next]
        exact b
      · rw [f3 c' hnl hne]
        exact l

theorem WellTracked_IsolateDispose (iso : Ptr) (s : State) (h : WellTracked s)
    (ha : iso = 0 ∨ s.isoData iso 0 = 0 ∨ s.opened (s.isoData iso 0)) :
    WellTracked (IsolateDispose iso s) := by
  unfold IsolateDispose
  split
  · exact h
  · rename_i hiso
    exact WellTracked_emit _ _ (WellTracked_ContextFree _ _ h (ha.resolve_left hiso))

theorem WellTracked_TemplateFree (t : Ptr) (s : State) (h : WellTracked s)
    (ha : ¬ s.opened t ∧ ∀ c, s.opened c → t ∉ (s.ctxs c).vals) :
    WellTracked (TemplateFree t s) := by
  refine WellTracked_of_frame s (TemplateFree t s) t rfl (fun _ => rfl) (le_refl _) ?_
    ha.1 ha.2 h
  intro q hq l
  simp [TemplateFree, State.delete, update, hq, l]

theorem WellTracked_ExceptionError (tc : TryCatch) (iso : Ptr) (s : State)
    (hk : tc.Keeps) (h : WellTracked s) : WellTracked (ExceptionError tc iso s).2 := by
  rw [ExceptionError_state]
  exact WellTracked_emit _ _ (hk _ (WellTracked_emit _ _ h))

theorem WellTracked_track_tail (iso c : Ptr) (v : Option LocalValue) (e : Event) (s : State)
    (h : WellTracked s) :
    WellTracked ((tracked_value c (new_m_value iso c v s).1 (new_m_value iso c v s).2).2.emit e) :=
  WellTracked_emit _ _ (WellTracked_track_new iso c v s h)

theorem WellTracked_failure_tail (tc : TryCatch) (iso : Ptr) (e : Event) (s : State)
    (hk : tc.Keeps) (h : WellTracked s) : WellTracked ((ExceptionError tc iso s).2.emit e) :=
  WellTracked_emit _ _ (WellTracked_ExceptionError tc iso s hk h)

theorem keeps_of_eq {α : Type} (f : State → α × State)
    (hf : ∀ s, WellTracked s → WellTracked (f s).2) (t : State) (x : α) (t' : State)
    (heq : f t = (x, t')) (ht : WellTracked t) : WellTracked t' := by
  have := hf t ht
  rw [heq] at this
  exact this

theorem trap_of_eq {α : Type} (x : α × TryCatch) (a : α) (tc : TryCatch)
    (heq : x = (a, tc)) (h : x.2.Keeps) : tc.Keeps := by
  rw [heq] at h
  exact h

theorem trap_of_run_eq {α : Type} (x : (α × TryCatch) × State) (a : α) (tc : TryCatch)
    (t : State) (heq : x = ((a, tc), t)) (h : x.1.2.Keeps) : tc.Keeps := by
  rw [heq] at h
  exact h

theorem LOCAL_CONTEXT_keeps (ctx_ptr : Ptr) (s : State) (sc : ContextScope) (s1 : State)
    (hL : LOCAL_CONTEXT ctx_ptr s = some (sc, s1)) (h : WellTracked s) : WellTracked s1 := by
  unfold LOCAL_CONTEXT at hL
  simp only at hL
  split at hL
  · exact Option.noConfusion hL
  · simp only [Option.some.injEq, Prod.mk.injEq] at hL
    rw [← hL.2]
    exact WellTracked_emit _ _ h

theorem LOCAL_VALUE_keeps (ptr : Ptr) (s : State) (sc : ValueScope) (s1 : State)
    (hL : LOCAL_VALUE ptr s = some (sc, s1)) (h : WellTracked s) : WellTracked s1 := by
  rw [(LOCAL_VALUE_some ptr s sc s1 hL).1]
  exact WellTracked_emit _ _ h

theorem WellTracked_new_record (s s' : State) (p : Ptr) (record : m_ctx)
    (hvals : record.vals = [])
    (hctxs : s'.ctxs = update s.ctxs p record)
    (hctx : ∀ h, (s'.values h).ctx = (s.values h).ctx)
    (hnext : s.next ≤ s'.next)
    (hlive : ∀ q, s.live q = true → s'.live q = true)
    (hp0 : p ≠ 0) (hpn : p ≤ s'.next) (hpl : s'.live p = true)
    (hf : (p ≤ s.next ∧ s.live p = false) ∨ s.next < p)
    (h : WellTracked s) : WellTracked s' := by
  obtain ⟨hno, hnl⟩ := fresh_unused s p h hf
  obtain ⟨h1, h2, h3⟩ := h
  have hop : ∀ c, c ≠ p → (s'.opened c ↔ s.opened c) := by
    intro c hc
    unfold State.opened
    rw [hctxs]
    simp [update, hc]
  have hlist : ∀ c, c ≠ p → (s'.ctxs c).vals = (s.ctxs c).vals := by
    intro c hc
    rw [hctxs]
    simp [update, hc]
  have hlistp : (s'.ctxs p).vals = [] := by
    rw [hctxs]
    simp [update, hvals]
  refine ⟨?_, ?_, ?_⟩
  · intro c x hc hx
    by_cases e : c = p
    · rw [e, hlistp] at hx
      exact absurd hx (List.not_mem_nil x)
    · rw [hlist c e] at hx
      have hc' := (hop c e).mp hc
      obtain ⟨a, b, d, l, o⟩ := h1 c x hc' hx
      have hxp : x ≠ p := fun e' => hnl c hc' (e' ▸ hx)
      exact ⟨(hctx x).trans a, b, le_trans d hnext, hlive x l,
        fun ho => o ((hop x hxp).mp ho)⟩
  · intro c hc
    by_cases e : c = p
    · rw [e, hlistp]
      exact List.nodup_nil
    · rw [hlist c e]
      exact h2 c ((hop c e).mp hc)
  · intro c hc
    by_cases e : c = p
    · rw [e]
      exact ⟨hp0, hpn, hpl⟩
    · obtain ⟨a, b, l⟩ := h3 c ((hop c e).mp hc)
      exact ⟨a, le_trans b hnext, hlive c l⟩

theorem NewContext_keeps (iso t : Ptr) (ref : Int) (s : State) (h : WellTracked s) :
    WellTracked (NewContext iso t ref s).2 := by
  obtain ⟨ctx, s', heq, hp0, hpn, hsn, hf, hctxs, hvalues, hlive, -⟩ :=
    NewContext_spec iso t ref s
  rw [heq]
  apply WellTracked_new_record s s' ctx _ rfl hctxs _ hsn _ hp0 hpn _ hf h
  · intro x
    rw [hvalues]
  · intro q l
    rw [hlive]
    by_cases e : q = ctx
    · simp [update, e]
    · simp [update, e, l]
  · rw [hlive]
    simp [update]

theorem NewIsolate_keeps (s : State) (h : WellTracked s) : WellTracked (NewIsolate s).2 := by
  obtain ⟨iso, ctx, n, r, heq, -, hc0, hne, -, hcn, hsn, -, hf⟩ := NewIsolate_spec s
  refine WellTracked_new_record s (NewIsolate s).2 ctx
    { iso := iso, vals := [], ptr := some (s.nextContext + 1) } rfl ?_ ?_ ?_ ?_ hc0 ?_ ?_ hf h
  · rw [heq]
  · intro x
    rw [heq]
  · rw [heq]
    exact hsn
  · intro q l
    rw [heq]
    by_cases e : q = ctx
    · simp [update, e]
    · by_cases e' : q = iso
      · simp [update, e, e']
      · simp [update, e, e', l]
  · rw [heq]
    exact hcn
  · rw [heq]
    simp [update]

theorem NewFunctionTemplate_keeps (iso : Ptr) (ref : Int) (s : State) (h : WellTracked s) :
    WellTracked (NewFunctionTemplate iso ref s).2 := by
  obtain ⟨p, n, r, hnew, -, -, hsn, -⟩ := State.new_spec (s.emit (Event.lock iso))
  have heq : (NewFunctionTemplate iso ref s).2 =
      ({ s.emit (Event.lock iso) with
          recycle := r, next := n, live := update (s.emit (Event.lock iso)).live p true,
          templates := update (s.emit (Event.lock iso)).templates p
            { iso := iso, ptr := some (Template.function ref) } } : State).emit
        (Event.unlock iso) := by
    simp only [NewFunctionTemplate, hnew]
  refine WellTracked_of_same s (NewFunctionTemplate iso ref s).2 ?_ ?_ ?_ ?_ h
  · rw [heq]
    rfl
  · intro x
    rw [heq]
    rfl
  · rw [heq]
    exact hsn
  · intro q l
    rw [heq]
    by_cases e : q = p
    · simp [State.emit, update, e]
    · simp [State.emit, update, e, l]

theorem NewValueInteger_keeps (ve : ValueEngine) (iso : Ptr) (v : Int) (s : State)
    (h : WellTracked s) : WellTracked (NewValueInteger ve iso v s).2 :=
  WellTracked_track_tail _ _ _ _ _ (WellTracked_emit _ _ h)

theorem Exceptions_construct_keeps (eng : Engine) (make : LocalValue → LocalValue)
    (iso : Ptr) (message : String) (s : State) (r : Ptr) (s' : State)
    (hr : Exceptions.construct eng make iso message s = some (r, s'))
    (h : WellTracked s) : WellTracked s' := by
  unfold Exceptions.construct at hr
  simp only at hr
  split at hr
  · exact Option.noConfusion hr
  · simp only [Option.some.injEq, Prod.mk.injEq] at hr
    rw [← hr.2]
    exact WellTracked_emit _ _ (WellTracked_new_m_value _ _ _ _ (WellTracked_emit _ _ h))

theorem RunScript_keeps (eng : Engine) (ve : ValueEngine) (host : Host)
    (hk : KeepsTracked eng ve host) (ctx : Ptr) (source origin : String) (s : State)
    (r : RtnValue) (s' : State) (hr : RunScript eng ctx source origin s = some (r, s'))
    (h : WellTracked s) : WellTracked s' := by
  unfold RunScript at hr
  cases hL : LOCAL_CONTEXT ctx s with
  | none => simp [hL] at hr
  | some p =>
    obtain ⟨sc, s1⟩ := p
    have h1 := LOCAL_CONTEXT_keeps ctx s sc s1 hL h
    simp only [hL] at hr
    split at hr
    · exact Option.noConfusion hr
    · split at hr
      · exact Option.noConfusion hr
      · split at hr
        · rename_i hcompile
          simp only [Option.some.injEq, Prod.mk.injEq] at hr
          rw [← hr.2]
          exact WellTracked_failure_tail _ _ _ _
            (trap_of_eq _ _ _ hcompile (hk.compile_trap _ _ _)) (WellTracked_emit _ _ h1)
        · split at hr
          · rename_i heq
            simp only [Option.some.injEq, Prod.mk.injEq] at hr
            rw [← hr.2]
            exact WellTracked_failure_tail _ _ _ _
              (trap_of_run_eq _ _ _ _ heq (hk.run_trap _ _ _))
              (keeps_of_eq _ (hk.run _ _) _ _ _ heq
                (WellTracked_emit _ _ (WellTracked_emit _ _ h1)))
          · rename_i heq
            simp only [Option.some.injEq, Prod.mk.injEq] at hr
            rw [← hr.2]
            exact WellTracked_track_tail _ _ _ _ _
              (keeps_of_eq _ (hk.run _ _) _ _ _ heq
                (WellTracked_emit _ _ (WellTracked_emit _ _ h1)))

theorem JSONParse_keeps (eng : Engine) (ve : ValueEngine) (host : Host)
    (hk : KeepsTracked eng ve host) (ctx : Ptr) (str : String)
    (s : State) (r : RtnValue) (s' : State)
    (hr : JSONParse eng ve ctx str s = some (r, s')) (h : WellTracked s) : WellTracked s' := by
  unfold JSONParse at hr
  cases hL : LOCAL_CONTEXT ctx s with
  | none => simp [hL] at hr
  | some p =>
    obtain ⟨sc, s1⟩ := p
    have h1 := LOCAL_CONTEXT_keeps ctx s sc s1 hL h
    simp only [hL] at hr
    split at hr
    · exact Option.noConfusion hr
    · split at hr
      · rename_i hparse
        simp only [Option.some.injEq, Prod.mk.injEq] at hr
        rw [← hr.2]
        exact WellTracked_failure_tail _ _ _ _
          (trap_of_eq _ _ _ hparse (hk.parse_trap _ _)) h1
      · simp only [Option.some.injEq, Prod.mk.injEq] at hr
        rw [← hr.2]
        exact WellTracked_track_tail _ _ _ _ _ h1

theorem JSONStringify_keeps (eng : Engine) (ve : ValueEngine) (host : Host)
    (hk : KeepsTracked eng ve host) (ctx val : Ptr) (s : State) (r : CharPtr) (s' : State)
    (hr : JSONStringify ve ctx val s = some (r, s')) (h : WellTracked s) : WellTracked s' := by
  unfold JSONStringify at hr
  simp only at hr
  split at hr
  · exact Option.noConfusion hr
  · split at hr
    · exact Option.noConfusion hr
    · split at hr
      · rename_i heq
        simp only [Option.some.injEq, Prod.mk.injEq] at hr
        rw [← hr.2]
        exact WellTracked_emit _ _
          (keeps_of_eq _ (hk.stringify _ _) _ _ _ heq (WellTracked_emit _ _ h))
      · rename_i heq
        simp only [Option.some.injEq, Prod.mk.injEq] at hr
        rw [← hr.2]
        exact WellTracked_emit _ _
          (keeps_of_eq _ (hk.stringify _ _) _ _ _ heq (WellTracked_emit _ _ h))

theorem ValueToObject_keeps (eng : Engine) (ve : ValueEngine) (host : Host)
    (hk : KeepsTracked eng ve host) (val : Ptr) (s : State) (r : Ptr) (s' : State)
    (hr : ValueToObject ve val s = some (r, s')) (h : WellTracked s) : WellTracked s' := by
  unfold ValueToObject at hr
  cases hL : LOCAL_VALUE val s with
  | none => simp [hL] at hr
  | some p =>
    obtain ⟨sc, s1⟩ := p
    have h1 := LOCAL_VALUE_keeps val s sc s1 hL h
    simp only [hL] at hr
    split at hr
    · exact Option.noConfusion hr
    · split at hr
      · exact Option.noConfusion hr
      · rename_i heq
        simp only [Option.some.injEq, Prod.mk.injEq] at hr
        rw [← hr.2]
        exact WellTracked_track_tail _ _ _ _ _ (keeps_of_eq _ (hk.toObject _ _) _ _ _ heq h1)

theorem ObjectGet_keeps (eng : Engine) (ve : ValueEngine) (host : Host)
    (hk : KeepsTracked eng ve host) (val : Ptr) (key : String) (s : State) (r : RtnValue)
    (s' : State) (hr : ObjectGet eng ve val key s = some (r, s')) (h : WellTracked s) :
    WellTracked s' := by
  unfold ObjectGet at hr
  cases hL : LOCAL_VALUE val s with
  | none => simp [hL] at hr
  | some p =>
    obtain ⟨sc, s1⟩ := p
    have h1 := LOCAL_VALUE_keeps val s sc s1 hL h
    simp only [hL] at hr
    split at hr
    · exact Option.noConfusion hr
    · split at hr
      · exact Option.noConfusion hr
      · split at hr
        · rename_i heq
          simp only [Option.some.injEq, Prod.mk.injEq] at hr
          rw [← hr.2]
          exact WellTracked_failure_tail _ _ _ _
            (trap_of_run_eq _ _ _ _ heq (hk.get_trap _ _ _ _))
            (keeps_of_eq _ (hk.get _ _ _) _ _ _ heq h1)
        · rename_i heq
          simp only [Option.some.injEq, Prod.mk.injEq] at hr
          rw [← hr.2]
          exact WellTracked_track_tail _ _ _ _ _ (keeps_of_eq _ (hk.get _ _ _) _ _ _ heq h1)

theorem ObjectGetIdx_keeps (eng : Engine) (ve : ValueEngine) (host : Host)
    (hk : KeepsTracked eng ve host) (val : Ptr) (idx : Nat) (s : State) (r : RtnValue)
    (s' : State) (hr : ObjectGetIdx ve val idx s = some (r, s')) (h : WellTracked s) :
    WellTracked s' := by
  unfold ObjectGetIdx at hr
  cases hL : LOCAL_VALUE val s with
  | none => simp [hL] at hr
  | some p =>
    obtain ⟨sc, s1⟩ := p
    have h1 := LOCAL_VALUE_keeps val s sc s1 hL h
    simp only [hL] at hr
    split at hr
    · exact Option.noConfusion hr
    · split at hr
      · rename_i heq
        simp only [Option.some.injEq, Prod.mk.injEq] at hr
        rw [← hr.2]
        exact WellTracked_failure_tail _ _ _ _
          (trap_of_run_eq _ _ _ _ heq (hk.getIdx_trap _ _ _ _))
          (keeps_of_eq _ (hk.getIdx _ _ _) _ _ _ heq h1)
      · rename_i heq
        simp only [Option.some.injEq, Prod.mk.injEq] at hr
        rw [← hr.2]
        exact WellTracked_track_tail _ _ _ _ _ (keeps_of_eq _ (hk.getIdx _ _ _) _ _ _ heq h1)

theorem FunctionCall_keeps (eng : Engine) (ve : ValueEngine) (host : Host)
    (hk : KeepsTracked eng ve host) (val : Ptr) (args : List Ptr) (s : State) (r : RtnValue)
    (s' : State) (hr : FunctionCall ve val args s = some (r, s')) (h : WellTracked s) :
    WellTracked s' := by
  unfold FunctionCall at hr
  cases hL : LOCAL_VALUE val s with
  | none => simp [hL] at hr
  | some p =>
    obtain ⟨sc, s1⟩ := p
    have h1 := LOCAL_VALUE_keeps val s sc s1 hL h
    simp only [hL] at hr
    split at hr
    · exact Option.noConfusion hr
    · split at hr
      · rename_i heq
        simp only [Option.some.injEq, Prod.mk.injEq] at hr
        rw [← hr.2]
        exact WellTracked_failure_tail _ _ _ _
          (trap_of_run_eq _ _ _ _ heq (hk.call_trap _ _ _ _ _))
          (keeps_of_eq _ (hk.call _ _ _ _) _ _ _ heq h1)
      · rename_i heq
        simp only [Option.some.injEq, Prod.mk.injEq] at hr
        rw [← hr.2]
        exact WellTracked_track_tail _ _ _ _ _
          (keeps_of_eq _ (hk.call _ _ _ _) _ _ _ heq h1)

theorem PromiseThen_keeps (eng : Engine) (val : Ptr) (ref : Int) (s : State) (r : Ptr)
    (s' : State) (hr : PromiseThen eng val ref s = some (r, s')) (h : WellTracked s) :
    WellTracked s' := by
  unfold PromiseThen at hr
  cases hL : LOCAL_VALUE val s with
  | none => simp [hL] at hr
  | some p =>
    obtain ⟨sc, s1⟩ := p
    have h1 := LOCAL_VALUE_keeps val s sc s1 hL h
    simp only [hL] at hr
    split at hr
    · exact Option.noConfusion hr
    · split at hr
      · exact Option.noConfusion hr
      · split at hr
        · exact Option.noConfusion hr
        · simp only [Option.some.injEq, Prod.mk.injEq] at hr
          rw [← hr.2]
          exact WellTracked_track_tail _ _ _ _ _ h1

theorem PromiseThen2_keeps (eng : Engine) (val : Ptr) (r1 r2 : Int) (s : State) (r : Ptr)
    (s' : State) (hr : PromiseThen2 eng val r1 r2 s = some (r, s')) (h : WellTracked s) :
    WellTracked s' := by
  unfold PromiseThen2 at hr
  cases hL : LOCAL_VALUE val s with
  | none => simp [hL] at hr
  | some p =>
    obtain ⟨sc, s1⟩ := p
    have h1 := LOCAL_VALUE_keeps val s sc s1 hL h
    simp only [hL] at hr
    split at hr
    · exact Option.noConfusion hr
    · split at hr
      · exact Option.noConfusion hr
      · split at hr
        · exact Option.noConfusion hr
        · split at hr
          · exact Option.noConfusion hr
          · simp only [Option.some.injEq, Prod.mk.injEq] at hr
            rw [← hr.2]
            exact WellTracked_track_tail _ _ _ _ _ h1

theorem PromiseCatch_keeps (eng : Engine) (val : Ptr) (ref : Int) (s : State) (r : Ptr)
    (s' : State) (hr : PromiseCatch eng val ref s = some (r, s')) (h : WellTracked s) :
    WellTracked s' := by
  unfold PromiseCatch at hr
  cases hL : LOCAL_VALUE val s with
  | none => simp [hL] at hr
  | some p =>
    obtain ⟨sc, s1⟩ := p
    have h1 := LOCAL_VALUE_keeps val s sc s1 hL h
    simp only [hL] at hr
    split at hr
    · exact Option.noConfusion hr
    · split at hr
      · exact Option.noConfusion hr
      · split at hr
        · exact Option.noConfusion hr
        · simp only [Option.some.injEq, Prod.mk.injEq] at hr
          rw [← hr.2]
          exact WellTracked_track_tail _ _ _ _ _ h1

theorem PromiseResolverGetPromise_keeps (g : LocalValue → LocalValue) (val : Ptr) (s : State)
    (r : Ptr) (s' : State) (hr : PromiseResolverGetPromise g val s = some (r, s'))
    (h : WellTracked s) : WellTracked s' := by
  unfold PromiseResolverGetPromise at hr
  cases hL : LOCAL_VALUE val s with
  | none => simp [hL] at hr
  | some p =>
    obtain ⟨sc, s1⟩ := p
    have h1 := LOCAL_VALUE_keeps val s sc s1 hL h
    simp only [hL] at hr
    split at hr
    · exact Option.noConfusion hr
    · simp only [Option.some.injEq, Prod.mk.injEq] at hr
      rw [← hr.2]
      exact WellTracked_track_tail _ _ _ _ _ h1

theorem PromiseResult_keeps (g : LocalValue → LocalValue) (val : Ptr) (s : State)
    (r : Ptr) (s' : State) (hr : PromiseResult g val s = some (r, s'))
    (h : WellTracked s) : WellTracked s' := by
  unfold PromiseResult at hr
  cases hL : LOCAL_VALUE val s with
  | none => simp [hL] at hr
  | some p =>
    obtain ⟨sc, s1⟩ := p
    have h1 := LOCAL_VALUE_keeps val s sc s1 hL h
    simp only [hL] at hr
    split at hr
    · exact Option.noConfusion hr
    · simp only [Option.some.injEq, Prod.mk.injEq] at hr
      rw [← hr.2]
      exact WellTracked_track_tail _ _ _ _ _ h1

theorem ContextGlobal_keeps (g : LocalContext → LocalValue) (ctx : Ptr) (s : State)
    (r : Ptr) (s' : State) (hr : ContextGlobal g ctx s = some (r, s'))
    (h : WellTracked s) : WellTracked s' := by
  unfold ContextGlobal at hr
  cases hL : LOCAL_CONTEXT ctx s with
  | none => simp [hL] at hr
  | some p =>
    obtain ⟨sc, s1⟩ := p
    have h1 := LOCAL_CONTEXT_keeps ctx s sc s1 hL h
    simp only [hL, Option.some.injEq, Prod.mk.injEq] at hr
    rw [← hr.2]
    exact WellTracked_track_tail _ _ _ _ _ h1

theorem NewPromiseResolver_keeps (g : LocalContext → Option LocalValue) (ctx : Ptr) (s : State)
    (r : Ptr) (s' : State) (hr : NewPromiseResolver g ctx s = some (r, s'))
    (h : WellTracked s) : WellTracked s' := by
  unfold NewPromiseResolver at hr
  cases hL : LOCAL_CONTEXT ctx s with
  | none => simp [hL] at hr
  | some p =>
    obtain ⟨sc, s1⟩ := p
    have h1 := LOCAL_CONTEXT_keeps ctx s sc s1 hL h
    simp only [hL] at hr
    split at hr
    · exact Option.noConfusion hr
    · simp only [Option.some.injEq, Prod.mk.injEq] at hr
      rw [← hr.2]
      exact WellTracked_track_tail _ _ _ _ _ h1

theorem ObjectTemplateNewInstance_keeps (g : Option Template → LocalContext → Option LocalValue)
    (t ctx : Ptr) (s : State) (r : Ptr) (s' : State)
    (hr : ObjectTemplateNewInstance g t ctx s = some (r, s'))
    (h : WellTracked s) : WellTracked s' := by
  unfold ObjectTemplateNewInstance at hr
  simp only at hr
  split at hr
  · exact Option.noConfusion hr
  · split at hr
    · exact Option.noConfusion hr
    · simp only [Option.some.injEq, Prod.mk.injEq] at hr
      rw [← hr.2]
      exact WellTracked_track_tail _ _ _ _ _ (WellTracked_emit _ _ h)

theorem FunctionTemplateGetFunction_keeps
    (g : Option Template → LocalContext → Option LocalValue)
    (t ctx : Ptr) (s : State) (r : Ptr) (s' : State)
    (hr : FunctionTemplateGetFunction g t ctx s = some (r, s'))
    (h : WellTracked s) : WellTracked s' := by
  unfold FunctionTemplateGetFunction at hr
  simp only at hr
  split at hr
  · exact Option.noConfusion hr
  · split at hr
    · exact Option.noConfusion hr
    · simp only [Option.some.injEq, Prod.mk.injEq] at hr
      rw [← hr.2]
      exact WellTracked_track_tail _ _ _ _ _ (WellTracked_emit _ _ h)

theorem NewValue_internal_keeps (iso : Ptr) (v : Option LocalValue) (s : State)
    (r : Ptr) (s' : State) (hr : NewValue_internal iso v s = some (r, s'))
    (h : WellTracked s) : WellTracked s' := by
  unfold NewValue_internal at hr
  simp only at hr
  split at hr
  · exact Option.noConfusion hr
  · simp only [Option.some.injEq, Prod.mk.injEq] at hr
    rw [← hr.2]
    exact WellTracked_track_tail _ _ _ _ _ (WellTracked_emit _ _ h)

theorem FunctionTemplateCallback_keeps (eng : Engine) (ve : ValueEngine) (host : Host)
    (hk : KeepsTracked eng ve host) (info : FunctionCallbackInfo) (s : State)
    (r : ReturnValue) (s' : State)
    (hr : FunctionTemplateCallback host info s = some (r, s'))
    (h : WellTracked s) : WellTracked s' := by
  cases hd : s.embedder info.currentContext 1 with
  | none =>
    have hd' : (s.emit (Event.lock info.isolate)).embedder info.currentContext 1 = none := hd
    simp [FunctionTemplateCallback, hd'] at hr
  | some d =>
    rw [FunctionTemplateCallback_eq host info s d hd] at hr
    simp only [Option.some.injEq, Prod.mk.injEq] at hr
    rw [← hr.2]
    apply WellTracked_emit
    apply hk.callback
    unfold callback_entry
    apply WellTracked_emit
    apply WellTracked_wrap_args
    exact WellTracked_emit _ _ (WellTracked_emit _ _ h)


theorem map_snd_some {α : Type} (o : Option (α × State)) (s' : State)
    (h : o.map Prod.snd = some s') : ∃ r, o = some (r, s') := by
  cases o with
  | none => exact Option.noConfusion h
  | some p =>
    obtain ⟨r, t⟩ := p
    simp only [Option.map_some', Option.some.injEq] at h
    exact ⟨r, by rw [h]⟩

theorem step_keeps (eng : Engine) (ve : ValueEngine) (host : Host)
    (hk : KeepsTracked eng ve host) (op : Op) (s s' : State)
    (hs : step eng ve host op s = some s') (ha : Allowed s op) (h : WellTracked s) :
    WellTracked s' := by
  cases op with
  | NewIsolate =>
    simp only [step, Option.some.injEq] at hs
    rw [← hs]; exact NewIsolate_keeps s h
  | IsolateDispose iso =>
    simp only [step, Option.some.injEq] at hs
    rw [← hs]; exact WellTracked_IsolateDispose iso s h ha
  | NewContext iso t ref =>
    simp only [step, Option.some.injEq] at hs
    rw [← hs]; exact NewContext_keeps iso t ref s h
  | ContextFree ctx =>
    simp only [step, Option.some.injEq] at hs
    rw [← hs]; exact WellTracked_ContextFree ctx s h ha
  | NewFunctionTemplate iso ref =>
    simp only [step, Option.some.injEq] at hs
    rw [← hs]; exact NewFunctionTemplate_keeps iso ref s h
  | TemplateFree t =>
    simp only [step, Option.some.injEq] at hs
    rw [← hs]; exact WellTracked_TemplateFree t s h ha
  | ObjectTemplateNewInstance t ctx obj =>
    obtain ⟨r, hr⟩ := map_snd_some _ _ hs
    exact ObjectTemplateNewInstance_keeps _ t ctx s r s' hr h
  | FunctionTemplateGetFunction t ctx fn =>
    obtain ⟨r, hr⟩ := map_snd_some _ _ hs
    exact FunctionTemplateGetFunction_keeps _ t ctx s r s' hr h
  | RunScript ctx source origin =>
    obtain ⟨r, hr⟩ := map_snd_some _ _ hs
    exact RunScript_keeps eng ve host hk ctx source origin s r s' hr h
  | JSONParse ctx str =>
    obtain ⟨r, hr⟩ := map_snd_some _ _ hs
    exact JSONParse_keeps eng ve host hk ctx str s r s' hr h
  | JSONStringify ctx val =>
    obtain ⟨r, hr⟩ := map_snd_some _ _ hs
    exact JSONStringify_keeps eng ve host hk ctx val s r s' hr h
  | ContextGlobal ctx g =>
    obtain ⟨r, hr⟩ := map_snd_some _ _ hs
    exact ContextGlobal_keeps _ ctx s r s' hr h
  | NewValue iso v =>
    obtain ⟨r, hr⟩ := map_snd_some _ _ hs
    exact NewValue_internal_keeps iso v s r s' hr h
  | NewValueInteger iso v =>
    simp only [step, Option.some.injEq] at hs
    rw [← hs]; exact NewValueInteger_keeps ve iso v s h
  | ValueFree val =>
    simp only [step, Option.some.injEq] at hs
    rw [← hs]; exact WellTracked_ValueFree val s h ha
  | ValueToObject val =>
    obtain ⟨r, hr⟩ := map_snd_some _ _ hs
    exact ValueToObject_keeps eng ve host hk val s r s' hr h
  | ObjectGet val key =>
    obtain ⟨r, hr⟩ := map_snd_some _ _ hs
    exact ObjectGet_keeps eng ve host hk val key s r s' hr h
  | ObjectGetIdx val idx =>
    obtain ⟨r, hr⟩ := map_snd_some _ _ hs
    exact ObjectGetIdx_keeps eng ve host hk val idx s r s' hr h
  | FunctionCall val args =>
    obtain ⟨r, hr⟩ := map_snd_some _ _ hs
    exact FunctionCall_keeps eng ve host hk val args s r s' hr h
  | NewPromiseResolver ctx g =>
    obtain ⟨r, hr⟩ := map_snd_some _ _ hs
    exact NewPromiseResolver_keeps _ ctx s r s' hr h
  | PromiseResolverGetPromise val p =>
    obtain ⟨r, hr⟩ := map_snd_some _ _ hs
    exact PromiseResolverGetPromise_keeps _ val s r s' hr h
  | PromiseThen val ref =>
    obtain ⟨r, hr⟩ := map_snd_some _ _ hs
    exact PromiseThen_keeps eng val ref s r s' hr h
  | PromiseThen2 val r1 r2 =>
    obtain ⟨r, hr⟩ := map_snd_some _ _ hs
    exact PromiseThen2_keeps eng val r1 r2 s r s' hr h
  | PromiseCatch val ref =>
    obtain ⟨r, hr⟩ := map_snd_some _ _ hs
    exact PromiseCatch_keeps eng val ref s r s' hr h
  | PromiseResult val g =>
    obtain ⟨r, hr⟩ := map_snd_some _ _ hs
    exact PromiseResult_keeps _ val s r s' hr h
  | ExceptionError iso m =>
    obtain ⟨r, hr⟩ := map_snd_some _ _ hs
    exact Exceptions_construct_keeps eng _ iso m s r s' hr h
  | ExceptionRangeError iso m =>
    obtain ⟨r, hr⟩ := map_snd_some _ _ hs
    exact Exceptions_construct_keeps eng _ iso m s r s' hr h
  | ExceptionReferenceError iso m =>
    obtain ⟨r, hr⟩ := map_snd_some _ _ hs
    exact Exceptions_construct_keeps eng _ iso m s r s' hr h
  | ExceptionSyntaxError iso m =>
    obtain ⟨r, hr⟩ := map_snd_some _ _ hs
    exact Exceptions_construct_keeps eng _ iso m s r s' hr h
  | ExceptionTypeError iso m =>
    obtain ⟨r, hr⟩ := map_snd_some _ _ hs
    exact Exceptions_construct_keeps eng _ iso m s r s' hr h
  | FunctionTemplateCallback info =>
    obtain ⟨r, hr⟩ := map_snd_some _ _ hs
    exact FunctionTemplateCallback_keeps eng ve host hk info s r s' hr h
  | plan ps =>
    simp only [step, Option.some.injEq] at hs
    rw [← hs]; exact WellTracked_plan s ps h

theorem run_ops_keeps (eng : Engine) (ve : ValueEngine) (host : Host)
    (hk : KeepsTracked eng ve host) (ops : List Op) (s s' : State)
    (hs : run_ops eng ve host ops s = some s') (ha : AllowedRun eng ve host ops s)
    (h : WellTracked s) : WellTracked s' := by
  induction ops generalizing s with
  | nil =>
    simp only [run_ops, Option.some.injEq] at hs
    rw [← hs]; exact h
  | cons op rest ih =>
    simp only [run_ops] at hs
    simp only [AllowedRun] at ha
    cases hst : step eng ve host op s with
    | none => simp [hst] at hs
    | some s1 =>
      simp only [hst] at hs ha
      exact ih s1 hs ha.2 (step_keeps eng ve host hk op s s1 hst ha.1 h)

theorem conversions_id (tc : TryCatch) (he : tc.Exception_run = id) (hs : tc.StackTrace_run = id)
    (s : State) : tc.conversions s = s := by
  unfold TryCatch.conversions
  split
  · rfl
  · rw [he, hs]
    rfl

theorem Keeps_of_id (tc : TryCatch) (he : tc.Exception_run = id) (hs : tc.StackTrace_run = id) :
    tc.Keeps := by
  intro s h
  rw [conversions_id tc he hs]
  exact h

theorem demo_keeps : KeepsTracked demoEngine demoValues demoHost := by
  constructor
  · intro script lc s h
    simp only [demoEngine]
    split <;> exact h
  · intro lc v s h
    simp only [demoValues]
    split <;> exact h
  · intro lc o k s h
    simp only [demoValues]
    split <;> exact h
  · intro lc o i s h
    simp only [demoValues]
    split <;> exact h
  · intro lc f r a s h
    simp only [demoValues]
    split <;> exact h
  · intro lc v s h
    exact h
  · intro c t a n s h
    exact h
  · intro lc a b
    simp only [demoEngine]
    split <;> exact Keeps_of_id _ rfl rfl
  · intro script lc s
    simp only [demoEngine]
    split <;> exact Keeps_of_id _ rfl rfl
  · intro lc v
    simp only [demoValues]
    split <;> exact Keeps_of_id _ rfl rfl
  · intro lc o k s
    simp only [demoValues]
    split <;> exact Keeps_of_id _ rfl rfl
  · intro lc o i s
    simp only [demoValues]
    split <;> exact Keeps_of_id _ rfl rfl
  · intro lc f r a s
    simp only [demoValues]
    split <;> exact Keeps_of_id _ rfl rfl

theorem demoCallback_keeps : KeepsTracked demoCallbackEngine demoValues demoHost := by
  refine { demo_keeps with run := ?_, compile_trap := ?_, run_trap := ?_ }
  · intro script lc s h
    simp only [demoCallbackEngine]
    split
    · rename_i r s' heq
      exact FunctionTemplateCallback_keeps demoEngine demoValues demoHost demo_keeps _ s _ s'
        heq h
    · exact h
  · intro lc a b
    exact Keeps_of_id _ rfl rfl
  · intro script lc s
    simp only [demoCallbackEngine]
    split <;> exact Keeps_of_id _ rfl rfl

theorem demoToString_keeps : KeepsTracked demoToStringEngine demoValues demoHost := by
  refine { demo_keeps with run := ?_, compile_trap := ?_, run_trap := ?_ }
  · intro script lc s h
    exact h
  · intro lc a b
    exact Keeps_of_id _ rfl rfl
  · intro script lc s t h
    have hc : trapToString.conversions t = trapToString.Exception_run t := rfl
    show WellTracked (trapToString.conversions t)
    rw [hc]
    simp only [trapToString]
    split
    · rename_i r s' heq
      exact FunctionTemplateCallback_keeps demoEngine demoValues demoHost demo_keeps _ t _ s'
        heq h
    · exact h

theorem ValueToObject_derived (ve : ValueEngine) (val : Ptr) (s : State) (r : Ptr) (s' : State)
    (hctx : (s.values val).ctx = 0) (hr : ValueToObject ve val s = some (r, s')) :
    (s'.values r).ctx = s.isoData (s.values val).iso 0 ∧
    r ∈ (s'.ctxs (s.isoData (s.values val).iso 0)).vals := by
  unfold ValueToObject at hr
  cases hL : LOCAL_VALUE val s with
  | none => simp [hL] at hr
  | some p =>
    obtain ⟨sc, s1⟩ := p
    have hsc : sc.ctx = s.isoData (s.values val).iso 0 := by
      unfold LOCAL_VALUE at hL
      simp only at hL
      split at hL
      · exact Option.noConfusion hL
      · simp only [Option.some.injEq, Prod.mk.injEq] at hL
        rw [← hL.1]
        simp [hctx, State.emit]
    simp only [hL] at hr
    split at hr
    · exact Option.noConfusion hr
    · split at hr
      · exact Option.noConfusion hr
      · rename_i v hv x t heq
        obtain ⟨p, n, q, hnew, -⟩ := new_m_value_spec sc.iso sc.ctx (some x) t
        simp only [Option.some.injEq, Prod.mk.injEq] at hr
        rw [← hr.1, ← hr.2, ← hsc, hnew]
        constructor
        · simp [tracked_value, State.emit, update]
        · simp [tracked_value, State.emit, update]

/-! ### Invariants of the registry -/

theorem demoRecycle_allowed :
    AllowedRun demoEngine demoValues demoHost demoRecycleOps State.empty :=
  ⟨trivial, trivial, trivial, Or.inr (by decide), trivial, trivial, trivial⟩

/-- C21, as stated, fails: the host releases the handle at address `4`, which
the context at address `3` tracks, and the allocator hands the address out
again for the handle of an integer.  Before the release the handle records the
context `3`; afterwards the address `4` is still an element of the tracked list
of the context `3`, which still holds its engine context, but the handle at
that address records the context `2` (and is tracked under it as well). -/
theorem released_handle_is_reused :
    (run_ops demoEngine demoValues demoHost (demoReuseOps.take 3) State.empty).map
        (fun s => ((s.ctxs 3).ptr, (s.ctxs 3).vals, (s.values 4).ctx)) =
      some (some 2, [4], 3) ∧
    (run_ops demoEngine demoValues demoHost demoReuseOps State.empty).map
        (fun s => ((s.ctxs 3).ptr, (s.ctxs 3).vals, (s.values 4).ctx, s.live 4,
          (s.ctxs 2).vals)) =
      some (some 2, [4], 2, true, [4]) := by
  constructor <;> rfl

/-- C21, amended: the invariant is kept by every operation other than a host
call of `ValueFree` on a tracked handle (each release operation being given a
pointer of its own kind that was not released before, and the engine and the
host reaching the memory only through such operations).  On the empty memory,
and after every such sequence of operations from it, every handle in the
tracked list of a context `C` that has not been freed records `C` as its
context and is live; each single such operation keeps this on a well-tracked
memory.  A handle that `ValueToObject` derives from a handle without context
records, and is tracked under, the context in data slot 0 of the isolate. -/
theorem tracked_handle_records_its_context (eng : Engine) (ve : ValueEngine) (host : Host)
    (hk : KeepsTracked eng ve host) :
    (∀ (ops : List Op) (s : State), AllowedRun eng ve host ops State.empty →
      run_ops eng ve host ops State.empty = some s →
      ∀ c h, s.opened c → h ∈ (s.ctxs c).vals → (s.values h).ctx = c ∧ s.live h = true) ∧
    (∀ (op : Op) (s s' : State), WellTracked s → Allowed s op →
      step eng ve host op s = some s' →
      ∀ c h, s'.opened c → h ∈ (s'.ctxs c).vals → (s'.values h).ctx = c ∧ s'.live h = true) ∧
    (∀ (val : Ptr) (s : State) (r : Ptr) (s' : State),
      (s.values val).ctx = 0 → ValueToObject ve val s = some (r, s') →
      (s'.values r).ctx = s.isoData (s.values val).iso 0 ∧
      r ∈ (s'.ctxs (s.isoData (s.values val).iso 0)).vals) := by
  refine ⟨?_, ?_, ?_⟩
  · intro ops s ha hs c h hc hh
    have hw := run_ops_keeps eng ve host hk ops State.empty s hs ha WellTracked_empty
    exact ⟨(hw.1 c h hc hh).1, (hw.1 c h hc hh).2.2.2.1⟩
  · intro op s s' hw0 ha hs c h hc hh
    have hw := step_keeps eng ve host hk op s s' hs ha hw0
    exact ⟨(hw.1 c h hc hh).1, (hw.1 c h hc hh).2.2.2.1⟩
  · intro val s r s' hctx hr
    exact ValueToObject_derived ve val s r s' hctx hr

theorem tracked_handle_records_its_context_witness :
    (∀ c h, demoRecycle.opened c → h ∈ (demoRecycle.ctxs c).vals →
      (demoRecycle.values h).ctx = c ∧ demoRecycle.live h = true) ∧
    ((demoCallbackRun.opened 1 ∧ (demoCallbackRun.ctxs 1).vals = [2]) ∧
      ∀ c h, demoCallbackRun.opened c → h ∈ (demoCallbackRun.ctxs c).vals →
        (demoCallbackRun.values h).ctx = c ∧ demoCallbackRun.live h = true) ∧
    (∀ c h, (ContextFree 2 demoRecycle).opened c → h ∈ ((ContextFree 2 demoRecycle).ctxs c).vals →
      ((ContextFree 2 demoRecycle).values h).ctx = c ∧ (ContextFree 2 demoRecycle).live h = true) ∧
    ((demoDerived.2.values demoDerived.1).ctx = demoException.isoData (demoException.values 6).iso 0
      ∧ demoDerived.1 ∈
        (demoDerived.2.ctxs (demoException.isoData (demoException.values 6).iso 0)).vals) :=
  ⟨(tracked_handle_records_its_context demoEngine demoValues demoHost demo_keeps).1
      demoRecycleOps demoRecycle demoRecycle_allowed rfl,
   ⟨⟨by decide, rfl⟩,
    (tracked_handle_records_its_context demoCallbackEngine demoValues demoHost
      demoCallback_keeps).1 demoCallbackOps demoCallbackRun ⟨trivial, trivial, trivial⟩ rfl⟩,
   (tracked_handle_records_its_context demoEngine demoValues demoHost demo_keeps).2.1
      (Op.ContextFree 2) demoRecycle (ContextFree 2 demoRecycle)
      (run_ops_keeps demoEngine demoValues demoHost demo_keeps demoRecycleOps State.empty
        demoRecycle rfl demoRecycle_allowed WellTracked_empty)
      (Or.inr (by decide)) rfl,
   (tracked_handle_records_its_context demoEngine demoValues demoHost demo_keeps).2.2 6
      demoException demoDerived.1 demoDerived.2 rfl rfl⟩

/-- C23, as stated, fails: a script that calls a host function with one argument
and then throws makes `RunScript` return a null value and an Error, yet the
tracked list of the context, empty before the call, holds the handle the
trampoline allocated for the argument. -/
theorem failed_run_leaves_tracked_argument :
    (demoState.ctxs 1).vals = [] ∧ demoState.next = 1 ∧
    (RunScript demoCallbackEngine 1 "f(10); throw 1" "main.js" demoState).map
        (fun r => (r.1.value, r.1.error.msg.isSome, (r.2.ctxs 1).vals, r.2.next, r.2.live 2)) =
      some (0, true, [2], 2, true) := by
  refine ⟨rfl, rfl, ?_⟩
  rfl

theorem failure_tail_memory (tc : TryCatch) (iso : Ptr) (s : State) :
    ((ExceptionError tc iso s).2.emit (Event.unlock iso)).ctxs =
      (tc.conversions (s.emit (Event.lock iso))).ctxs ∧
    ((ExceptionError tc iso s).2.emit (Event.unlock iso)).values =
      (tc.conversions (s.emit (Event.lock iso))).values ∧
    ((ExceptionError tc iso s).2.emit (Event.unlock iso)).next =
      (tc.conversions (s.emit (Event.lock iso))).next ∧
    ((ExceptionError tc iso s).2.emit (Event.unlock iso)).live =
      (tc.conversions (s.emit (Event.lock iso))).live := by
  rw [ExceptionError_state]
  exact ⟨rfl, rfl, rfl, rfl⟩

/-- C23, amended: when the engine call of `RunScript`, `JSONParse`, `ObjectGet`,
`ObjectGetIdx` or `FunctionCall` yields empty, the operation returns a null
value and itself allocates nothing and appends nothing: the records, the tracked
lists and what the allocator has handed out are after the operation those
left by the engine call and, after it, by the conversions the exception
translator makes of the exception and of its stack trace, which run script and
with it host callbacks that allocate and track handles.  The translator makes
no conversion when execution was terminated, and a conversion that leaves the
memory as it is leaves it so here.  For a failed compilation and for
`JSONParse`, whose engine call runs no script, the conversions start from the
memory as it was before the call, with the events so far; the other engine
calls are entered with the memory as it was before the call. -/
theorem failure_leaves_memory (eng : Engine) (ve : ValueEngine) (s : State) :
    (∀ (ctx_ptr : Ptr) (source origin : String) (local_ctx : LocalContext)
        (src ogn : LocalValue) (tc : TryCatch),
      (s.ctxs ctx_ptr).ptr = some local_ctx →
      eng.String_NewFromUtf8 source = some src →
      eng.String_NewFromUtf8 origin = some ogn →
      eng.Script_Compile local_ctx src ogn = (none, tc) →
      ∃ r s', RunScript eng ctx_ptr source origin s = some (r, s') ∧ r.value = 0 ∧
        s'.ctxs = (tc.conversions (((s.emit (Event.lock (s.ctxs ctx_ptr).iso)).emit (Event.compile local_ctx)).emit
            (Event.lock (s.ctxs ctx_ptr).iso))).ctxs ∧
        s'.values = (tc.conversions (((s.emit (Event.lock (s.ctxs ctx_ptr).iso)).emit (Event.compile local_ctx)).emit
            (Event.lock (s.ctxs ctx_ptr).iso))).values ∧
        s'.next = (tc.conversions (((s.emit (Event.lock (s.ctxs ctx_ptr).iso)).emit (Event.compile local_ctx)).emit
            (Event.lock (s.ctxs ctx_ptr).iso))).next ∧
        s'.live = (tc.conversions (((s.emit (Event.lock (s.ctxs ctx_ptr).iso)).emit (Event.compile local_ctx)).emit
            (Event.lock (s.ctxs ctx_ptr).iso))).live) ∧
    (∀ (ctx_ptr : Ptr) (source origin : String) (local_ctx : LocalContext)
        (src ogn : LocalValue) (script : Script) (tc1 tc2 : TryCatch) (s1 : State),
      (s.ctxs ctx_ptr).ptr = some local_ctx →
      eng.String_NewFromUtf8 source = some src →
      eng.String_NewFromUtf8 origin = some ogn →
      eng.Script_Compile local_ctx src ogn = (some script, tc1) →
      eng.Script_Run script local_ctx
        (((s.emit (Event.lock (s.ctxs ctx_ptr).iso)).emit (Event.compile local_ctx)).emit
          (Event.run script local_ctx)) = ((none, tc2), s1) →
      ∃ r s', RunScript eng ctx_ptr source origin s = some (r, s') ∧ r.value = 0 ∧
        s'.ctxs = (tc2.conversions (s1.emit (Event.lock (s.ctxs ctx_ptr).iso))).ctxs ∧
        s'.values = (tc2.conversions (s1.emit (Event.lock (s.ctxs ctx_ptr).iso))).values ∧
        s'.next = (tc2.conversions (s1.emit (Event.lock (s.ctxs ctx_ptr).iso))).next ∧
        s'.live = (tc2.conversions (s1.emit (Event.lock (s.ctxs ctx_ptr).iso))).live) ∧
    (∀ (ctx_ptr : Ptr) (str : String) (local_ctx : LocalContext) (json : LocalValue)
        (tc : TryCatch),
      (s.ctxs ctx_ptr).ptr = some local_ctx →
      eng.String_NewFromUtf8 str = some json →
      ve.JSON_Parse local_ctx json = (none, tc) →
      ∃ r s', JSONParse eng ve ctx_ptr str s = some (r, s') ∧ r.value = 0 ∧
        s'.ctxs = (tc.conversions ((s.emit (Event.lock (s.ctxs ctx_ptr).iso)).emit (Event.lock (s.ctxs ctx_ptr).iso))).ctxs ∧
        s'.values = (tc.conversions ((s.emit (Event.lock (s.ctxs ctx_ptr).iso)).emit (Event.lock (s.ctxs ctx_ptr).iso))).values ∧
        s'.next = (tc.conversions ((s.emit (Event.lock (s.ctxs ctx_ptr).iso)).emit (Event.lock (s.ctxs ctx_ptr).iso))).next ∧
        s'.live = (tc.conversions ((s.emit (Event.lock (s.ctxs ctx_ptr).iso)).emit (Event.lock (s.ctxs ctx_ptr).iso))).live) ∧
    (∀ (ptr : Ptr) (key : String) (sc : ValueScope) (s1 : State) (key_val obj : LocalValue)
        (tc : TryCatch) (s2 : State),
      LOCAL_VALUE ptr s = some (sc, s1) →
      eng.String_NewFromUtf8 key = some key_val →
      sc.value = some obj →
      ve.Object_Get sc.local_ctx obj key_val s1 = ((none, tc), s2) →
      (s1.ctxs = s.ctxs ∧ s1.values = s.values ∧ s1.next = s.next ∧ s1.live = s.live) ∧
      ∃ r s', ObjectGet eng ve ptr key s = some (r, s') ∧ r.value = 0 ∧
        s'.ctxs = (tc.conversions (s2.emit (Event.lock sc.iso))).ctxs ∧
        s'.values = (tc.conversions (s2.emit (Event.lock sc.iso))).values ∧
        s'.next = (tc.conversions (s2.emit (Event.lock sc.iso))).next ∧
        s'.live = (tc.conversions (s2.emit (Event.lock sc.iso))).live) ∧
    (∀ (ptr : Ptr) (idx : Nat) (sc : ValueScope) (s1 : State) (obj : LocalValue)
        (tc : TryCatch) (s2 : State),
      LOCAL_VALUE ptr s = some (sc, s1) →
      sc.value = some obj →
      ve.Object_GetIdx sc.local_ctx obj idx s1 = ((none, tc), s2) →
      (s1.ctxs = s.ctxs ∧ s1.values = s.values ∧ s1.next = s.next ∧ s1.live = s.live) ∧
      ∃ r s', ObjectGetIdx ve ptr idx s = some (r, s') ∧ r.value = 0 ∧
        s'.ctxs = (tc.conversions (s2.emit (Event.lock sc.iso))).ctxs ∧
        s'.values = (tc.conversions (s2.emit (Event.lock sc.iso))).values ∧
        s'.next = (tc.conversions (s2.emit (Event.lock sc.iso))).next ∧
        s'.live = (tc.conversions (s2.emit (Event.lock sc.iso))).live) ∧
    (∀ (ptr : Ptr) (args : List Ptr) (sc : ValueScope) (s1 : State) (fn : LocalValue)
        (tc : TryCatch) (s2 : State),
      LOCAL_VALUE ptr s = some (sc, s1) →
      sc.value = some fn →
      ve.Function_Call sc.local_ctx fn ve.Undefined
        (args.map (fun arg => (s1.values arg).ptr)) s1 = ((none, tc), s2) →
      (s1.ctxs = s.ctxs ∧ s1.values = s.values ∧ s1.next = s.next ∧ s1.live = s.live) ∧
      ∃ r s', FunctionCall ve ptr args s = some (r, s') ∧ r.value = 0 ∧
        s'.ctxs = (tc.conversions (s2.emit (Event.lock sc.iso))).ctxs ∧
        s'.values = (tc.conversions (s2.emit (Event.lock sc.iso))).values ∧
        s'.next = (tc.conversions (s2.emit (Event.lock sc.iso))).next ∧
        s'.live = (tc.conversions (s2.emit (Event.lock sc.iso))).live) ∧
    (∀ (tc : TryCatch) (t : State),
      (tc.HasTerminated = true → tc.conversions t = t) ∧
      (tc.Exception_run t = t → tc.StackTrace_run t = t → tc.conversions t = t)) := by
  refine ⟨?_, ?_, ?_, ?_, ?_, ?_, ?_⟩
  · intro ctx_ptr source origin local_ctx src ogn tc hctx hsrc hogn hcompile
    obtain ⟨m1, m2, m3, m4⟩ := failure_tail_memory tc (s.ctxs ctx_ptr).iso
      ((s.emit (Event.lock (s.ctxs ctx_ptr).iso)).emit (Event.compile local_ctx))
    exact ⟨_, _, RunScript_compile_failure_eq eng ctx_ptr source origin s local_ctx src ogn tc
      hctx hsrc hogn hcompile, rfl, m1, m2, m3, m4⟩
  · intro ctx_ptr source origin local_ctx src ogn script tc1 tc2 s1 hctx hsrc hogn hcompile hrun
    obtain ⟨m1, m2, m3, m4⟩ := failure_tail_memory tc2 (s.ctxs ctx_ptr).iso s1
    exact ⟨_, _, RunScript_run_failure_eq eng ctx_ptr source origin s local_ctx src ogn script
      tc1 tc2 s1 hctx hsrc hogn hcompile hrun, rfl, m1, m2, m3, m4⟩
  · intro ctx_ptr str local_ctx json tc hctx hstr hparse
    obtain ⟨m1, m2, m3, m4⟩ := failure_tail_memory tc (s.ctxs ctx_ptr).iso
      (s.emit (Event.lock (s.ctxs ctx_ptr).iso))
    exact ⟨_, _, JSONParse_failure_eq eng ve ctx_ptr str s local_ctx json tc hctx hstr hparse,
      rfl, m1, m2, m3, m4⟩
  · intro ptr key sc s1 key_val obj tc s2 hL hkey hobj hget
    obtain ⟨m1, m2, m3, m4⟩ := failure_tail_memory tc sc.iso s2
    refine ⟨?_, _, _, ObjectGet_failure_eq eng ve ptr key s sc s1 key_val obj tc s2 hL hkey
      hobj hget, rfl, m1, m2, m3, m4⟩
    rw [(LOCAL_VALUE_some ptr s sc s1 hL).1]
    exact ⟨rfl, rfl, rfl, rfl⟩
  · intro ptr idx sc s1 obj tc s2 hL hobj hget
    obtain ⟨m1, m2, m3, m4⟩ := failure_tail_memory tc sc.iso s2
    refine ⟨?_, _, _, ObjectGetIdx_failure_eq ve ptr idx s sc s1 obj tc s2 hL hobj hget,
      rfl, m1, m2, m3, m4⟩
    rw [(LOCAL_VALUE_some ptr s sc s1 hL).1]
    exact ⟨rfl, rfl, rfl, rfl⟩
  · intro ptr args sc s1 fn tc s2 hL hfn hcall
    obtain ⟨m1, m2, m3, m4⟩ := failure_tail_memory tc sc.iso s2
    refine ⟨?_, _, _, FunctionCall_failure_eq ve ptr args s sc s1 fn tc s2 hL hfn hcall,
      rfl, m1, m2, m3, m4⟩
    rw [(LOCAL_VALUE_some ptr s sc s1 hL).1]
    exact ⟨rfl, rfl, rfl, rfl⟩
  · intro tc t
    refine ⟨?_, ?_⟩
    · intro ht
      simp [TryCatch.conversions, ht]
    · intro he hs
      unfold TryCatch.conversions
      split
      · rfl
      · rw [he, hs]

theorem failure_leaves_memory_witness :
    (∃ r s', RunScript demoEngine 3 "1+" "main.js" demoWorld = some (r, s') ∧ r.value = 0 ∧
      s'.ctxs = (trapSyntax.conversions (((demoWorld.emit (Event.lock 1)).emit (Event.compile 2)).emit (Event.lock 1))).ctxs ∧
      s'.values = (trapSyntax.conversions (((demoWorld.emit (Event.lock 1)).emit (Event.compile 2)).emit (Event.lock 1))).values ∧
      s'.next = (trapSyntax.conversions (((demoWorld.emit (Event.lock 1)).emit (Event.compile 2)).emit (Event.lock 1))).next ∧
      s'.live = (trapSyntax.conversions (((demoWorld.emit (Event.lock 1)).emit (Event.compile 2)).emit (Event.lock 1))).live) ∧
    (∃ r s', RunScript demoToStringEngine 1 "x" "main.js" demoState = some (r, s') ∧ r.value = 0 ∧
      s'.ctxs = (trapToString.conversions ((((demoState.emit (Event.lock 1)).emit (Event.compile 1)).emit (Event.run 1 1)).emit
          (Event.lock 1))).ctxs ∧
      s'.values = (trapToString.conversions ((((demoState.emit (Event.lock 1)).emit (Event.compile 1)).emit (Event.run 1 1)).emit
          (Event.lock 1))).values ∧
      s'.next = (trapToString.conversions ((((demoState.emit (Event.lock 1)).emit (Event.compile 1)).emit (Event.run 1 1)).emit
          (Event.lock 1))).next ∧
      s'.live = (trapToString.conversions ((((demoState.emit (Event.lock 1)).emit (Event.compile 1)).emit (Event.run 1 1)).emit
          (Event.lock 1))).live) ∧
    (∃ r s', JSONParse demoEngine demoValues 3 "" demoWorld = some (r, s') ∧ r.value = 0 ∧
      s'.ctxs = (trapSyntax.conversions ((demoWorld.emit (Event.lock 1)).emit (Event.lock 1))).ctxs ∧
      s'.values = (trapSyntax.conversions ((demoWorld.emit (Event.lock 1)).emit (Event.lock 1))).values ∧
      s'.next = (trapSyntax.conversions ((demoWorld.emit (Event.lock 1)).emit (Event.lock 1))).next ∧
      s'.live = (trapSyntax.conversions ((demoWorld.emit (Event.lock 1)).emit (Event.lock 1))).live) ∧
    (∃ r s', ObjectGet demoEngine demoValues 4 "" demoWorld = some (r, s') ∧ r.value = 0 ∧
      s'.ctxs = (trapColumn4.conversions ((demoWorld.emit (Event.lock 1)).emit (Event.lock 1))).ctxs ∧
      s'.values = (trapColumn4.conversions ((demoWorld.emit (Event.lock 1)).emit (Event.lock 1))).values ∧
      s'.next = (trapColumn4.conversions ((demoWorld.emit (Event.lock 1)).emit (Event.lock 1))).next ∧
      s'.live = (trapColumn4.conversions ((demoWorld.emit (Event.lock 1)).emit (Event.lock 1))).live) ∧
    (∃ r s', ObjectGetIdx demoValues 4 0 demoWorld = some (r, s') ∧ r.value = 0 ∧
      s'.ctxs = (trapColumn4.conversions ((demoWorld.emit (Event.lock 1)).emit (Event.lock 1))).ctxs ∧
      s'.values = (trapColumn4.conversions ((demoWorld.emit (Event.lock 1)).emit (Event.lock 1))).values ∧
      s'.next = (trapColumn4.conversions ((demoWorld.emit (Event.lock 1)).emit (Event.lock 1))).next ∧
      s'.live = (trapColumn4.conversions ((demoWorld.emit (Event.lock 1)).emit (Event.lock 1))).live) ∧
    (∃ r s', FunctionCall demoValues 4 [] demoWorld = some (r, s') ∧ r.value = 0 ∧
      s'.ctxs = (trapColumn4.conversions ((demoWorld.emit (Event.lock 1)).emit (Event.lock 1))).ctxs ∧
      s'.values = (trapColumn4.conversions ((demoWorld.emit (Event.lock 1)).emit (Event.lock 1))).values ∧
      s'.next = (trapColumn4.conversions ((demoWorld.emit (Event.lock 1)).emit (Event.lock 1))).next ∧
      s'.live = (trapColumn4.conversions ((demoWorld.emit (Event.lock 1)).emit (Event.lock 1))).live) :=
  ⟨(failure_leaves_memory demoEngine demoValues demoWorld).1 3 "1+" "main.js" 2 2 7 trapSyntax
     rfl rfl rfl rfl,
   (failure_leaves_memory demoToStringEngine demoValues demoState).2.1 1 "x" "main.js" 1 1 7 1
     trapClear trapToString
     (((demoState.emit (Event.lock 1)).emit (Event.compile 1)).emit (Event.run 1 1))
     rfl rfl rfl rfl rfl,
   (failure_leaves_memory demoEngine demoValues demoWorld).2.2.1 3 "" 2 0 trapSyntax
     rfl rfl rfl,
   ((failure_leaves_memory demoEngine demoValues demoWorld).2.2.2.1 4 ""
     { iso := 1, ctx := 3, local_ctx := 2, value := some 10 } (demoWorld.emit (Event.lock 1))
     0 10 trapColumn4 (demoWorld.emit (Event.lock 1)) rfl rfl rfl rfl).2,
   ((failure_leaves_memory demoEngine demoValues demoWorld).2.2.2.2.1 4 0
     { iso := 1, ctx := 3, local_ctx := 2, value := some 10 } (demoWorld.emit (Event.lock 1))
     10 trapColumn4 (demoWorld.emit (Event.lock 1)) rfl rfl rfl).2,
   ((failure_leaves_memory demoEngine demoValues demoWorld).2.2.2.2.2.1 4 []
     { iso := 1, ctx := 3, local_ctx := 2, value := some 10 } (demoWorld.emit (Event.lock 1))
     10 trapColumn4 (demoWorld.emit (Event.lock 1)) rfl rfl rfl).2⟩

theorem conversion_leaves_tracked_argument :
    (demoState.ctxs 1).vals = [] ∧
    (RunScript demoToStringEngine 1 "x" "main.js" demoState).map
        (fun r => (r.1.value, r.1.error.msg.isSome, (r.2.ctxs 1).vals, r.2.next, r.2.live 2)) =
      some (0, true, [2], 2, true) := by
  constructor <;> rfl

end V8go
